import Mathlib

/-!
# Registry `begin` chain element: entity map, event factories, serialized tasks

A shallow embedding of `pkg/registry/common/begin` (`nse_client.go`, `nse_server.go`,
`ns_event_factory.go`).

* Pointers to event factories are addresses (`Nat`) into a heap `World.factories`; pointer
  comparison in the source is comparison of addresses.
* The `genericsync.Map` embedded in `beginNSEClient` / `beginNSEServer` is `World.map`.
* The rest of the chain (`next.…(ctx)`) is a parameter `Next`; every invocation is appended to
  `World.calls`, and the answer of the next stage may depend on the calls made so far.
* `executor.AsyncExec(task)` is modelled by the function that runs `task` on the world in which the
  executor reaches it; `<-executor.AsyncExec(task)` inside one call runs the task at once.
  Recursion of `Register` / `Unregister` into themselves is bounded by a fuel argument.
-/

namespace begin

/-! ## Data model -/

/-- Outbound call options (`grpc.CallOption`), kept abstract. -/
abbrev CallOption := String

/-- Error values: `errors.New`, `errors.Wrap`, and errors produced outside `pkg/errors`. -/
inductive Error where
  | New (msg : String)
  | Wrap (cause : Error) (msg : String)
  | Foreign (msg : String)
  deriving DecidableEq, Repr

/-- A `context.Context`, reduced to the event factory it carries (`fromContext`) and a bag of
ambient values. -/
structure Context where
  eventFactory : Option Nat := none
  values : List (String × String) := []
  deriving DecidableEq, Repr

/-- Source: `fromContext(ctx)`; `none` is the nil event factory. -/
def fromContext (ctx : Context) : Option Nat := ctx.eventFactory

/-- Source: `withEventFactory(ctx, f)`. -/
def withEventFactory (ctx : Context) (f : Nat) : Context := { ctx with eventFactory := some f }

/-- The message `registry.NetworkServiceEndpoint`. -/
structure NetworkServiceEndpoint where
  Name : String := ""
  NetworkServiceNames : List String := []
  NetworkServiceLabels : Option (List (String × List (String × String))) := none
  Url : String := ""
  ExpirationTime : Option Nat := none
  InitialRegistrationTime : Option Nat := none
  PathIds : List String := []
  deriving DecidableEq, Repr

/-- The message `registry.Metadata`; `Labels` is `none` for a nil map. -/
structure Metadata where
  Labels : Option (List (String × String)) := none
  deriving DecidableEq, Repr

/-- The message `registry.Match` (its routes are not read by the elements embedded here);
`Metadata` is `none` for a nil pointer. -/
structure Match where
  SourceSelector : List (String × String) := []
  Fallthrough : Bool := false
  Metadata : Option Metadata := none
  deriving DecidableEq, Repr

/-- The message `registry.NetworkService` (the fields the embedded elements observe). -/
structure NetworkService where
  Name : String := ""
  Payload : String := ""
  PathIds : List String := []
  Matches : List Match := []
  deriving DecidableEq, Repr

/-- Source: `in.GetName()`. -/
def NetworkServiceEndpoint.GetName (i : NetworkServiceEndpoint) : String := i.Name

/-- Modelled from the spec: the declaration of `connectionState` is not among the sources; the
spec gives `state ∈ {new, established, closed}` with initial value `new`. -/
inductive connectionState where
  | new
  | established
  | closed
  deriving DecidableEq, Repr

/-- The fields of `eventNSFactoryClient` / `eventNSFactoryServer` (`ns_event_factory.go`).
`afterClose` is the callback handed to the constructor: `none` is a nil callback and `some id` is
the closure `func() { b.Delete(id) }`, the only callback the begin elements create. `initialCtx`
and `valueCtx` stand for `initialCtxFunc` and for the context captured by `updateContext`. Server
factories have no `opts`; theirs stay empty. -/
structure EventFactory (α : Type) where
  state : connectionState := connectionState.new
  initialCtx : Context := {}
  valueCtx : Context := {}
  registration : Option α := none
  response : Option α := none
  opts : List CallOption := []
  afterClose : Option String := none

/-- One invocation of the next stage, with the arguments it received. -/
inductive Call (α : Type) where
  | Register (ctx : Context) (i : Option α) (opts : List CallOption)
  | Unregister (ctx : Context) (i : Option α) (opts : List CallOption)

/-- The remainder of the chain: what `Register` and `Unregister` of the next stage return, given
the invocations made before. `Unregister` returns only its error. -/
structure Next (α : Type) where
  Register : List (Call α) → Context → Option α → List CallOption → Option α × Option Error
  Unregister : List (Call α) → Context → Option α → List CallOption → Option Error

/-- Program state: the heap of event factories, the next unused address, the Entity Map of a
begin element, and the invocations of the next stage so far. -/
structure World (α : Type) where
  factories : Nat → EventFactory α := fun _ => {}
  nextFree : Nat := 0
  map : String → Option Nat := fun _ => none
  calls : List (Call α) := []

variable {α : Type}

/-- Assignment through a factory pointer. -/
def World.setFactory (w : World α) (f : Nat) (v : EventFactory α) : World α :=
  { w with factories := fun p => if p = f then v else w.factories p }

/-- Source: `b.Load(id)`. -/
def World.Load (w : World α) (id : String) : Option Nat := w.map id

/-- Source: `b.Delete(id)`. -/
def World.Delete (w : World α) (id : String) : World α :=
  { w with map := fun k => if k = id then none else w.map k }

/-- Source: `b.LoadOrStore(id, fresh)`: the stored factory when there is one, otherwise `fresh`
is placed at a new address and stored. A factory built for the call but not stored is dropped by
the source without being observed, so it is given no address. -/
def World.LoadOrStore (w : World α) (id : String) (fresh : EventFactory α) : Nat × World α :=
  match w.map id with
  | some p => (p, w)
  | none =>
    (w.nextFree,
      { w with
        factories := fun p => if p = w.nextFree then fresh else w.factories p
        nextFree := w.nextFree + 1
        map := fun k => if k = id then some w.nextFree else w.map k })

/-- Records an invocation of the next stage. -/
def World.record (w : World α) (c : Call α) : World α := { w with calls := w.calls ++ [c] }

/-! ## Event factories (`ns_event_factory.go`) -/

/-- Source: `newEventNSFactoryClient(ctx, afterClose, opts...)`; the state is the zero value. -/
def newEventNSFactoryClient (ctx : Context) (afterClose : Option String)
    (opts : List CallOption) : EventFactory α :=
  { initialCtx := ctx, valueCtx := ctx, opts := opts, afterClose := afterClose }

/-- Source: `newNSEventFactoryServer(ctx, afterClose)`; the callback is called without a nil
check, so it is a closure. -/
def newNSEventFactoryServer (ctx : Context) (afterClose : String) : EventFactory α :=
  { initialCtx := ctx, valueCtx := ctx, afterClose := some afterClose }

/-- Source: `f.afterCloseFunc()` as set by the constructors: `f.state = closed`, then the
callback. -/
def afterCloseFunc (w : World α) (f : Nat) : World α :=
  let w1 := w.setFactory f { w.factories f with state := connectionState.closed }
  match (w.factories f).afterClose with
  | some id => w1.Delete id
  | none => w1

/-- Source: `f.updateContext(valueCtx)`. -/
def updateContext (w : World α) (f : Nat) (valueCtx : Context) : World α :=
  w.setFactory f { w.factories f with valueCtx := valueCtx }

/-- Source: `f.ctxFunc()` as set by `updateContext`:
`withEventFactory(extend.WithValuesFromContext(eventCtx, valueCtx), f)`.
Modelled from the spec: `extend.WithValuesFromContext` and `postpone.Context` are not among the
sources; the context snapshot is the value bag captured at creation, extended with the values of
the context of the last successful Register. -/
def ctxFunc (w : World α) (f : Nat) : Context :=
  withEventFactory
    { eventFactory := (w.factories f).initialCtx.eventFactory
      values := (w.factories f).valueCtx.values ++ (w.factories f).initialCtx.values } f

/-- Source: the task queued by `eventNSFactoryClient.Register(opts...)`, run on `w`.
`cancelDone` tells whether `o.cancelCtx` is done when the task runs. The result lists what is
sent on the channel before it is closed. -/
def eventNSFactoryClient.Register (mergeNS : Option α → Option α → Option α) (nx : Next α)
    (w : World α) (f : Nat) (cancelDone : Bool) : List (Option Error) × World α :=
  if (w.factories f).state ≠ connectionState.established then ([], w)
  else if cancelDone then ([], w)
  else
    let registration := (w.factories f).registration
    let ctx := ctxFunc w f
    let r := nx.Register w.calls ctx registration (w.factories f).opts
    let w1 := w.record (Call.Register ctx registration (w.factories f).opts)
    let w2 :=
      if r.2.isNone && (w1.factories f).registration.isSome then
        w1.setFactory f
          { w1.factories f with registration := mergeNS (w1.factories f).registration r.1 }
      else w1
    ([r.2], w2)

/-- Source: the task queued by `eventNSFactoryClient.Unregister(opts...)`, run on `w`. -/
def eventNSFactoryClient.Unregister (nx : Next α)
    (w : World α) (f : Nat) (cancelDone : Bool) : List (Option Error) × World α :=
  if (w.factories f).registration.isNone then ([], w)
  else if cancelDone then ([], w)
  else
    let ctx := ctxFunc w f
    let err := nx.Unregister w.calls ctx (w.factories f).response (w.factories f).opts
    let w1 := w.record (Call.Unregister ctx (w.factories f).response (w.factories f).opts)
    ([err], afterCloseFunc w1 f)

/-- Source: the task queued by `eventNSFactoryServer.Register(opts...)`, run on `w`. -/
def eventNSFactoryServer.Register (nx : Next α)
    (w : World α) (f : Nat) (cancelDone : Bool) : List (Option Error) × World α :=
  if (w.factories f).state ≠ connectionState.established then ([], w)
  else if cancelDone then ([], w)
  else
    let ctx := ctxFunc w f
    let r := nx.Register w.calls ctx (w.factories f).registration []
    let w1 := w.record (Call.Register ctx (w.factories f).registration [])
    let w2 :=
      if r.2.isNone && (w1.factories f).registration.isSome then
        w1.setFactory f { w1.factories f with registration := r.1 }
      else w1
    ([r.2], w2)

/-- Source: the task queued by `eventNSFactoryServer.Unregister(opts...)`, run on `w`. -/
def eventNSFactoryServer.Unregister (nx : Next α)
    (w : World α) (f : Nat) (cancelDone : Bool) : List (Option Error) × World α :=
  if (w.factories f).registration.isNone then ([], w)
  else if cancelDone then ([], w)
  else
    let ctx := ctxFunc w f
    let err := nx.Unregister w.calls ctx (w.factories f).registration []
    let w1 := w.record (Call.Unregister ctx (w.factories f).registration [])
    ([err], afterCloseFunc w1 f)

/-! ## The begin elements (`nse_client.go`, `nse_server.go`) -/

/-- Modelled from the spec: `newEventNSEFactoryClient` (`nse_event_factory.go`) is not among the
sources. It is taken to be its sibling `newEventNSFactoryClient` at endpoints: a controller in the
initial state whose close callback sets the state to closed and then runs the eviction handed to
it. -/
def newEventNSEFactoryClient (ctx : Context) (afterClose : Option String)
    (opts : List CallOption) : EventFactory NetworkServiceEndpoint :=
  newEventNSFactoryClient ctx afterClose opts

/-- Modelled from the spec: `newNSEEventFactoryServer` (`nse_event_factory.go`) is not among the
sources. It is taken to be its sibling `newNSEventFactoryServer` at endpoints. -/
def newNSEEventFactoryServer (ctx : Context) (afterClose : String) :
    EventFactory NetworkServiceEndpoint :=
  newNSEventFactoryServer ctx afterClose

/-- What `Register` returns: response and error. -/
abbrev RegisterResult := Option NetworkServiceEndpoint × Option Error

section
variable (mergeNSE : Option NetworkServiceEndpoint → Option NetworkServiceEndpoint →
  Option NetworkServiceEndpoint) (nx : Next NetworkServiceEndpoint)

mutual
/-- Source: `beginNSEClient.Register`. `mergeNSE` is not among the sources and is a parameter.
The result is `none` only when the fuel bounding the recursion runs out. -/
def beginNSEClient.Register :
    Nat → World NetworkServiceEndpoint → Context → NetworkServiceEndpoint → List CallOption →
      Option (RegisterResult × World NetworkServiceEndpoint)
  | 0, _, _, _, _ => none
  | fuel + 1, w, ctx, i, opts =>
    if i.GetName = "" then
      some ((none,
        some (Error.New "registry.NetworkServiceEndpoint.Name must not be zero valued")), w)
    else if (fromContext ctx).isSome then
      some (nx.Register w.calls ctx (some i) opts, w.record (Call.Register ctx (some i) opts))
    else
      beginNSEClient.RegisterTask fuel
        (w.LoadOrStore i.GetName (newEventNSEFactoryClient ctx (some i.GetName) opts)).2
        (w.LoadOrStore i.GetName (newEventNSEFactoryClient ctx (some i.GetName) opts)).1
        ctx i opts
/-- Source: the function `beginNSEClient.Register` hands to `executor.AsyncExec`, queued by the
factory `eventFactoryClient` and run on `w`. -/
def beginNSEClient.RegisterTask :
    Nat → World NetworkServiceEndpoint → Nat → Context → NetworkServiceEndpoint →
      List CallOption → Option (RegisterResult × World NetworkServiceEndpoint)
  | fuel, w, eventFactoryClient, ctx, i, opts =>
    if w.Load i.GetName ≠ some eventFactoryClient then
      match fuel with
      | 0 => none
      | fuel + 1 => beginNSEClient.Register fuel w ctx i opts
    else
      let withEventFactoryCtx := withEventFactory ctx eventFactoryClient
      let r := nx.Register w.calls withEventFactoryCtx (some i) opts
      let w1 := w.record (Call.Register withEventFactoryCtx (some i) opts)
      if r.2.isSome then
        if (w1.factories eventFactoryClient).state ≠ connectionState.established then
          some (r, (w1.setFactory eventFactoryClient
            { w1.factories eventFactoryClient with state := connectionState.closed }).Delete
              i.GetName)
        else some (r, w1)
      else
        some (r, updateContext (w1.setFactory eventFactoryClient
          { w1.factories eventFactoryClient with
            opts := opts
            state := connectionState.established
            registration := mergeNSE (some i) r.1
            response := r.1 }) eventFactoryClient ctx)
end

mutual
/-- Source: `beginNSEClient.Unregister`; the result is the returned error (the first return value
is always `&emptypb.Empty{}`). -/
def beginNSEClient.Unregister :
    Nat → World NetworkServiceEndpoint → Context → NetworkServiceEndpoint → List CallOption →
      Option (Option Error × World NetworkServiceEndpoint)
  | 0, _, _, _, _ => none
  | fuel + 1, w, ctx, i, opts =>
    if (fromContext ctx).isSome then
      some (nx.Unregister w.calls ctx (some i) opts, w.record (Call.Unregister ctx (some i) opts))
    else
      beginNSEClient.UnregisterTask fuel
        (w.LoadOrStore i.GetName (newEventNSEFactoryClient ctx (some i.GetName) [])).2
        (w.LoadOrStore i.GetName (newEventNSEFactoryClient ctx (some i.GetName) [])).1
        ctx i opts
/-- Source: the function `beginNSEClient.Unregister` hands to `executor.AsyncExec`, queued by the
factory `eventFactoryClient` and run on `w`. -/
def beginNSEClient.UnregisterTask :
    Nat → World NetworkServiceEndpoint → Nat → Context → NetworkServiceEndpoint →
      List CallOption → Option (Option Error × World NetworkServiceEndpoint)
  | fuel, w, eventFactoryClient, ctx, i, opts =>
    if w.Load i.GetName ≠ some eventFactoryClient then
      match fuel with
      | 0 => none
      | fuel + 1 => beginNSEClient.Unregister fuel w ctx i opts
    else
      let registration :=
        if (w.factories eventFactoryClient).registration.isNone then some i
        else (w.factories eventFactoryClient).registration
      let withEventFactoryCtx := withEventFactory ctx eventFactoryClient
      let err := nx.Unregister w.calls withEventFactoryCtx registration opts
      let w1 := w.record (Call.Unregister withEventFactoryCtx registration opts)
      some (err, afterCloseFunc w1 eventFactoryClient)
end

mutual
/-- Source: `beginNSEServer.Register`. -/
def beginNSEServer.Register :
    Nat → World NetworkServiceEndpoint → Context → NetworkServiceEndpoint →
      Option (RegisterResult × World NetworkServiceEndpoint)
  | 0, _, _, _ => none
  | fuel + 1, w, ctx, i =>
    if i.GetName = "" then
      some ((none, some (Error.New "NetworkServiceEndpoint.Name can not be zero valued")), w)
    else if (fromContext ctx).isSome then
      some (nx.Register w.calls ctx (some i) [], w.record (Call.Register ctx (some i) []))
    else
      beginNSEServer.RegisterTask fuel
        (w.LoadOrStore i.GetName (newNSEEventFactoryServer ctx i.GetName)).2
        (w.LoadOrStore i.GetName (newNSEEventFactoryServer ctx i.GetName)).1
        ctx i
/-- Source: the function `beginNSEServer.Register` hands to `executor.AsyncExec`, queued by the
factory `eventFactoryServer` and run on `w`. -/
def beginNSEServer.RegisterTask :
    Nat → World NetworkServiceEndpoint → Nat → Context → NetworkServiceEndpoint →
      Option (RegisterResult × World NetworkServiceEndpoint)
  | fuel, w, eventFactoryServer, ctx, i =>
    if w.Load i.GetName ≠ some eventFactoryServer then
      match fuel with
      | 0 => none
      | fuel + 1 => beginNSEServer.Register fuel w ctx i
    else
      let withEventFactoryCtx := withEventFactory ctx eventFactoryServer
      let r := nx.Register w.calls withEventFactoryCtx (some i) []
      let w1 := w.record (Call.Register withEventFactoryCtx (some i) [])
      if r.2.isSome then
        if (w1.factories eventFactoryServer).state ≠ connectionState.established then
          some (r, (w1.setFactory eventFactoryServer
            { w1.factories eventFactoryServer with state := connectionState.closed }).Delete
              i.GetName)
        else some (r, w1)
      else
        some (r, updateContext (w1.setFactory eventFactoryServer
          { w1.factories eventFactoryServer with
            registration := mergeNSE (some i) r.1
            state := connectionState.established
            response := r.1 }) eventFactoryServer ctx)
end

mutual
/-- Source: `beginNSEServer.Unregister`; the result is the returned error. -/
def beginNSEServer.Unregister :
    Nat → World NetworkServiceEndpoint → Context → NetworkServiceEndpoint →
      Option (Option Error × World NetworkServiceEndpoint)
  | 0, _, _, _ => none
  | fuel + 1, w, ctx, i =>
    if (fromContext ctx).isSome then
      some (nx.Unregister w.calls ctx (some i) [], w.record (Call.Unregister ctx (some i) []))
    else
      beginNSEServer.UnregisterTask fuel
        (w.LoadOrStore i.GetName (newNSEEventFactoryServer ctx i.GetName)).2
        (w.LoadOrStore i.GetName (newNSEEventFactoryServer ctx i.GetName)).1
        ctx i
/-- Source: the function `beginNSEServer.Unregister` hands to `executor.AsyncExec`, queued by the
factory `eventFactoryServer` and run on `w`. -/
def beginNSEServer.UnregisterTask :
    Nat → World NetworkServiceEndpoint → Nat → Context → NetworkServiceEndpoint →
      Option (Option Error × World NetworkServiceEndpoint)
  | fuel, w, eventFactoryServer, ctx, i =>
    if w.Load i.GetName ≠ some eventFactoryServer then
      match fuel with
      | 0 => none
      | fuel + 1 => beginNSEServer.Unregister fuel w ctx i
    else
      let registration :=
        if (w.factories eventFactoryServer).registration.isNone then some i
        else (w.factories eventFactoryServer).registration
      let withEventFactoryCtx := withEventFactory ctx eventFactoryServer
      let err := nx.Unregister w.calls withEventFactoryCtx registration []
      let w1 := w.record (Call.Unregister withEventFactoryCtx registration [])
      some (err, afterCloseFunc w1 eventFactoryServer)
end

end

/-- Source: the context a recorded invocation of the next stage received. -/
def Call.ctx : Call α → Context
  | Call.Register ctx _ _ => ctx
  | Call.Unregister ctx _ _ => ctx

/-! ## Sample inputs -/

namespace Sample

/-- A next stage that accepts everything: `Register` answers with the entity it was given. -/
def accepting : Next α :=
  { Register := fun _ _ i _ => (i, none), Unregister := fun _ _ _ _ => none }

/-- A next stage that refuses everything. -/
def refusing : Next α :=
  { Register := fun _ _ _ _ => (none, some (Error.Foreign "refused"))
    Unregister := fun _ _ _ _ => some (Error.Foreign "refused") }

/-- A merge that keeps the response when there is one. -/
def merge (left right : Option α) : Option α := if right.isSome then right else left

/-- An endpoint named `nse`. -/
def endpoint : NetworkServiceEndpoint := { Name := "nse" }

/-- A world whose only controller, at address 0 and stored under `nse`, is established. -/
def established : World NetworkServiceEndpoint :=
  { factories := fun _ =>
      { state := connectionState.established, registration := some endpoint,
        response := some endpoint, afterClose := some "nse" }
    nextFree := 1
    map := fun k => if k = "nse" then some 0 else none }

/-- A network service named `ns`. -/
def service : NetworkService := { Name := "ns" }

/-- A world of network-service controllers: address 0, stored under `ns`, is established. -/
def establishedNS : World NetworkService :=
  { factories := fun _ =>
      { state := connectionState.established, registration := some service,
        response := some service, afterClose := some "ns" }
    nextFree := 1
    map := fun k => if k = "ns" then some 0 else none }

/-- A world of network-service controllers in which `ns` was closed and registered again: the
first controller, at address 0, is closed and keeps its cached payloads; the second, at address
1, is established and stored under `ns`. -/
def reestablishedNS : World NetworkService :=
  { factories := fun p =>
      if p = 0 then
        { state := connectionState.closed, registration := some service,
          response := some service, afterClose := some "ns" }
      else
        { state := connectionState.established, registration := some service,
          response := some service, afterClose := some "ns" }
    nextFree := 2
    map := fun k => if k = "ns" then some 1 else none }

/-- The same situation for endpoints: the first controller of `nse` (address 0) is closed, the
second (address 1) is established and stored under `nse`. -/
def reestablished : World NetworkServiceEndpoint :=
  { factories := fun p =>
      if p = 0 then
        { state := connectionState.closed, registration := some endpoint,
          response := some endpoint, afterClose := some "nse" }
      else
        { state := connectionState.established, registration := some endpoint,
          response := some endpoint, afterClose := some "nse" }
    nextFree := 2
    map := fun k => if k = "nse" then some 1 else none }

/-- The state after `nse` is registered, unregistered and registered again through the client
begin element, the next stage accepting every call. -/
def closeAndReestablish : Option (World NetworkServiceEndpoint) :=
  (beginNSEClient.Register merge accepting 1 {} {} endpoint []).bind fun r1 =>
    (beginNSEClient.Unregister accepting 1 r1.2 {} endpoint []).bind fun r2 =>
      (beginNSEClient.Register merge accepting 1 r2.2 {} endpoint []).map fun r3 => r3.2


/-- A next stage whose Register answers every network service with a renewed payload. -/
def renewing : Next NetworkService :=
  { Register := fun _ _ _ _ => (some { Name := "ns", Payload := "renewed" }, none)
    Unregister := fun _ _ _ _ => none }

/-- A next stage whose Register answers with the endpoint as the registry keeps it: with the
registry's URL and an expiration time. -/
def assigning : Next NetworkServiceEndpoint :=
  { Register := fun _ _ i _ =>
      (i.map fun e => { e with Url := "tcp://registry", ExpirationTime := some 60 }, none)
    Unregister := fun _ _ _ _ => none }

/-- A merge that keeps the request and takes the times of the response. -/
def mergeTimes (left right : Option NetworkServiceEndpoint) : Option NetworkServiceEndpoint :=
  match left, right with
  | some l, some r =>
    some { l with ExpirationTime := r.ExpirationTime
                  InitialRegistrationTime := r.InitialRegistrationTime }
  | l, _ => l

end Sample


/-! ## Operations of a begin element and the states they reach -/

/-- Consistency of the Entity Map: every stored controller has an allocated address, carries the
eviction callback of the name it is stored under, and is not closed. -/
def World.Consistent (w : World α) : Prop :=
  ∀ id p, w.map id = some p →
    p < w.nextFree ∧ (w.factories p).afterClose = some id ∧
      (w.factories p).state ≠ connectionState.closed

/-- Every controller that is closed in `w'` and was not closed in `w` has no Entity Map entry
left in `w'` for the name of its eviction callback. -/
def World.ClosesWithEviction (w w' : World α) : Prop :=
  ∀ f id, (w.factories f).state ≠ connectionState.closed →
    (w'.factories f).state = connectionState.closed →
    (w'.factories f).afterClose = some id → w'.map id = none

section
variable (mergeNSE : Option NetworkServiceEndpoint → Option NetworkServiceEndpoint →
  Option NetworkServiceEndpoint)
variable (mergeNS : Option NetworkServiceEndpoint → Option NetworkServiceEndpoint →
  Option NetworkServiceEndpoint)
variable (nx : Next NetworkServiceEndpoint)

/-- One operation on the state of a begin element for endpoints, whose controllers are taken
to be the factories of `ns_event_factory.go` at endpoints: a completed call of Register or
Unregister (client or server); the first half of such a call, which resolves the controller with
`LoadOrStore` and queues the task; a queued task run later, on an allocated controller and with
the context that passed the check for an event factory; an event factory trigger run on an
allocated controller. -/
inductive Step : World NetworkServiceEndpoint → World NetworkServiceEndpoint → Prop where
  | clientRegister (fuel : Nat) (w : World NetworkServiceEndpoint) (ctx : Context)
      (i : NetworkServiceEndpoint) (opts : List CallOption) (r : RegisterResult)
      (w' : World NetworkServiceEndpoint)
      (h : beginNSEClient.Register mergeNSE nx fuel w ctx i opts = some (r, w')) : Step w w'
  | clientUnregister (fuel : Nat) (w : World NetworkServiceEndpoint) (ctx : Context)
      (i : NetworkServiceEndpoint) (opts : List CallOption) (r : Option Error)
      (w' : World NetworkServiceEndpoint)
      (h : beginNSEClient.Unregister nx fuel w ctx i opts = some (r, w')) : Step w w'
  | serverRegister (fuel : Nat) (w : World NetworkServiceEndpoint) (ctx : Context)
      (i : NetworkServiceEndpoint) (r : RegisterResult) (w' : World NetworkServiceEndpoint)
      (h : beginNSEServer.Register mergeNSE nx fuel w ctx i = some (r, w')) : Step w w'
  | serverUnregister (fuel : Nat) (w : World NetworkServiceEndpoint) (ctx : Context)
      (i : NetworkServiceEndpoint) (r : Option Error) (w' : World NetworkServiceEndpoint)
      (h : beginNSEServer.Unregister nx fuel w ctx i = some (r, w')) : Step w w'
  | clientEnqueue (w : World NetworkServiceEndpoint) (ctx : Context) (id : String)
      (opts : List CallOption) :
      Step w (w.LoadOrStore id (newEventNSEFactoryClient ctx (some id) opts)).2
  | serverEnqueue (w : World NetworkServiceEndpoint) (ctx : Context) (id : String) :
      Step w (w.LoadOrStore id (newNSEEventFactoryServer ctx id)).2
  | clientRegisterTask (fuel : Nat) (w : World NetworkServiceEndpoint) (f : Nat)
      (ctx : Context) (i : NetworkServiceEndpoint) (opts : List CallOption)
      (r : RegisterResult) (w' : World NetworkServiceEndpoint)
      (hf : f < w.nextFree) (hctx : fromContext ctx = none)
      (h : beginNSEClient.RegisterTask mergeNSE nx fuel w f ctx i opts = some (r, w')) :
      Step w w'
  | clientUnregisterTask (fuel : Nat) (w : World NetworkServiceEndpoint) (f : Nat)
      (ctx : Context) (i : NetworkServiceEndpoint) (opts : List CallOption)
      (r : Option Error) (w' : World NetworkServiceEndpoint)
      (hf : f < w.nextFree) (hctx : fromContext ctx = none)
      (h : beginNSEClient.UnregisterTask nx fuel w f ctx i opts = some (r, w')) : Step w w'
  | serverRegisterTask (fuel : Nat) (w : World NetworkServiceEndpoint) (f : Nat)
      (ctx : Context) (i : NetworkServiceEndpoint)
      (r : RegisterResult) (w' : World NetworkServiceEndpoint)
      (hf : f < w.nextFree) (hctx : fromContext ctx = none)
      (h : beginNSEServer.RegisterTask mergeNSE nx fuel w f ctx i = some (r, w')) : Step w w'
  | serverUnregisterTask (fuel : Nat) (w : World NetworkServiceEndpoint) (f : Nat)
      (ctx : Context) (i : NetworkServiceEndpoint)
      (r : Option Error) (w' : World NetworkServiceEndpoint)
      (hf : f < w.nextFree) (hctx : fromContext ctx = none)
      (h : beginNSEServer.UnregisterTask nx fuel w f ctx i = some (r, w')) : Step w w'
  | clientRegisterTrigger (w : World NetworkServiceEndpoint) (f : Nat) (cancelDone : Bool)
      (hf : f < w.nextFree) :
      Step w (eventNSFactoryClient.Register mergeNS nx w f cancelDone).2
  | clientUnregisterTrigger (w : World NetworkServiceEndpoint) (f : Nat) (cancelDone : Bool)
      (hf : f < w.nextFree) : Step w (eventNSFactoryClient.Unregister nx w f cancelDone).2
  | serverRegisterTrigger (w : World NetworkServiceEndpoint) (f : Nat) (cancelDone : Bool)
      (hf : f < w.nextFree) : Step w (eventNSFactoryServer.Register nx w f cancelDone).2
  | serverUnregisterTrigger (w : World NetworkServiceEndpoint) (f : Nat) (cancelDone : Bool)
      (hf : f < w.nextFree) : Step w (eventNSFactoryServer.Unregister nx w f cancelDone).2

/-- The states a begin element reaches from the empty Entity Map. -/
inductive Reachable : World NetworkServiceEndpoint → Prop where
  | init : Reachable {}
  | step (w w' : World NetworkServiceEndpoint) (hw : Reachable w)
      (hstep : Step mergeNSE mergeNS nx w w') : Reachable w'

end


namespace Sample

/-- The state after `nse` is registered through the client begin element on an empty Entity
Map, the next stage accepting: its controller, at address 0, is established. -/
def registered : World NetworkServiceEndpoint :=
  ((beginNSEClient.Register merge accepting 1 {} {} endpoint []).map fun r => r.2).getD {}

/-- The state after `nse` is then unregistered: the controller at address 0 is closed and keeps
its cached payloads. -/
def closedAfterUse : World NetworkServiceEndpoint :=
  ((beginNSEClient.Unregister accepting 1 registered {} endpoint []).map fun r => r.2).getD {}

end Sample

end begin

/-! # Per-entity scoped store (`pkg/networkservice/utils/metadata`)

Only the tests of the metadata element are among the sources (`meta_data_test.go`); the element
is modelled from its specification. -/

namespace metadata

/-- Modelled from the spec: the Scoped Store of one entity (`metadata.Map(ctx, isClient)`), a
key-value map with caller-defined keys. -/
abbrev Map := List (String × String)

/-- Modelled from the spec: `Load(key) → (value, found)`. -/
def Map.Load (s : Map) (key : String) : Option String :=
  (s.find? fun kv => kv.1 = key).map fun kv => kv.2

/-- Modelled from the spec: `Store(key, value)`. -/
def Map.Store (s : Map) (key value : String) : Map :=
  (key, value) :: s.filter fun kv => kv.1 ≠ key

/-- Modelled from the spec: `LoadAndDelete(key) → (value, found)`. -/
def Map.LoadAndDelete (s : Map) (key : String) : Option String × Map :=
  (Map.Load s key, s.filter fun kv => kv.1 ≠ key)

/-- Modelled from the spec: the state of the metadata element, one store for each entity
identifier and the set of entities that are established. -/
structure State where
  stores : String → Map := fun _ => []
  established : String → Bool := fun _ => false

/-- The rest of the chain as the metadata element sees it: it works on the entity's store and
returns an error or none. -/
abbrev Stage := Map → Map × Option String

/-- Modelled from the spec: the metadata element's Request for the entity `id`. "On each Request
attempt, if the entity is not yet established, changes made during that attempt are tentative:
on failure they are discarded entirely (map reverts to its pre-attempt snapshot); on success
they commit. Once established, all changes commit immediately; a failed refresh does not
discard committed state." -/
def Request (st : State) (id : String) (next : Stage) : State × Option String :=
  let snapshot := st.stores id
  let r := next snapshot
  match r.2 with
  | none =>
    ({ stores := fun k => if k = id then r.1 else st.stores k
       established := fun k => if k = id then true else st.established k }, none)
  | some e =>
    if st.established id then
      ({ st with stores := fun k => if k = id then r.1 else st.stores k }, some e)
    else
      ({ st with stores := fun k => if k = id then snapshot else st.stores k }, some e)

/-- Modelled from the spec: the metadata element's Close. "On Close, the entire per-entity
store is discarded after the chain's Close calls have all observed it." -/
def Close (st : State) (id : String) (next : Stage) : State × Option String :=
  ({ stores := fun k => if k = id then [] else st.stores k
     established := fun k => if k = id then false else st.established k },
    (next (st.stores id)).2)

namespace Sample

/-- The stage of the tests that stores `test ↦ 0` and then fails (`injecterror`). -/
def storeAndFail : Stage :=
  fun s => (Map.Store s "test" "0", some "error originates in injectErrorServer")

/-- The stage of the tests that stores `test ↦ 0` and succeeds. -/
def storeAndSucceed : Stage := fun s => (Map.Store s "test" "0", none)

end Sample

end metadata

/-! # Forwarder discovery (`pkg/networkservice/common/discoverforwarder/server.go`) -/

namespace discoverforwarder

/-- A parsed `*url.URL`, kept as its text. -/
abbrev URL := String

/-- The message `networkservice.PathSegment`. -/
structure PathSegment where
  Name : String := ""
  Id : String := ""
  deriving DecidableEq, Repr

/-- The message `networkservice.Path`. -/
structure Path where
  Index : Nat := 0
  PathSegments : List PathSegment := []
  deriving DecidableEq, Repr

/-- The enumeration `networkservice.State`. -/
inductive State where
  | UP
  | DOWN
  | REFRESH_REQUESTED
  | RESELECT_REQUESTED
  deriving DecidableEq, Repr

/-- The message `networkservice.Connection`. Its path is present: the element runs after the
path has been set up for the connection, and the source reads `GetPath().Index` directly. -/
structure Connection where
  Id : String := ""
  NetworkService : String := ""
  Payload : String := ""
  Labels : List (String × String) := []
  State : State := State.UP
  Path : Path := {}
  deriving DecidableEq, Repr

/-- A `context.Context`, reduced to what the element reads and writes: the forwarder name kept
for the connection and the client URL. -/
structure Context where
  forwarderName : String := ""
  clientURL : Option URL := none
  deriving DecidableEq, Repr

/-- Modelled from the spec: `loadForwarderName` is not among the sources; it yields the peer
pinned for the connection by an earlier Request, and the empty name when there is none. -/
def loadForwarderName (ctx : Context) : String := ctx.forwarderName

/-- Source: `clienturlctx.WithClientURL(ctx, u)`. -/
def WithClientURL (ctx : Context) (u : URL) : Context := { ctx with clientURL := some u }

/-- One invocation of the next stage's Close, with the arguments it received. -/
abbrev CloseCall := Context × Connection

/-- What Close returns: `(*empty.Empty, error)`. -/
abbrev CloseResult := Option Unit × Option begin.Error

/-- The remainder of the chain: what the next stage's Close returns, given the invocations made
before. -/
structure Next where
  Close : List CloseCall → Context → Connection → CloseResult

/-- The fields of `discoverForwarderServer`. The registry clients are given by what `Find`
returns: an error, or the endpoints (services) read from the stream. -/
structure discoverForwarderServer where
  nseClient : Context → begin.NetworkServiceEndpoint →
    Except begin.Error (List begin.NetworkServiceEndpoint)
  nsClient : Context → begin.NetworkService → Except begin.Error (List begin.NetworkService)
  forwarderServiceName : String := "forwarder"
  nsmgrURL : String := ""

/-- Source: `discoverForwarderServer.Close`. `parse` stands for `url.Parse`, `none` being its
error. The result is what Close returns and the invocations of the next stage recorded so far. -/
def discoverForwarderServer.Close (d : discoverForwarderServer) (parse : String → Option URL)
    (nx : Next) (calls : List CloseCall) (ctx : Context) (conn : Connection) :
    CloseResult × List CloseCall :=
  let forwarderName := loadForwarderName ctx
  let forwarderName :=
    if forwarderName = "" then
      match conn.Path.PathSegments.get? (conn.Path.Index + 1) with
      | some segment => segment.Name
      | none => forwarderName
    else forwarderName
  if forwarderName = "" then
    (nx.Close calls ctx conn, calls ++ [(ctx, conn)])
  else
    match d.nseClient ctx { Name := forwarderName, Url := d.nsmgrURL } with
    | Except.error _ => (nx.Close calls ctx conn, calls ++ [(ctx, conn)])
    | Except.ok [] => (nx.Close calls ctx conn, calls ++ [(ctx, conn)])
    | Except.ok (nse :: _) =>
      match parse nse.Url with
      | none => (nx.Close calls ctx conn, calls ++ [(ctx, conn)])
      | some u =>
        (nx.Close calls (WithClientURL ctx u) conn, calls ++ [(WithClientURL ctx u, conn)])

namespace Sample

/-- A connection whose path names `fwd-1` right after the current index. -/
def conn : Connection :=
  { Id := "c1", Path := { Index := 0, PathSegments := [{ Name := "nsmgr" }, { Name := "fwd-1" }] } }

/-- A registry that knows the forwarder `fwd-1`. -/
def server : discoverForwarderServer :=
  { nseClient := fun _ q =>
      if q.Name = "fwd-1" then Except.ok [{ Name := "fwd-1", Url := "tcp://10.0.0.1:5001" }]
      else Except.ok []
    nsClient := fun _ _ => Except.ok [] }

/-- A next stage whose Close fails. -/
def failing : Next := { Close := fun _ _ _ => (none, some (begin.Error.Foreign "close failed")) }

end Sample

end discoverforwarder

namespace begin

namespace Sample

/-- The world after a first Register of `nse` has stored its controller, at address 0 and in
state new, and before the task it queued has run. -/
def enqueued : World NetworkServiceEndpoint :=
  (World.LoadOrStore {} "nse" (newEventNSEFactoryClient {} (some "nse") [])).2

end Sample

end begin

/-! ## Errors: message, stack trace, cause chain -/

namespace begin

/-- Source: `err.Error()`. An error made by `errors.Wrapf(cause, msg)` prints as
`msg: cause`. -/
def Error.errorText : Error → String
  | Error.New msg => msg
  | Error.Wrap cause msg => msg ++ ": " ++ cause.errorText
  | Error.Foreign msg => msg

/-- Source: the type assertion `err.(stackTracer)`. The errors made by `errors.New`,
`errors.Errorf` and `errors.Wrapf` have a `StackTrace` method; an error made elsewhere
(`Foreign`) has none. -/
def Error.hasStackTrace : Error → Bool
  | Error.New _ => true
  | Error.Wrap _ _ => true
  | Error.Foreign _ => false

/-- The innermost cause of an error: what remains once every wrapping is taken off. -/
def Error.root : Error → Error
  | Error.Wrap cause _ => cause.root
  | e => e

/-- The number of wrappings around the innermost cause. -/
def Error.wraps : Error → Nat
  | Error.Wrap cause _ => cause.wraps + 1
  | _ => 0

end begin

/-! ## Registry trace, verbose variant: `logError` (`registry/core/trace/traceverbose`) -/

namespace traceverbose

/-- Source: `logError(ctx, err, operation)`, with the lines written to the logger of the
context returned next to the error: `%+v` of the wrapped error, `%v` of an error that has a
stack trace. -/
def logError (err : Option begin.Error) (operation : String) :
    Option begin.Error × List String :=
  match err with
  | none => (none, [])
  | some e =>
    if !e.hasStackTrace then
      let err := begin.Error.Wrap e ("Error returned from " ++ operation)
      (some err, [err.errorText])
    else
      (some e, [e.errorText])

end traceverbose

/-! ## The trace wrappers (`networkservice/core/trace`, `registry/core/trace`) -/

namespace logrus

/-- Source: `logrus.Level`, an unsigned number; a higher level logs more. -/
abbrev Level := Nat

/-- Source: `logrus.PanicLevel`. -/
def PanicLevel : Level := 0
/-- Source: `logrus.FatalLevel`. -/
def FatalLevel : Level := 1
/-- Source: `logrus.ErrorLevel`. -/
def ErrorLevel : Level := 2
/-- Source: `logrus.WarnLevel`. -/
def WarnLevel : Level := 3
/-- Source: `logrus.InfoLevel`. -/
def InfoLevel : Level := 4
/-- Source: `logrus.DebugLevel`. -/
def DebugLevel : Level := 5
/-- Source: `logrus.TraceLevel`. -/
def TraceLevel : Level := 6

end logrus

namespace trace

/-- A `context.Context`, reduced to the logger it carries; with `none`, `log.FromContext`
yields the default logger `log.L()`. -/
structure Context where
  logger : Option String := none
  deriving DecidableEq, Repr

/-- Source: `if log.FromContext(ctx) == log.L() { ctx = log.WithLog(ctx, logruslogger.New(ctx)) }`. -/
def withLogrusLogger (ctx : Context) : Context :=
  if ctx.logger.isNone then { ctx with logger := some "logruslogger" } else ctx

/-- The three elements a trace wrapper holds. -/
inductive Variant where
  | original
  | concise
  | verbose
  deriving DecidableEq, Repr

/-- One invocation of a wrapped element: which of the three, and the context it received. -/
abbrev Invocation := Variant × Context

/-- A `networkservice.NetworkServiceServer`, given by what its two methods return. -/
structure NetworkServiceServer (Req Conn : Type) where
  Request : Context → Req → Option Conn × Option begin.Error
  Close : Context → Conn → Option Unit × Option begin.Error

/-- Source: `traceServer` of `networkservice/core/trace`. -/
structure traceServer (Req Conn : Type) where
  verbose : NetworkServiceServer Req Conn
  concise : NetworkServiceServer Req Conn
  original : NetworkServiceServer Req Conn

/-- The element of a trace server that a variant names. -/
def traceServer.element {Req Conn : Type} (t : traceServer Req Conn) :
    Variant → NetworkServiceServer Req Conn
  | Variant.original => t.original
  | Variant.concise => t.concise
  | Variant.verbose => t.verbose

/-- Source: `traceServer.Request`; `level` is `logrus.GetLevel()`. The result is what Request
returns and the invocations it made of the wrapped elements. -/
def traceServer.Request {Req Conn : Type} (t : traceServer Req Conn) (level : logrus.Level)
    (ctx : Context) (request : Req) : (Option Conn × Option begin.Error) × List Invocation :=
  if level ≤ logrus.WarnLevel then
    let ctx := withLogrusLogger ctx
    (t.original.Request ctx request, [(Variant.original, ctx)])
  else if level ≥ logrus.DebugLevel then
    (t.verbose.Request ctx request, [(Variant.verbose, ctx)])
  else
    (t.concise.Request ctx request, [(Variant.concise, ctx)])

/-- Source: `traceServer.Close`. -/
def traceServer.Close {Req Conn : Type} (t : traceServer Req Conn) (level : logrus.Level)
    (ctx : Context) (conn : Conn) : (Option Unit × Option begin.Error) × List Invocation :=
  if level ≤ logrus.WarnLevel then
    let ctx := withLogrusLogger ctx
    (t.original.Close ctx conn, [(Variant.original, ctx)])
  else if level ≥ logrus.DebugLevel then
    (t.verbose.Close ctx conn, [(Variant.verbose, ctx)])
  else
    (t.concise.Close ctx conn, [(Variant.concise, ctx)])

/-- A `registry.NetworkServiceEndpointRegistryClient`, given by what its methods return; a
stream is the list of endpoints read from it. -/
structure NetworkServiceEndpointRegistryClient (E Q : Type) where
  Register : Context → E → List begin.CallOption → Option E × Option begin.Error
  Find : Context → Q → List begin.CallOption → Option (List E) × Option begin.Error
  Unregister : Context → E → List begin.CallOption → Option Unit × Option begin.Error

/-- A `registry.NetworkServiceEndpointRegistryServer`; `Find` receives the query and the
stream to send on, given by the endpoints sent so far, and returns its error. -/
structure NetworkServiceEndpointRegistryServer (E Q : Type) where
  Register : Context → E → Option E × Option begin.Error
  Find : Q → List E → Option begin.Error
  Unregister : Context → E → Option Unit × Option begin.Error

/-- Source: `traceNetworkServiceEndpointRegistryClient` of `registry/core/trace`. -/
structure traceNetworkServiceEndpointRegistryClient (E Q : Type) where
  verbose : NetworkServiceEndpointRegistryClient E Q
  concise : NetworkServiceEndpointRegistryClient E Q
  original : NetworkServiceEndpointRegistryClient E Q

/-- Source: `traceNetworkServiceEndpointRegistryServer` of `registry/core/trace`. -/
structure traceNetworkServiceEndpointRegistryServer (E Q : Type) where
  verbose : NetworkServiceEndpointRegistryServer E Q
  concise : NetworkServiceEndpointRegistryServer E Q
  original : NetworkServiceEndpointRegistryServer E Q

/-- Source: `traceNetworkServiceEndpointRegistryClient.Register`. -/
def traceNetworkServiceEndpointRegistryClient.Register {E Q : Type}
    (t : traceNetworkServiceEndpointRegistryClient E Q) (level : logrus.Level) (ctx : Context)
    (i : E) (opts : List begin.CallOption) :
    (Option E × Option begin.Error) × List Invocation :=
  if level ≥ logrus.DebugLevel then
    (t.verbose.Register ctx i opts, [(Variant.verbose, ctx)])
  else if level ≤ logrus.WarnLevel then
    (t.concise.Register ctx i opts, [(Variant.concise, ctx)])
  else
    (t.original.Register ctx i opts, [(Variant.original, ctx)])

/-- Source: `traceNetworkServiceEndpointRegistryClient.Find`. -/
def traceNetworkServiceEndpointRegistryClient.Find {E Q : Type}
    (t : traceNetworkServiceEndpointRegistryClient E Q) (level : logrus.Level) (ctx : Context)
    (i : Q) (opts : List begin.CallOption) :
    (Option (List E) × Option begin.Error) × List Invocation :=
  if level ≥ logrus.DebugLevel then
    (t.verbose.Find ctx i opts, [(Variant.verbose, ctx)])
  else if level ≤ logrus.WarnLevel then
    (t.concise.Find ctx i opts, [(Variant.concise, ctx)])
  else
    let ctx := withLogrusLogger ctx
    (t.original.Find ctx i opts, [(Variant.original, ctx)])

/-- Source: `traceNetworkServiceEndpointRegistryClient.Unregister`. -/
def traceNetworkServiceEndpointRegistryClient.Unregister {E Q : Type}
    (t : traceNetworkServiceEndpointRegistryClient E Q) (level : logrus.Level) (ctx : Context)
    (i : E) (opts : List begin.CallOption) :
    (Option Unit × Option begin.Error) × List Invocation :=
  if level ≥ logrus.DebugLevel then
    (t.verbose.Unregister ctx i opts, [(Variant.verbose, ctx)])
  else if level ≤ logrus.WarnLevel then
    (t.concise.Unregister ctx i opts, [(Variant.concise, ctx)])
  else
    let ctx := withLogrusLogger ctx
    (t.original.Unregister ctx i opts, [(Variant.original, ctx)])

/-- Source: `traceNetworkServiceEndpointRegistryServer.Register`. -/
def traceNetworkServiceEndpointRegistryServer.Register {E Q : Type}
    (t : traceNetworkServiceEndpointRegistryServer E Q) (level : logrus.Level) (ctx : Context)
    (i : E) : (Option E × Option begin.Error) × List Invocation :=
  if level ≥ logrus.DebugLevel then
    (t.verbose.Register ctx i, [(Variant.verbose, ctx)])
  else if level ≤ logrus.WarnLevel then
    (t.concise.Register ctx i, [(Variant.concise, ctx)])
  else
    let ctx := withLogrusLogger ctx
    (t.original.Register ctx i, [(Variant.original, ctx)])

/-- Source: `traceNetworkServiceEndpointRegistryServer.Find`; it receives no context, so the
invocations are recorded by variant alone. -/
def traceNetworkServiceEndpointRegistryServer.Find {E Q : Type}
    (t : traceNetworkServiceEndpointRegistryServer E Q) (level : logrus.Level) (i : Q)
    (s : List E) : Option begin.Error × List Variant :=
  if level ≥ logrus.DebugLevel then
    (t.verbose.Find i s, [Variant.verbose])
  else if level ≤ logrus.WarnLevel then
    (t.concise.Find i s, [Variant.concise])
  else
    (t.original.Find i s, [Variant.original])

/-- Source: `traceNetworkServiceEndpointRegistryServer.Unregister`. -/
def traceNetworkServiceEndpointRegistryServer.Unregister {E Q : Type}
    (t : traceNetworkServiceEndpointRegistryServer E Q) (level : logrus.Level) (ctx : Context)
    (i : E) : (Option Unit × Option begin.Error) × List Invocation :=
  if level ≥ logrus.DebugLevel then
    (t.verbose.Unregister ctx i, [(Variant.verbose, ctx)])
  else if level ≤ logrus.WarnLevel then
    (t.concise.Unregister ctx i, [(Variant.concise, ctx)])
  else
    let ctx := withLogrusLogger ctx
    (t.original.Unregister ctx i, [(Variant.original, ctx)])

namespace Sample

/-- A server element that answers every Request with a connection named after itself. -/
def element (name : String) : NetworkServiceServer String String :=
  { Request := fun _ _ => (some name, none)
    Close := fun _ _ => (some (), none) }

/-- A trace server around three elements that can be told apart by their answers. -/
def server : traceServer String String :=
  { verbose := element "verbose", concise := element "concise", original := element "original" }

/-- A registry client element that answers every Register with an endpoint named after
itself. -/
def registryElement (name : String) : NetworkServiceEndpointRegistryClient String String :=
  { Register := fun _ _ _ => (some name, none)
    Find := fun _ _ _ => (some [name], none)
    Unregister := fun _ _ _ => (some (), none) }

/-- A registry server element that answers every Register with an endpoint named after
itself. -/
def registryServerElement (name : String) : NetworkServiceEndpointRegistryServer String String :=
  { Register := fun _ _ => (some name, none)
    Find := fun _ _ => none
    Unregister := fun _ _ => (some (), none) }

/-- A registry trace client around three elements that can be told apart. -/
def registryClient : traceNetworkServiceEndpointRegistryClient String String :=
  { verbose := registryElement "verbose", concise := registryElement "concise",
    original := registryElement "original" }

/-- A registry trace server around three elements that can be told apart. -/
def registryServer : traceNetworkServiceEndpointRegistryServer String String :=
  { verbose := registryServerElement "verbose", concise := registryServerElement "concise",
    original := registryServerElement "original" }

end Sample

end trace

/-! ## The recvfd server (`networkservice/common/mechanisms/recvfd`) -/

namespace recvfd

/-- An `*os.File`, kept as its name. -/
abbrev File := String

/-- A `grpcfd.FDRecver`, kept as a name for the peer it receives from. -/
abbrev FDRecver := String

/-- The parameters of a mechanism: `map[string]string`. -/
abbrev Parameters := List (String × String)

/-- Source: `perConnectionFileMap`. -/
structure perConnectionFileMap where
  filesByInodeURL : List (String × File) := []
  inodeURLbyFilename : List (String × String) := []
  deriving DecidableEq, Repr

/-- The message `networkservice.Mechanism`, reduced to its parameters. -/
structure Mechanism where
  Parameters : Parameters := []
  deriving DecidableEq, Repr

/-- The message `networkservice.Connection`, reduced to what the element reads. -/
structure Connection where
  Id : String := ""
  Mechanism : Mechanism := {}
  deriving DecidableEq, Repr

/-- A `context.Context`, reduced to the receiver `grpcfd.FromContext` finds in it. -/
structure Context where
  recver : Option FDRecver := none
  deriving DecidableEq, Repr

/-- One invocation of the next stage's Close. -/
abbrev CloseCall := Context × Connection

/-- What Close returns: `(*empty.Empty, error)`. -/
abbrev CloseResult := Option Unit × Option begin.Error

/-- The remainder of the chain: what the next stage's Close returns, given the invocations
made before. -/
structure Next where
  Close : List CloseCall → Context → Connection → CloseResult

/-- The two helpers of the package that are not among the sources. Both change their
arguments in place, so each returns the changed values next to its error. -/
structure Helpers where
  recvFDAndSwapInodeToFile : Context → perConnectionFileMap → Parameters → FDRecver →
    Option begin.Error × perConnectionFileMap × Parameters
  swapFileToInode : perConnectionFileMap → Parameters → Option begin.Error × Parameters

/-- The state the element works on: `recvFDServer.fileMaps`, the files closed and removed so
far, and the invocations of the next stage. -/
structure World where
  fileMaps : String → Option perConnectionFileMap := fun _ => none
  closed : List File := []
  calls : List CloseCall := []

/-- Source: `closeFiles(conn, &r.fileMaps)`. -/
def closeFiles (conn : Connection) (w : World) : World :=
  match w.fileMaps conn.Id with
  | none => w
  | some fileMap =>
    { w with
      fileMaps := fun k => if k = conn.Id then none else w.fileMaps k
      closed := w.closed ++ fileMap.filesByInodeURL.map Prod.snd }

/-- Source: `recvFDServer.Close`. The deferred `closeFiles` runs on every way out. -/
def recvFDServer.Close (h : Helpers) (nx : Next) (w : World) (ctx : Context)
    (conn : Connection) : CloseResult × World :=
  match ctx.recver with
  | none =>
    (nx.Close w.calls ctx conn, closeFiles conn { w with calls := w.calls ++ [(ctx, conn)] })
  | some recv =>
    let fileMap := (w.fileMaps conn.Id).getD {}
    match h.recvFDAndSwapInodeToFile ctx fileMap conn.Mechanism.Parameters recv with
    | (some err, fileMap, _) =>
      ((none, some err),
        closeFiles conn
          { w with fileMaps := fun k => if k = conn.Id then some fileMap else w.fileMaps k })
    | (none, fileMap, parameters) =>
      let conn := { conn with Mechanism := { Parameters := parameters } }
      let w := { w with fileMaps := fun k => if k = conn.Id then some fileMap else w.fileMaps k }
      let r := nx.Close w.calls ctx conn
      let w := { w with calls := w.calls ++ [(ctx, conn)] }
      match r.2 with
      | some err => ((none, some err), closeFiles conn w)
      | none =>
        let s := h.swapFileToInode fileMap conn.Mechanism.Parameters
        ((some (), s.1), closeFiles conn w)

namespace Sample

/-- Helpers that fail to receive the file for the inode URL `inode://1/2` and receive every
other one without change. -/
def helpers : Helpers :=
  { recvFDAndSwapInodeToFile := fun _ fileMap parameters _ =>
      if parameters.lookup "inodeURL" = some "inode://1/2" then
        (some (begin.Error.New "context is done before file received"), fileMap, parameters)
      else (none, fileMap, parameters)
    swapFileToInode := fun _ parameters => (none, parameters) }

/-- A next stage whose Close succeeds. -/
def closing : Next := { Close := fun _ _ _ => (some (), none) }

/-- A connection whose mechanism names the inode URL `inode://1/2`. -/
def conn : Connection :=
  { Id := "c1", Mechanism := { Parameters := [("inodeURL", "inode://1/2")] } }

/-- A context that carries a receiver. -/
def ctx : Context := { recver := some "peer" }

end Sample

end recvfd

/-! ## The authorize registry clients (`registry/common/authorize`) -/

namespace authorize

/-- A `peer.Peer`, kept as the name of its credentials; the zero value `peer.Peer{}` is the
empty name. -/
abbrev Peer := String

/-- A policy of the `policiesList`, kept as its name. -/
abbrev Policy := String

/-- The type `grpcmetadata.PathSegment`, reduced to its token. -/
structure PathSegment where
  Token : String := ""
  deriving DecidableEq, Repr

/-- The type `grpcmetadata.Path`. -/
structure Path where
  Index : Nat := 0
  PathSegments : List PathSegment := []
  deriving DecidableEq, Repr

/-- A `context.Context`, reduced to the path and the peer it carries. -/
structure Context where
  path : Option Path := none
  peer : Option Peer := none
  deriving DecidableEq, Repr

/-- Source: `grpcmetadata.PathFromContext(ctx)`, an empty path when the context has none. -/
def PathFromContext (ctx : Context) : Path := ctx.path.getD {}

/-- Source: `grpcmetadata.PathWithContext(ctx, path)`. -/
def PathWithContext (ctx : Context) (path : Path) : Context := { ctx with path := some path }

/-- Source: `peer.NewContext(ctx, &p)`. -/
def NewContext (ctx : Context) (p : Peer) : Context := { ctx with peer := some p }

/-- The path-IDs map `genericsync.Map[string, []string]`. -/
abbrev PathIdsMap := List (String × List String)

/-- Source: `Map.Load(key)`. -/
def PathIdsMap.Load (m : PathIdsMap) (key : String) : Option (List String) := m.lookup key

/-- Source: `Map.Store(key, value)`. -/
def PathIdsMap.Store (m : PathIdsMap) (key : String) (value : List String) : PathIdsMap :=
  (key, value) :: m.filter (fun kv => kv.1 != key)

/-- Source: `RegistryOpaInput`. -/
structure RegistryOpaInput where
  ResourceID : String
  ResourceName : String
  ResourcePathIDsMap : List (String × List String)
  PathSegments : List PathSegment
  Index : Nat
  deriving DecidableEq, Repr

/-- The helpers of the package that are not among the sources: `policiesList.check`,
`getSpiffeIDFromPath` (with `String()` applied) and `getRawMap`. -/
structure Helpers where
  check : List Policy → Context → RegistryOpaInput → Option begin.Error
  getSpiffeIDFromPath : Context → Path → String
  getRawMap : PathIdsMap → List (String × List String)

/-- One invocation of the next registry client. -/
inductive Call (α : Type) where
  | Register (ctx : Context) (i : α) (opts : List begin.CallOption)
  | Unregister (ctx : Context) (i : α) (opts : List begin.CallOption)
  deriving DecidableEq, Repr

/-- The remainder of the chain, given the invocations made before. Register returns its
error or its response, and the peer it wrote through the call option `grpc.Peer(&p)`; the
source reads `resp.Name` once the error is nil, so a response comes with every nil error. -/
structure Next (α : Type) where
  Register : List (Call α) → Context → α → List begin.CallOption →
    Except begin.Error α × Peer
  Unregister : List (Call α) → Context → α → List begin.CallOption → Option begin.Error

/-- The state the clients work on: the path-IDs map and the invocations of the next
client. -/
structure World (α : Type) where
  pathIDsMap : PathIdsMap := []
  calls : List (Call α) := []

/-- Source: `authorizeNSClient`; its map `nsPathIDsMap` is held in the `World`. -/
structure authorizeNSClient where
  policies : List Policy

/-- Source: `authorizeNSEClient`; its map `nsePathIDsMap` is held in the `World`. -/
structure authorizeNSEClient where
  policies : List Policy

/-- Source: `authorizeNSClient.Register`. -/
def authorizeNSClient.Register (c : authorizeNSClient) (h : Helpers)
    (nx : Next begin.NetworkService) (w : World begin.NetworkService) (ctx : Context)
    (ns : begin.NetworkService) (opts : List begin.CallOption) :
    (Option begin.NetworkService × Option begin.Error) × World begin.NetworkService :=
  if c.policies.length = 0 then
    let r := nx.Register w.calls ctx ns opts
    let w := { w with calls := w.calls ++ [Call.Register ctx ns opts] }
    match r.1 with
    | Except.error err => ((none, some err), w)
    | Except.ok resp => ((some resp, none), w)
  else
    let path := PathFromContext ctx
    let ctx := PathWithContext ctx path
    let opts := opts ++ ["grpc.Peer"]
    let unregisterCtx := ctx
    let r := nx.Register w.calls ctx ns opts
    let w := { w with calls := w.calls ++ [Call.Register ctx ns opts] }
    match r.1 with
    | Except.error err => ((none, some err), w)
    | Except.ok resp =>
      let ctx := if r.2 ≠ "" then NewContext ctx r.2 else ctx
      let path := PathFromContext ctx
      let spiffeID := h.getSpiffeIDFromPath ctx path
      let rawMap := h.getRawMap w.pathIDsMap
      let input : RegistryOpaInput :=
        { ResourceID := spiffeID
          ResourceName := resp.Name
          ResourcePathIDsMap := rawMap
          PathSegments := path.PathSegments
          Index := path.Index }
      match h.check c.policies ctx input with
      | some err =>
        match w.pathIDsMap.Load resp.Name with
        | none =>
          let u := nx.Unregister w.calls unregisterCtx resp opts
          let w := { w with calls := w.calls ++ [Call.Unregister unregisterCtx resp opts] }
          match u with
          | some unregisterErr =>
            ((none, some (begin.Error.Wrap err
              ("nse unregistered with error: " ++ unregisterErr.errorText))), w)
          | none => ((none, some err), w)
        | some _ => ((none, some err), w)
      | none =>
        ((some resp, none),
          { w with pathIDsMap := w.pathIDsMap.Store resp.Name resp.PathIds })

/-- Source: `authorizeNSEClient.Register`. -/
def authorizeNSEClient.Register (c : authorizeNSEClient) (h : Helpers)
    (nx : Next begin.NetworkServiceEndpoint) (w : World begin.NetworkServiceEndpoint)
    (ctx : Context) (nse : begin.NetworkServiceEndpoint) (opts : List begin.CallOption) :
    (Option begin.NetworkServiceEndpoint × Option begin.Error) ×
      World begin.NetworkServiceEndpoint :=
  if c.policies.length = 0 then
    let r := nx.Register w.calls ctx nse opts
    let w := { w with calls := w.calls ++ [Call.Register ctx nse opts] }
    match r.1 with
    | Except.error err => ((none, some err), w)
    | Except.ok resp => ((some resp, none), w)
  else
    let path := PathFromContext ctx
    let ctx := PathWithContext ctx path
    let opts := opts ++ ["grpc.Peer"]
    let unregisterCtx := ctx
    let r := nx.Register w.calls ctx nse opts
    let w := { w with calls := w.calls ++ [Call.Register ctx nse opts] }
    match r.1 with
    | Except.error err => ((none, some err), w)
    | Except.ok resp =>
      let ctx := if r.2 ≠ "" then NewContext ctx r.2 else ctx
      let spiffeID := h.getSpiffeIDFromPath ctx path
      let rawMap := h.getRawMap w.pathIDsMap
      let input : RegistryOpaInput :=
        { ResourceID := spiffeID
          ResourceName := resp.Name
          ResourcePathIDsMap := rawMap
          PathSegments := path.PathSegments
          Index := path.Index }
      match h.check c.policies ctx input with
      | some err =>
        match w.pathIDsMap.Load resp.Name with
        | none =>
          let u := nx.Unregister w.calls unregisterCtx resp opts
          let w := { w with calls := w.calls ++ [Call.Unregister unregisterCtx resp opts] }
          match u with
          | some unregisterErr =>
            ((none, some (begin.Error.Wrap err
              ("nse unregistered with error: " ++ unregisterErr.errorText))), w)
          | none => ((none, some err), w)
        | some _ => ((none, some err), w)
      | none =>
        ((some resp, none),
          { w with pathIDsMap := w.pathIDsMap.Store resp.Name resp.PathIds })

/-- Whether a recorded invocation is an Unregister. -/
def Call.isUnregister {α : Type} : Call α → Bool
  | Call.Unregister _ _ _ => true
  | Call.Register _ _ _ => false

namespace Sample

/-- Helpers whose check refuses every resource registered under the name `denied`. -/
def helpers : Helpers :=
  { check := fun _ _ input =>
      if input.ResourceName = "denied" then some (begin.Error.New "permission denied") else none
    getSpiffeIDFromPath := fun _ _ => "spiffe://test.com/workload"
    getRawMap := fun m => m }

/-- A next client that registers what it is given and whose Unregister succeeds. -/
def accepting (α : Type) : Next α :=
  { Register := fun _ _ i _ => (Except.ok i, "")
    Unregister := fun _ _ _ _ => none }

end Sample

end authorize

/-! ## The discoverforwarder server: Request (`networkservice/common/discoverforwarder`) -/

namespace discoverforwarder

/-- Labels: `map[string]string`. -/
abbrev Labels := List (String × String)

/-- The function `matchutils.IsSubset(a, b, nsLabels)` is not among the sources; the
definitions below take it as a parameter of this type. -/
abbrev SubsetTest := Labels → Labels → Labels → Bool

/-- Source: `nse.GetNetworkServiceLabels()[name]`, nil when the map or the entry is absent. -/
def forwarderLabelsOf (nse : begin.NetworkServiceEndpoint) (name : String) : Option Labels :=
  (nse.NetworkServiceLabels.getD []).lookup name

/-- Source: `match.GetMetadata().GetLabels()`, nil when the metadata or its labels are nil. -/
def Match.GetLabels (m : begin.Match) : Option Labels := m.Metadata.bind (fun md => md.Labels)

/-- Source: the inner loop of `matchForwarders`: the endpoints that carry labels for the
forwarder service name of which `matchLabels` is a subset are appended to `result`. -/
def matchForwarders.collect (IsSubset : SubsetTest) (d : discoverForwarderServer)
    (nsLabels matchLabels : Labels) :
    List begin.NetworkServiceEndpoint → List begin.NetworkServiceEndpoint →
      List begin.NetworkServiceEndpoint
  | [], result => result
  | nse :: rest, result =>
    match forwarderLabelsOf nse d.forwarderServiceName with
    | none => matchForwarders.collect IsSubset d nsLabels matchLabels rest result
    | some forwarderLabels =>
      if IsSubset forwarderLabels matchLabels nsLabels then
        matchForwarders.collect IsSubset d nsLabels matchLabels rest (result ++ [nse])
      else
        matchForwarders.collect IsSubset d nsLabels matchLabels rest result

/-- Source: the loop over `ns.GetMatches()` of `matchForwarders`. -/
def matchForwarders.loop (IsSubset : SubsetTest) (d : discoverForwarderServer)
    (nsLabels : Labels) (nses : List begin.NetworkServiceEndpoint) :
    List begin.Match → List begin.NetworkServiceEndpoint → List begin.NetworkServiceEndpoint
  | [], result => result
  | m :: rest, result =>
    if !IsSubset nsLabels m.SourceSelector nsLabels then
      matchForwarders.loop IsSubset d nsLabels nses rest result
    else
      let matchLabels :=
        match Match.GetLabels m with
        | none => [("p2p", "true")]
        | some labels => labels
      let result := matchForwarders.collect IsSubset d nsLabels matchLabels nses result
      if m.Fallthrough && result.length = 0 then
        matchForwarders.loop IsSubset d nsLabels nses rest result
      else
        result

/-- Source: `discoverForwarderServer.matchForwarders`. -/
def discoverForwarderServer.matchForwarders (d : discoverForwarderServer)
    (IsSubset : SubsetTest) (nsLabels : Labels) (ns : begin.NetworkService)
    (nses : List begin.NetworkServiceEndpoint) : List begin.NetworkServiceEndpoint :=
  if ns.Matches.length = 0 then nses
  else matchForwarders.loop IsSubset d nsLabels nses ns.Matches []

/-- In the words of the specification: a match accepts the connection when its source
selector is a subset of the connection labels. -/
def Spec.accepts (IsSubset : SubsetTest) (nsLabels : Labels) (m : begin.Match) : Bool :=
  IsSubset nsLabels m.SourceSelector nsLabels

/-- In the words of the specification: the labels a match asks of a forwarder, `p2p: true`
when it has none. -/
def Spec.labelsOf (m : begin.Match) : Labels := (Match.GetLabels m).getD [("p2p", "true")]

/-- In the words of the specification: a match selects an endpoint when the endpoint carries
labels for the forwarder service name and these include the labels of the match. -/
def Spec.selects (IsSubset : SubsetTest) (d : discoverForwarderServer) (nsLabels : Labels)
    (m : begin.Match) (nse : begin.NetworkServiceEndpoint) : Bool :=
  match forwarderLabelsOf nse d.forwarderServiceName with
  | none => false
  | some forwarderLabels => IsSubset forwarderLabels (Spec.labelsOf m) nsLabels

/-- In the words of the specification: the match that decides is the first one that accepts
the connection and either selects an endpoint or is not marked Fallthrough; the result is what
it selects, in the order of the endpoint list, and nothing when no match decides. With no
match at all the endpoints are returned as they are. -/
def Spec.matchForwarders (IsSubset : SubsetTest) (d : discoverForwarderServer)
    (nsLabels : Labels) (ns : begin.NetworkService)
    (nses : List begin.NetworkServiceEndpoint) : List begin.NetworkServiceEndpoint :=
  if ns.Matches = [] then nses
  else
    match ns.Matches.find? (fun m => Spec.accepts IsSubset nsLabels m &&
        (!(nses.filter (Spec.selects IsSubset d nsLabels m)).isEmpty || !m.Fallthrough)) with
    | some m => nses.filter (Spec.selects IsSubset d nsLabels m)
    | none => []

end discoverforwarder

namespace discoverforwarder

/-- The message `networkservice.NetworkServiceRequest`, reduced to its connection. -/
structure NetworkServiceRequest where
  Connection : Connection := {}
  deriving DecidableEq, Repr

/-- One invocation of the next stage's Request, with the arguments it received. -/
abbrev RequestCall := Context × NetworkServiceRequest

/-- What Request returns: `(*networkservice.Connection, error)`. -/
abbrev RequestResult := Option Connection × Option begin.Error

/-- The remainder of the chain for Request: what the next stage returns, given the
invocations made before. -/
structure RequestNext where
  Request : List RequestCall → Context → NetworkServiceRequest → RequestResult

/-- Modelled from the spec: `storeForwarderName` is not among the sources; it pins the peer
for the connection, which `loadForwarderName` yields from then on. -/
def storeForwarderName (ctx : Context) (name : String) : Context :=
  { ctx with forwarderName := name }

/-- Source: `discoverForwarderServer.discoverNetworkService`. The text of the query in the
message of the wrapped error is shortened to the name asked for. -/
def discoverForwarderServer.discoverNetworkService (d : discoverForwarderServer)
    (ctx : Context) (name payload : String) : Except begin.Error begin.NetworkService :=
  match d.nsClient ctx { Name := name, Payload := payload } with
  | Except.error err => Except.error (begin.Error.Wrap err ("failed to find " ++ name))
  | Except.ok nsList =>
    match nsList.find? (fun ns => ns.Name = name) with
    | some ns => Except.ok ns
    | none => Except.error (begin.Error.New ("network service " ++ name ++ " is not found"))

/-- Source: the loop `for i, candidate := range nses` that looks for the candidate named
`name`: the index of the first candidate with that name. -/
def Request.indexOfName (name : String) :
    List begin.NetworkServiceEndpoint → Option Nat
  | [] => none
  | candidate :: rest =>
    if candidate.Name = name then some 0
    else (Request.indexOfName name rest).map (fun i => i + 1)

/-- Source: `nses[0], nses[i] = nses[i], nses[0]`. -/
def Request.swap (nses : List begin.NetworkServiceEndpoint) (i : Nat) :
    List begin.NetworkServiceEndpoint :=
  match nses.get? 0, nses.get? i with
  | some first, some ith => (nses.set 0 ith).set i first
  | _, _ => nses

/-- Source: the loop that promotes the candidate named by the path segment after the current
one: the first candidate of that name changes places with the first candidate. -/
def Request.promote (nses : List begin.NetworkServiceEndpoint) (name : String) :
    List begin.NetworkServiceEndpoint :=
  match Request.indexOfName name nses with
  | some i => Request.swap nses i
  | none => nses

/-- Source: `discoverForwarderServer.Request`, lines 69 to 101: the forwarder name in force
and the candidates matched for it, or the error Request returns. -/
def Request.matched (d : discoverForwarderServer) (IsSubset : SubsetTest) (ctx : Context)
    (request : NetworkServiceRequest) :
    Except begin.Error (String × List begin.NetworkServiceEndpoint) :=
  let forwarderName := loadForwarderName ctx
  let forwarderName :=
    if request.Connection.State = State.RESELECT_REQUESTED then "" else forwarderName
  match d.discoverNetworkService ctx request.Connection.NetworkService
      request.Connection.Payload with
  | Except.error err => Except.error err
  | Except.ok ns =>
    match d.nseClient ctx
        { NetworkServiceNames := [d.forwarderServiceName], Name := forwarderName,
          Url := d.nsmgrURL } with
    | Except.error err =>
      Except.error (begin.Error.Wrap err
        ("failed to find " ++ d.forwarderServiceName ++ " on " ++ d.nsmgrURL))
    | Except.ok list =>
      let nses := d.matchForwarders IsSubset request.Connection.Labels ns list
      if nses.length = 0 then
        if forwarderName ≠ "" then
          Except.error (begin.Error.New ("forwarder " ++ forwarderName ++ " is not available"))
        else Except.error (begin.Error.New "no candidates found")
      else Except.ok (forwarderName, nses)

/-- Source: `discoverForwarderServer.Request`, lines 103 to 113: the candidates in the order
in which the loop over them goes. -/
def Request.candidates (d : discoverForwarderServer) (IsSubset : SubsetTest) (ctx : Context)
    (request : NetworkServiceRequest) :
    Except begin.Error (String × List begin.NetworkServiceEndpoint) :=
  match Request.matched d IsSubset ctx request with
  | Except.error err => Except.error err
  | Except.ok (forwarderName, nses) =>
    if forwarderName = "" ∧ request.Connection.State ≠ State.RESELECT_REQUESTED then
      match request.Connection.Path.PathSegments.get? (request.Connection.Path.Index + 1) with
      | some segment => Except.ok (forwarderName, Request.promote nses segment.Name)
      | none => Except.ok (forwarderName, nses)
    else Except.ok (forwarderName, nses)

/-- Source: `discoverForwarderServer.Request`, lines 115 to 137: the loop over the
candidates. `i` is the index of the first candidate of the list, `candidatesErr` the error
built so far. The result is what Request returns, the invocations of the next stage and the
context with the forwarder name stored. -/
def Request.tryCandidates (parse : String → Option URL) (nx : RequestNext) (ctx : Context)
    (request : NetworkServiceRequest) (forwarderName : String) :
    Nat → List begin.NetworkServiceEndpoint → begin.Error → List RequestCall →
      RequestResult × List RequestCall × Context
  | _, [], candidatesErr, calls => ((none, some candidatesErr), calls, ctx)
  | i, candidate :: rest, candidatesErr, calls =>
    match parse candidate.Url with
    | none =>
      Request.tryCandidates parse nx ctx request forwarderName (i + 1) rest candidatesErr calls
    | some u =>
      let r := nx.Request calls (WithClientURL ctx u) request
      let calls := calls ++ [(WithClientURL ctx u, request)]
      match r.2 with
      | none =>
        ((r.1, none), calls,
          if forwarderName = "" then storeForwarderName ctx candidate.Name else ctx)
      | some err =>
        Request.tryCandidates parse nx ctx request forwarderName (i + 1) rest
          (begin.Error.Wrap candidatesErr
            (toString i ++ ". An error during select forwarder " ++ candidate.Name ++ " --> " ++
              err.errorText))
          calls

/-- Source: `discoverForwarderServer.Request`. `parse` stands for `url.Parse`, `none` being
its error. -/
def discoverForwarderServer.Request (d : discoverForwarderServer) (IsSubset : SubsetTest)
    (parse : String → Option URL) (nx : RequestNext) (calls : List RequestCall)
    (ctx : Context) (request : NetworkServiceRequest) :
    RequestResult × List RequestCall × Context :=
  match Request.candidates d IsSubset ctx request with
  | Except.error err => ((none, some err), calls, ctx)
  | Except.ok (forwarderName, nses) =>
    Request.tryCandidates parse nx ctx request forwarderName 0 nses
      (begin.Error.New "all forwarders have failed") calls

/-- The invocation of the next stage that the loop makes for a candidate, if its URL can be
parsed. -/
def Request.attempt (parse : String → Option URL) (ctx : Context)
    (request : NetworkServiceRequest) (candidate : begin.NetworkServiceEndpoint) :
    Option RequestCall :=
  (parse candidate.Url).map (fun u => (WithClientURL ctx u, request))

/-- Every one of the given invocations, made in turn after `calls`, is answered with an
error. -/
def Request.AllFail (nx : RequestNext) : List RequestCall → List RequestCall → Prop
  | _, [] => True
  | calls, a :: rest =>
    (nx.Request calls a.1 a.2).2 ≠ none ∧ Request.AllFail nx (calls ++ [a]) rest

namespace Sample

/-- Three forwarders; the URL of the second one cannot be parsed. -/
def forwarders : List begin.NetworkServiceEndpoint :=
  [{ Name := "fwd-1", Url := "tcp://10.0.0.1:5001" },
   { Name := "fwd-2", Url := "::bad::" },
   { Name := "fwd-3", Url := "tcp://10.0.0.3:5001" }]

/-- A registry that knows the service `ns` and the three forwarders, and answers a query
for a forwarder name with the forwarders of that name. -/
def registry : discoverForwarderServer :=
  { nseClient := fun _ q =>
      Except.ok (forwarders.filter (fun nse => q.Name = "" ∨ nse.Name = q.Name))
    nsClient := fun _ q => Except.ok [{ Name := q.Name }] }

/-- A parser that refuses the text `::bad::`. -/
def parse (s : String) : Option URL := if s = "::bad::" then none else some s

/-- A subset test on labels that reads every value literally. -/
def isSubset : SubsetTest := fun a b _ => b.all (fun kv => a.lookup kv.1 = some kv.2)

/-- A request for the service `ns` whose path names `fwd-3` right after the current index. -/
def request : NetworkServiceRequest :=
  { Connection :=
      { Id := "c1", NetworkService := "ns",
        Path := { Index := 0, PathSegments := [{ Name := "nsmgr" }, { Name := "fwd-3" }] } } }

/-- A next stage whose Request is refused at the URL of `fwd-3` and succeeds elsewhere. -/
def refusingThird : RequestNext :=
  { Request := fun _ ctx r =>
      if ctx.clientURL = some "tcp://10.0.0.3:5001" then
        (none, some (begin.Error.Foreign "refused"))
      else (some r.Connection, none) }

/-- A next stage whose Request always fails. -/
def refusingAll : RequestNext :=
  { Request := fun _ _ _ => (none, some (begin.Error.Foreign "refused")) }

end Sample

end discoverforwarder

/-! ## The dnsresolve registry elements: `translateNSE` (`registry/common/dnsresolve`) -/

namespace dnsresolve

/-- The labels kept for one network service: the map in `registry.NetworkServiceLabels`. -/
abbrev ServiceLabels := List (String × String)

/-- The map `NetworkServiceLabels` of an endpoint, when it is not nil. -/
abbrev LabelMap := List (String × ServiceLabels)

/-- Source: the map read `m[key]`. -/
def LabelMap.get (m : LabelMap) (key : String) : Option ServiceLabels := m.lookup key

/-- Source: `delete(m, key)`. -/
def LabelMap.delete (m : LabelMap) (key : String) : LabelMap :=
  m.filter (fun kv => kv.1 != key)

/-- Source: the map write `m[key] = value`. -/
def LabelMap.set (m : LabelMap) (key : String) (value : ServiceLabels) : LabelMap :=
  (key, value) :: m.filter (fun kv => kv.1 != key)

/-- Source: `nse.GetNetworkServiceLabels()[service]`; reading a nil map yields nil. -/
def labelsOf (labels : Option LabelMap) (service : String) : Option ServiceLabels :=
  labels.bind (fun m => m.get service)

/-- Source: the loop of `translateNSE`. The first list holds the names still to be gone
through, `names` the names already written back, `labels` the label map. The test
`nse.GetNetworkServiceNames() == nil` of the source cannot hold inside the loop. -/
def translateNSE.loop (translator : String → String) :
    List String → List String → Option LabelMap → List String × Option LabelMap
  | [], names, labels => (names, labels)
  | service :: rest, names, labels =>
    let target := translator service
    let names := names ++ [target]
    match labelsOf labels service with
    | none => translateNSE.loop translator rest names labels
    | some l =>
      translateNSE.loop translator rest names
        (labels.map (fun m => (m.delete service).set target l))

/-- Source: `translateNSE(nse, translator)`; the endpoint is changed in place, so the changed
endpoint is returned. -/
def translateNSE (nse : begin.NetworkServiceEndpoint) (translator : String → String) :
    begin.NetworkServiceEndpoint :=
  let out := translateNSE.loop translator nse.NetworkServiceNames [] nse.NetworkServiceLabels
  { nse with
    Name := translator nse.Name
    NetworkServiceNames := out.1
    NetworkServiceLabels := out.2 }

/-- What one pass of the loop does to the label map, seen as a function from names to
entries. -/
def renameStep (translator : String → String) (g : String → Option ServiceLabels)
    (service : String) : String → Option ServiceLabels :=
  match g service with
  | none => g
  | some l =>
    fun k => if k = translator service then some l else if k = service then none else g k

namespace Sample

/-- A translator that renames `a` to `b` and leaves every other name as it is. -/
def aToB (s : String) : String := if s = "a" then "b" else s

/-- An endpoint that lists the service `a` and carries labels for `a` and for `b`. -/
def endpoint : begin.NetworkServiceEndpoint :=
  { Name := "nse-1", NetworkServiceNames := ["a"],
    NetworkServiceLabels := some [("a", [("app", "alpha")]), ("b", [("app", "beta")])] }

/-- The translator `interdomain.Target` on the names used below: the domain is cut off. -/
def target (s : String) : String := if s = "ns-1@domain" then "ns-1" else s

/-- An endpoint that lists the service `ns-1@domain` and carries labels for it and for the
service `other`, which it does not list. -/
def interdomainEndpoint : begin.NetworkServiceEndpoint :=
  { Name := "nse-1", NetworkServiceNames := ["ns-1@domain"],
    NetworkServiceLabels :=
      some [("ns-1@domain", [("app", "alpha")]), ("other", [("app", "beta")])] }

end Sample

end dnsresolve

/-! ## Lemmas on the Entity Map and on the queued tasks -/

namespace begin

section lemmas
variable {α : Type}

theorem LoadOrStore_load (w : World α) (id : String) (fr : EventFactory α) :
    (w.LoadOrStore id fr).2.Load id = some (w.LoadOrStore id fr).1 := by
  unfold World.LoadOrStore World.Load
  cases h : w.map id <;> simp [h]

theorem LoadOrStore_calls (w : World α) (id : String) (fr : EventFactory α) :
    (w.LoadOrStore id fr).2.calls = w.calls := by
  unfold World.LoadOrStore
  cases h : w.map id <;> simp

theorem LoadOrStore_used (w : World α) (id : String) (fr : EventFactory α) :
    (w.LoadOrStore id fr).2.factories (w.LoadOrStore id fr).1 =
      match w.map id with
      | some p => w.factories p
      | none => fr := by
  unfold World.LoadOrStore
  cases h : w.map id <;> simp

theorem LoadOrStore_of_some (w : World α) (id : String) (fr : EventFactory α) (p : Nat)
    (h : w.Load id = some p) : w.LoadOrStore id fr = (p, w) := by
  unfold World.Load at h
  simp [World.LoadOrStore, h]

/-- The controller chosen by `LoadOrStore` does not depend on the factory offered. -/
theorem LoadOrStore_fst (w : World α) (id : String) (fr fr' : EventFactory α) :
    (w.LoadOrStore id fr).1 = (w.LoadOrStore id fr').1 := by
  unfold World.LoadOrStore
  cases h : w.map id <;> simp

/-- Factories other than the chosen controller are left alone by `LoadOrStore`. -/
theorem LoadOrStore_frame (w : World α) (id : String) (fr : EventFactory α) (g : Nat)
    (hg : g ≠ (w.LoadOrStore id fr).1) : (w.LoadOrStore id fr).2.factories g = w.factories g := by
  unfold World.LoadOrStore at hg ⊢
  cases h : w.map id with
  | none => simp [h] at hg ⊢; intro h'; exact absurd h' hg
  | some p => simp

/-- A controller that is allocated and not current for `id` is not the one `LoadOrStore`
chooses. -/
theorem LoadOrStore_ne_stale (w : World α) (id : String) (fr : EventFactory α) (f : Nat)
    (hstale : w.Load id ≠ some f) (hf : f < w.nextFree) : f ≠ (w.LoadOrStore id fr).1 := by
  unfold World.Load at hstale
  unfold World.LoadOrStore
  cases h : w.map id with
  | none => simp; omega
  | some p =>
    simp
    intro hfp
    exact hstale (by rw [h, hfp])

variable (mergeNSE : Option NetworkServiceEndpoint → Option NetworkServiceEndpoint →
  Option NetworkServiceEndpoint) (nx : Next NetworkServiceEndpoint)

theorem clientRegister_eq_task (fuel : Nat) (w : World NetworkServiceEndpoint)
    (ctx : Context) (i : NetworkServiceEndpoint) (opts : List CallOption)
    (hid : i.GetName ≠ "") (hctx : fromContext ctx = none) :
    beginNSEClient.Register mergeNSE nx (fuel + 1) w ctx i opts =
      beginNSEClient.RegisterTask mergeNSE nx fuel
        (w.LoadOrStore i.GetName (newEventNSEFactoryClient ctx (some i.GetName) opts)).2
        (w.LoadOrStore i.GetName (newEventNSEFactoryClient ctx (some i.GetName) opts)).1
        ctx i opts := by
  simp [beginNSEClient.Register, hid, hctx]

theorem serverRegister_eq_task (fuel : Nat) (w : World NetworkServiceEndpoint)
    (ctx : Context) (i : NetworkServiceEndpoint)
    (hid : i.GetName ≠ "") (hctx : fromContext ctx = none) :
    beginNSEServer.Register mergeNSE nx (fuel + 1) w ctx i =
      beginNSEServer.RegisterTask mergeNSE nx fuel
        (w.LoadOrStore i.GetName (newNSEEventFactoryServer ctx i.GetName)).2
        (w.LoadOrStore i.GetName (newNSEEventFactoryServer ctx i.GetName)).1
        ctx i := by
  simp [beginNSEServer.Register, hid, hctx]

theorem clientUnregister_eq_task (fuel : Nat) (w : World NetworkServiceEndpoint)
    (ctx : Context) (i : NetworkServiceEndpoint) (opts : List CallOption)
    (hctx : fromContext ctx = none) :
    beginNSEClient.Unregister nx (fuel + 1) w ctx i opts =
      beginNSEClient.UnregisterTask nx fuel
        (w.LoadOrStore i.GetName (newEventNSEFactoryClient ctx (some i.GetName) [])).2
        (w.LoadOrStore i.GetName (newEventNSEFactoryClient ctx (some i.GetName) [])).1
        ctx i opts := by
  simp [beginNSEClient.Unregister, hctx]

theorem serverUnregister_eq_task (fuel : Nat) (w : World NetworkServiceEndpoint)
    (ctx : Context) (i : NetworkServiceEndpoint)
    (hctx : fromContext ctx = none) :
    beginNSEServer.Unregister nx (fuel + 1) w ctx i =
      beginNSEServer.UnregisterTask nx fuel
        (w.LoadOrStore i.GetName (newNSEEventFactoryServer ctx i.GetName)).2
        (w.LoadOrStore i.GetName (newNSEEventFactoryServer ctx i.GetName)).1
        ctx i := by
  simp [beginNSEServer.Unregister, hctx]

/-- The client Register task on the current controller: the three outcomes of lines 62-75. -/
theorem clientRegisterTask_current (fuel : Nat) (w : World NetworkServiceEndpoint)
    (f : Nat) (ctx : Context) (i : NetworkServiceEndpoint) (opts : List CallOption)
    (hcur : w.Load i.GetName = some f) :
    beginNSEClient.RegisterTask mergeNSE nx fuel w f ctx i opts =
      if (nx.Register w.calls (withEventFactory ctx f) (some i) opts).2.isSome then
        if (w.factories f).state ≠ connectionState.established then
          some (nx.Register w.calls (withEventFactory ctx f) (some i) opts,
            ((w.record (Call.Register (withEventFactory ctx f) (some i) opts)).setFactory f
              { w.factories f with state := connectionState.closed }).Delete i.GetName)
        else
          some (nx.Register w.calls (withEventFactory ctx f) (some i) opts,
            w.record (Call.Register (withEventFactory ctx f) (some i) opts))
      else
        some (nx.Register w.calls (withEventFactory ctx f) (some i) opts,
          updateContext
            ((w.record (Call.Register (withEventFactory ctx f) (some i) opts)).setFactory f
              { w.factories f with
                opts := opts
                state := connectionState.established
                registration :=
                  mergeNSE (some i) (nx.Register w.calls (withEventFactory ctx f) (some i) opts).1
                response := (nx.Register w.calls (withEventFactory ctx f) (some i) opts).1 })
            f ctx) := by
  cases fuel <;> simp [beginNSEClient.RegisterTask, hcur, World.record]

/-- The server Register task on the current controller: the three outcomes of lines 57-69. -/
theorem serverRegisterTask_current (fuel : Nat) (w : World NetworkServiceEndpoint)
    (f : Nat) (ctx : Context) (i : NetworkServiceEndpoint)
    (hcur : w.Load i.GetName = some f) :
    beginNSEServer.RegisterTask mergeNSE nx fuel w f ctx i =
      if (nx.Register w.calls (withEventFactory ctx f) (some i) []).2.isSome then
        if (w.factories f).state ≠ connectionState.established then
          some (nx.Register w.calls (withEventFactory ctx f) (some i) [],
            ((w.record (Call.Register (withEventFactory ctx f) (some i) [])).setFactory f
              { w.factories f with state := connectionState.closed }).Delete i.GetName)
        else
          some (nx.Register w.calls (withEventFactory ctx f) (some i) [],
            w.record (Call.Register (withEventFactory ctx f) (some i) []))
      else
        some (nx.Register w.calls (withEventFactory ctx f) (some i) [],
          updateContext
            ((w.record (Call.Register (withEventFactory ctx f) (some i) [])).setFactory f
              { w.factories f with
                registration :=
                  mergeNSE (some i) (nx.Register w.calls (withEventFactory ctx f) (some i) []).1
                state := connectionState.established
                response := (nx.Register w.calls (withEventFactory ctx f) (some i) []).1 })
            f ctx) := by
  cases fuel <;> simp [beginNSEServer.RegisterTask, hcur, World.record]

/-- The client Unregister task on the current controller (lines 98-106). -/
theorem clientUnregisterTask_current (fuel : Nat) (w : World NetworkServiceEndpoint)
    (f : Nat) (ctx : Context) (i : NetworkServiceEndpoint) (opts : List CallOption)
    (hcur : w.Load i.GetName = some f) :
    beginNSEClient.UnregisterTask nx fuel w f ctx i opts =
      some (nx.Unregister w.calls (withEventFactory ctx f)
          (if (w.factories f).registration.isNone then some i else (w.factories f).registration)
          opts,
        afterCloseFunc (w.record (Call.Unregister (withEventFactory ctx f)
          (if (w.factories f).registration.isNone then some i else (w.factories f).registration)
          opts)) f) := by
  cases fuel <;> simp [beginNSEClient.UnregisterTask, hcur]

/-- The server Unregister task on the current controller (lines 94-100). -/
theorem serverUnregisterTask_current (fuel : Nat) (w : World NetworkServiceEndpoint)
    (f : Nat) (ctx : Context) (i : NetworkServiceEndpoint)
    (hcur : w.Load i.GetName = some f) :
    beginNSEServer.UnregisterTask nx fuel w f ctx i =
      some (nx.Unregister w.calls (withEventFactory ctx f)
          (if (w.factories f).registration.isNone then some i else (w.factories f).registration)
          [],
        afterCloseFunc (w.record (Call.Unregister (withEventFactory ctx f)
          (if (w.factories f).registration.isNone then some i else (w.factories f).registration)
          [])) f) := by
  cases fuel <;> simp [beginNSEServer.UnregisterTask, hcur]

end lemmas

end begin

/-! ## Claims on the begin elements and the event factories -/

namespace begin

/-- C1, amended: for a non-empty id whose controller is not yet established and a context that
carries no event factory, when the next stage's Register returns an error `e`, begin's Register
(client and server) returns exactly the next stage's result, the controller it used, which is
the one `LoadOrStore` yields, ends in state closed, and the Entity Map has no entry for the
id. -/
theorem C1_failed_first_register_closes_and_evicts
    (mergeNSE : Option NetworkServiceEndpoint → Option NetworkServiceEndpoint →
      Option NetworkServiceEndpoint) (nx : Next NetworkServiceEndpoint) (fuel : Nat)
    (w : World NetworkServiceEndpoint) (ctx : Context) (i : NetworkServiceEndpoint)
    (opts : List CallOption)
    (hid : i.GetName ≠ "") (hctx : fromContext ctx = none)
    (hnew : ∀ p, w.Load i.GetName = some p →
      (w.factories p).state ≠ connectionState.established) :
    (∀ e, (nx.Register w.calls (withEventFactory ctx
        (w.LoadOrStore i.GetName (newEventNSEFactoryClient ctx (some i.GetName) opts)).1)
          (some i) opts).2 = some e →
      ∃ w', beginNSEClient.Register mergeNSE nx (fuel + 1) w ctx i opts =
          some (nx.Register w.calls (withEventFactory ctx
            (w.LoadOrStore i.GetName (newEventNSEFactoryClient ctx (some i.GetName) opts)).1)
              (some i) opts, w') ∧
        (w'.factories (w.LoadOrStore i.GetName
          (newEventNSEFactoryClient ctx (some i.GetName) opts)).1).state
            = connectionState.closed ∧
        w'.Load i.GetName = none) ∧
    (∀ e, (nx.Register w.calls (withEventFactory ctx
        (w.LoadOrStore i.GetName (newNSEEventFactoryServer ctx i.GetName)).1)
          (some i) []).2 = some e →
      ∃ w', beginNSEServer.Register mergeNSE nx (fuel + 1) w ctx i =
          some (nx.Register w.calls (withEventFactory ctx
            (w.LoadOrStore i.GetName (newNSEEventFactoryServer ctx i.GetName)).1)
              (some i) [], w') ∧
        (w'.factories (w.LoadOrStore i.GetName
          (newNSEEventFactoryServer ctx i.GetName)).1).state = connectionState.closed ∧
        w'.Load i.GetName = none) := by
  constructor
  · intro e he
    rw [clientRegister_eq_task mergeNSE nx fuel w ctx i opts hid hctx,
      clientRegisterTask_current mergeNSE nx fuel _ _ ctx i opts (LoadOrStore_load _ _ _)]
    have hst : ((w.LoadOrStore i.GetName
        (newEventNSEFactoryClient ctx (some i.GetName) opts)).2.factories
          (w.LoadOrStore i.GetName (newEventNSEFactoryClient ctx (some i.GetName) opts)).1).state
            ≠ connectionState.established := by
      rw [LoadOrStore_used]
      cases hm : w.map i.GetName with
      | none => simp [newEventNSEFactoryClient, newEventNSFactoryClient]
      | some p => exact hnew p hm
    rw [LoadOrStore_calls, if_pos (by rw [he]; rfl), if_pos hst]
    exact ⟨_, rfl, by simp [World.Delete, World.setFactory, World.record],
      by simp [World.Delete, World.Load]⟩
  · intro e he
    rw [serverRegister_eq_task mergeNSE nx fuel w ctx i hid hctx,
      serverRegisterTask_current mergeNSE nx fuel _ _ ctx i (LoadOrStore_load _ _ _)]
    have hst : ((w.LoadOrStore i.GetName (newNSEEventFactoryServer ctx i.GetName)).2.factories
          (w.LoadOrStore i.GetName (newNSEEventFactoryServer ctx i.GetName)).1).state
            ≠ connectionState.established := by
      rw [LoadOrStore_used]
      cases hm : w.map i.GetName with
      | none => simp [newNSEEventFactoryServer, newNSEventFactoryServer]
      | some p => exact hnew p hm
    rw [LoadOrStore_calls, if_pos (by rw [he]; rfl), if_pos hst]
    exact ⟨_, rfl, by simp [World.Delete, World.setFactory, World.record],
      by simp [World.Delete, World.Load]⟩

/-- C1 (amended) at a concrete input: the first Register of `nse` on an empty Entity Map,
with a context that carries no event factory, refused by the next stage. -/
theorem C1_failed_first_register_witness :
    (∃ w', beginNSEClient.Register Sample.merge Sample.refusing 1 {} {} Sample.endpoint [] =
        some ((none, some (Error.Foreign "refused")), w') ∧
      (w'.factories 0).state = connectionState.closed ∧ w'.Load "nse" = none) ∧
    (∃ w', beginNSEServer.Register Sample.merge Sample.refusing 1 {} {} Sample.endpoint =
        some ((none, some (Error.Foreign "refused")), w') ∧
      (w'.factories 0).state = connectionState.closed ∧ w'.Load "nse" = none) :=
  ⟨(C1_failed_first_register_closes_and_evicts Sample.merge Sample.refusing 0 {} {}
      Sample.endpoint [] (by decide) rfl (by intro p hp; simp [World.Load] at hp)).1
        (Error.Foreign "refused") rfl,
    (C1_failed_first_register_closes_and_evicts Sample.merge Sample.refusing 0 {} {}
      Sample.endpoint [] (by decide) rfl (by intro p hp; simp [World.Load] at hp)).2
        (Error.Foreign "refused") rfl⟩


/-- C2: a refresh of an established controller whose next-stage Register fails with `e` leaves
the state established, the cached registration and response as they were and the controller in
the Entity Map, and surfaces `e`: to the caller for begin's Register (client, server; whether it
runs the controller's task or, the context carrying an event factory already, forwards the
call), on the channel for the event factory's Register trigger (client, server). -/
theorem C2_failed_refresh_keeps_established :
    (∀ (mergeNSE : Option NetworkServiceEndpoint → Option NetworkServiceEndpoint →
        Option NetworkServiceEndpoint) (nx : Next NetworkServiceEndpoint) (fuel : Nat)
        (w : World NetworkServiceEndpoint) (ctx : Context) (i : NetworkServiceEndpoint)
        (opts : List CallOption) (p : Nat) (e : Error),
      i.GetName ≠ "" → w.Load i.GetName = some p →
      (w.factories p).state = connectionState.established →
      (nx.Register w.calls
        (if (fromContext ctx).isSome then ctx else withEventFactory ctx p)
        (some i) opts).2 = some e →
      ∃ w', beginNSEClient.Register mergeNSE nx (fuel + 1) w ctx i opts =
          some (nx.Register w.calls
            (if (fromContext ctx).isSome then ctx else withEventFactory ctx p)
            (some i) opts, w') ∧
        (w'.factories p).state = connectionState.established ∧
        (w'.factories p).registration = (w.factories p).registration ∧
        (w'.factories p).response = (w.factories p).response ∧
        w'.Load i.GetName = some p) ∧
    (∀ (mergeNSE : Option NetworkServiceEndpoint → Option NetworkServiceEndpoint →
        Option NetworkServiceEndpoint) (nx : Next NetworkServiceEndpoint) (fuel : Nat)
        (w : World NetworkServiceEndpoint) (ctx : Context) (i : NetworkServiceEndpoint)
        (p : Nat) (e : Error),
      i.GetName ≠ "" → w.Load i.GetName = some p →
      (w.factories p).state = connectionState.established →
      (nx.Register w.calls
        (if (fromContext ctx).isSome then ctx else withEventFactory ctx p)
        (some i) []).2 = some e →
      ∃ w', beginNSEServer.Register mergeNSE nx (fuel + 1) w ctx i =
          some (nx.Register w.calls
            (if (fromContext ctx).isSome then ctx else withEventFactory ctx p)
            (some i) [], w') ∧
        (w'.factories p).state = connectionState.established ∧
        (w'.factories p).registration = (w.factories p).registration ∧
        (w'.factories p).response = (w.factories p).response ∧
        w'.Load i.GetName = some p) ∧
    (∀ (α : Type) (mergeNS : Option α → Option α → Option α) (nx : Next α) (w : World α)
        (f : Nat) (e : Error),
      (w.factories f).state = connectionState.established →
      (nx.Register w.calls (ctxFunc w f) (w.factories f).registration
        (w.factories f).opts).2 = some e →
      (eventNSFactoryClient.Register mergeNS nx w f false).1 = [some e] ∧
        ((eventNSFactoryClient.Register mergeNS nx w f false).2.factories f).state =
          connectionState.established ∧
        ((eventNSFactoryClient.Register mergeNS nx w f false).2.factories f).registration =
          (w.factories f).registration ∧
        ((eventNSFactoryClient.Register mergeNS nx w f false).2.factories f).response =
          (w.factories f).response ∧
        (eventNSFactoryClient.Register mergeNS nx w f false).2.map = w.map) ∧
    (∀ (α : Type) (nx : Next α) (w : World α) (f : Nat) (e : Error),
      (w.factories f).state = connectionState.established →
      (nx.Register w.calls (ctxFunc w f) (w.factories f).registration []).2 = some e →
      (eventNSFactoryServer.Register nx w f false).1 = [some e] ∧
        ((eventNSFactoryServer.Register nx w f false).2.factories f).state =
          connectionState.established ∧
        ((eventNSFactoryServer.Register nx w f false).2.factories f).registration =
          (w.factories f).registration ∧
        ((eventNSFactoryServer.Register nx w f false).2.factories f).response =
          (w.factories f).response ∧
        (eventNSFactoryServer.Register nx w f false).2.map = w.map) := by
  refine ⟨?_, ?_, ?_, ?_⟩
  · intro mergeNSE nx fuel w ctx i opts p e hid hcur hest he
    by_cases hpass : (fromContext ctx).isSome = true
    · rw [if_pos hpass] at he ⊢
      refine ⟨w.record (Call.Register ctx (some i) opts), ?_, ?_, ?_, ?_, ?_⟩
      · simp [beginNSEClient.Register, hid, hpass]
      · simpa [World.record] using hest
      · simp [World.record]
      · simp [World.record]
      · simpa [World.record, World.Load] using hcur
    · rw [if_neg hpass] at he ⊢
      have hctx : fromContext ctx = none := by simpa using hpass
      rw [clientRegister_eq_task mergeNSE nx fuel w ctx i opts hid hctx,
        LoadOrStore_of_some w _ _ p hcur,
        clientRegisterTask_current mergeNSE nx fuel w p ctx i opts hcur,
        if_pos (by rw [he]; rfl), if_neg (by simp [hest])]
      exact ⟨_, rfl, by simpa [World.record] using hest, by simp [World.record],
        by simp [World.record], by simpa [World.record, World.Load] using hcur⟩
  · intro mergeNSE nx fuel w ctx i p e hid hcur hest he
    by_cases hpass : (fromContext ctx).isSome = true
    · rw [if_pos hpass] at he ⊢
      refine ⟨w.record (Call.Register ctx (some i) []), ?_, ?_, ?_, ?_, ?_⟩
      · simp [beginNSEServer.Register, hid, hpass]
      · simpa [World.record] using hest
      · simp [World.record]
      · simp [World.record]
      · simpa [World.record, World.Load] using hcur
    · rw [if_neg hpass] at he ⊢
      have hctx : fromContext ctx = none := by simpa using hpass
      rw [serverRegister_eq_task mergeNSE nx fuel w ctx i hid hctx,
        LoadOrStore_of_some w _ _ p hcur,
        serverRegisterTask_current mergeNSE nx fuel w p ctx i hcur,
        if_pos (by rw [he]; rfl), if_neg (by simp [hest])]
      exact ⟨_, rfl, by simpa [World.record] using hest, by simp [World.record],
        by simp [World.record], by simpa [World.record, World.Load] using hcur⟩
  · intro α mergeNS nx w f e hest he
    simp [eventNSFactoryClient.Register, hest, he, World.record]
  · intro α nx w f e hest he
    simp [eventNSFactoryServer.Register, hest, he, World.record]

/-- C2 at concrete inputs: a refused refresh of the established controller of `nse`, through
begin's Register, and of the established controller of `ns`, through the trigger. -/
theorem C2_failed_refresh_witness :
    (∃ w', beginNSEClient.Register Sample.merge Sample.refusing 1 Sample.established {}
        Sample.endpoint [] = some ((none, some (Error.Foreign "refused")), w') ∧
      (w'.factories 0).state = connectionState.established ∧
      (w'.factories 0).registration = some Sample.endpoint ∧
      (w'.factories 0).response = some Sample.endpoint ∧
      w'.Load "nse" = some 0) ∧
    (eventNSFactoryClient.Register Sample.merge Sample.refusing Sample.establishedNS 0 false).1 =
      [some (Error.Foreign "refused")] ∧
    ((eventNSFactoryClient.Register Sample.merge Sample.refusing Sample.establishedNS 0
      false).2.factories 0).registration = some Sample.service :=
  ⟨C2_failed_refresh_keeps_established.1 Sample.merge Sample.refusing 0 Sample.established {}
      Sample.endpoint [] 0 (Error.Foreign "refused") (by decide) rfl rfl rfl,
    (C2_failed_refresh_keeps_established.2.2.1 NetworkService Sample.merge Sample.refusing
      Sample.establishedNS 0 (Error.Foreign "refused") rfl rfl).1,
    (C2_failed_refresh_keeps_established.2.2.1 NetworkService Sample.merge Sample.refusing
      Sample.establishedNS 0 (Error.Foreign "refused") rfl rfl).2.2.1⟩


/-- C3, as stated, fails when the context already carries an event factory: for the non-empty
id `nse` the next stage's Register succeeds with the endpoint and begin's Register (client and
server) returns it with no error, yet the Entity Map, empty before, maps `nse` to no controller
afterwards. -/
theorem C3_counterexample_event_factory_in_context :
    Sample.endpoint.GetName ≠ "" ∧
    (∀ cs c o, (Sample.accepting : Next NetworkServiceEndpoint).Register cs c
      (some Sample.endpoint) o = (some Sample.endpoint, none)) ∧
    (∃ w', beginNSEClient.Register Sample.merge Sample.accepting 1 {}
        { eventFactory := some 0 } Sample.endpoint [] =
          some ((some Sample.endpoint, none), w') ∧ w'.Load "nse" = none) ∧
    (∃ w', beginNSEServer.Register Sample.merge Sample.accepting 1 {}
        { eventFactory := some 0 } Sample.endpoint =
          some ((some Sample.endpoint, none), w') ∧ w'.Load "nse" = none) ∧
    ¬ (∃ w' p, beginNSEClient.Register Sample.merge Sample.accepting 1 {}
        { eventFactory := some 0 } Sample.endpoint [] =
          some ((some Sample.endpoint, none), w') ∧ w'.Load "nse" = some p ∧
        (w'.factories p).state = connectionState.established) := by
  refine ⟨by decide, fun _ _ _ => rfl, ⟨_, rfl, rfl⟩, ⟨_, rfl, rfl⟩, ?_⟩
  rintro ⟨w', p, h, hl, -⟩
  have h' : beginNSEClient.Register Sample.merge Sample.accepting 1 {}
      { eventFactory := some 0 } Sample.endpoint [] =
        some ((some Sample.endpoint, none),
          World.record {} (Call.Register { eventFactory := some 0 } (some Sample.endpoint) [])) :=
    rfl
  rw [h'] at h
  have hw : World.record {} (Call.Register { eventFactory := some 0 }
      (some Sample.endpoint) []) = w' := by
    injection h with h
    exact (Prod.mk.inj h).2
  rw [← hw] at hl
  simp [World.record, World.Load] at hl

/-- C3, amended: for a non-empty id and a context that carries no event factory, when the next
stage's Register succeeds with response `r`, begin's Register (client and server) returns `r`
with no error, and afterwards the Entity Map maps the id to a controller whose state is
established, whose cached response is `r` and whose cached registration is `mergeNSE(in, r)`. -/
theorem C3_successful_register_establishes
    (mergeNSE : Option NetworkServiceEndpoint → Option NetworkServiceEndpoint →
      Option NetworkServiceEndpoint) (nx : Next NetworkServiceEndpoint) (fuel : Nat)
    (w : World NetworkServiceEndpoint) (ctx : Context) (i : NetworkServiceEndpoint)
    (opts : List CallOption)
    (hid : i.GetName ≠ "") (hctx : fromContext ctx = none) :
    (∀ r, nx.Register w.calls (withEventFactory ctx
        (w.LoadOrStore i.GetName (newEventNSEFactoryClient ctx (some i.GetName) opts)).1)
          (some i) opts = (r, none) →
      ∃ w' p, beginNSEClient.Register mergeNSE nx (fuel + 1) w ctx i opts =
          some ((r, none), w') ∧
        w'.Load i.GetName = some p ∧
        (w'.factories p).state = connectionState.established ∧
        (w'.factories p).response = r ∧
        (w'.factories p).registration = mergeNSE (some i) r) ∧
    (∀ r, nx.Register w.calls (withEventFactory ctx
        (w.LoadOrStore i.GetName (newNSEEventFactoryServer ctx i.GetName)).1)
          (some i) [] = (r, none) →
      ∃ w' p, beginNSEServer.Register mergeNSE nx (fuel + 1) w ctx i = some ((r, none), w') ∧
        w'.Load i.GetName = some p ∧
        (w'.factories p).state = connectionState.established ∧
        (w'.factories p).response = r ∧
        (w'.factories p).registration = mergeNSE (some i) r) := by
  constructor
  · intro r hr
    have hl := LoadOrStore_load w i.GetName (newEventNSEFactoryClient ctx (some i.GetName) opts)
    rw [clientRegister_eq_task mergeNSE nx fuel w ctx i opts hid hctx,
      clientRegisterTask_current mergeNSE nx fuel _ _ ctx i opts hl,
      LoadOrStore_calls, hr, if_neg (by simp)]
    exact ⟨_, _, rfl, by simpa [updateContext, World.setFactory, World.record, World.Load]
      using hl, by simp [updateContext, World.setFactory, World.record],
      by simp [updateContext, World.setFactory, World.record],
      by simp [updateContext, World.setFactory, World.record]⟩
  · intro r hr
    have hl := LoadOrStore_load w i.GetName (newNSEEventFactoryServer ctx i.GetName)
    rw [serverRegister_eq_task mergeNSE nx fuel w ctx i hid hctx,
      serverRegisterTask_current mergeNSE nx fuel _ _ ctx i hl,
      LoadOrStore_calls, hr, if_neg (by simp)]
    exact ⟨_, _, rfl, by simpa [updateContext, World.setFactory, World.record, World.Load]
      using hl, by simp [updateContext, World.setFactory, World.record],
      by simp [updateContext, World.setFactory, World.record],
      by simp [updateContext, World.setFactory, World.record]⟩

/-- C3 (amended) at a concrete input: the first Register of `nse`, accepted by the next
stage. -/
theorem C3_successful_register_witness :
    ∃ w' p, beginNSEClient.Register Sample.merge Sample.accepting 1 {} {} Sample.endpoint [] =
        some ((some Sample.endpoint, none), w') ∧
      w'.Load "nse" = some p ∧
      (w'.factories p).state = connectionState.established ∧
      (w'.factories p).response = some Sample.endpoint ∧
      (w'.factories p).registration = some Sample.endpoint :=
  (C3_successful_register_establishes Sample.merge Sample.accepting 0 {} {} Sample.endpoint []
    (by decide) rfl).1 (some Sample.endpoint) rfl


/-- C4: every executed Unregister ends with the controller closed and its eviction run, and
reports the next stage's error whatever it is. For begin's Unregister (client, server) on the
controller current for the id, whose eviction callback is the one created with it for that id:
the result is the error of the one invocation of the next stage, the controller is closed and the
Entity Map has no entry for the id. For the event factory's Unregister trigger (client, server)
on a controller with a cached registration and a cancellation context that is not done: the
channel delivers the next stage's error, the controller is closed and no entry is left for the id
of its eviction callback. -/
theorem C4_unregister_closes_and_evicts :
    (∀ (nx : Next NetworkServiceEndpoint) (fuel : Nat) (w : World NetworkServiceEndpoint)
        (ctx : Context) (i : NetworkServiceEndpoint) (opts : List CallOption),
      fromContext ctx = none →
      (∀ p, w.Load i.GetName = some p → (w.factories p).afterClose = some i.GetName) →
      ∃ reg w', beginNSEClient.Unregister nx (fuel + 1) w ctx i opts =
          some (nx.Unregister w.calls (withEventFactory ctx (w.LoadOrStore i.GetName
            (newEventNSEFactoryClient ctx (some i.GetName) [])).1) reg opts, w') ∧
        w'.calls = w.calls ++ [Call.Unregister (withEventFactory ctx (w.LoadOrStore i.GetName
            (newEventNSEFactoryClient ctx (some i.GetName) [])).1) reg opts] ∧
        (w'.factories (w.LoadOrStore i.GetName
            (newEventNSEFactoryClient ctx (some i.GetName) [])).1).state =
          connectionState.closed ∧
        w'.Load i.GetName = none) ∧
    (∀ (nx : Next NetworkServiceEndpoint) (fuel : Nat) (w : World NetworkServiceEndpoint)
        (ctx : Context) (i : NetworkServiceEndpoint),
      fromContext ctx = none →
      (∀ p, w.Load i.GetName = some p → (w.factories p).afterClose = some i.GetName) →
      ∃ reg w', beginNSEServer.Unregister nx (fuel + 1) w ctx i =
          some (nx.Unregister w.calls (withEventFactory ctx (w.LoadOrStore i.GetName
            (newNSEEventFactoryServer ctx i.GetName)).1) reg [], w') ∧
        w'.calls = w.calls ++ [Call.Unregister (withEventFactory ctx (w.LoadOrStore i.GetName
            (newNSEEventFactoryServer ctx i.GetName)).1) reg []] ∧
        (w'.factories (w.LoadOrStore i.GetName
            (newNSEEventFactoryServer ctx i.GetName)).1).state = connectionState.closed ∧
        w'.Load i.GetName = none) ∧
    (∀ (α : Type) (nx : Next α) (w : World α) (f : Nat),
      (w.factories f).registration.isSome = true →
      (eventNSFactoryClient.Unregister nx w f false).1 =
          [nx.Unregister w.calls (ctxFunc w f) (w.factories f).response (w.factories f).opts] ∧
        ((eventNSFactoryClient.Unregister nx w f false).2.factories f).state =
          connectionState.closed ∧
        ∀ id, (w.factories f).afterClose = some id →
          (eventNSFactoryClient.Unregister nx w f false).2.Load id = none) ∧
    (∀ (α : Type) (nx : Next α) (w : World α) (f : Nat),
      (w.factories f).registration.isSome = true →
      (eventNSFactoryServer.Unregister nx w f false).1 =
          [nx.Unregister w.calls (ctxFunc w f) (w.factories f).registration []] ∧
        ((eventNSFactoryServer.Unregister nx w f false).2.factories f).state =
          connectionState.closed ∧
        ∀ id, (w.factories f).afterClose = some id →
          (eventNSFactoryServer.Unregister nx w f false).2.Load id = none) := by
  refine ⟨?_, ?_, ?_, ?_⟩
  · intro nx fuel w ctx i opts hctx hcb
    have hl := LoadOrStore_load w i.GetName (newEventNSEFactoryClient ctx (some i.GetName) [])
    have hac : ((w.LoadOrStore i.GetName
        (newEventNSEFactoryClient ctx (some i.GetName) [])).2.factories
          (w.LoadOrStore i.GetName (newEventNSEFactoryClient ctx (some i.GetName) [])).1).afterClose
            = some i.GetName := by
      rw [LoadOrStore_used]
      cases hm : w.map i.GetName with
      | none => simp [newEventNSEFactoryClient, newEventNSFactoryClient]
      | some p => exact hcb p hm
    rw [clientUnregister_eq_task nx fuel w ctx i opts hctx,
      clientUnregisterTask_current nx fuel _ _ ctx i opts hl, LoadOrStore_calls]
    refine ⟨_, _, rfl, ?_, ?_, ?_⟩
    · simp [afterCloseFunc, World.record, hac, World.Delete, World.setFactory, LoadOrStore_calls]
    · simp [afterCloseFunc, World.record, hac, World.Delete, World.setFactory]
    · simp [afterCloseFunc, World.record, hac, World.Delete, World.setFactory, World.Load]
  · intro nx fuel w ctx i hctx hcb
    have hl := LoadOrStore_load w i.GetName (newNSEEventFactoryServer ctx i.GetName)
    have hac : ((w.LoadOrStore i.GetName (newNSEEventFactoryServer ctx i.GetName)).2.factories
          (w.LoadOrStore i.GetName (newNSEEventFactoryServer ctx i.GetName)).1).afterClose
            = some i.GetName := by
      rw [LoadOrStore_used]
      cases hm : w.map i.GetName with
      | none => simp [newNSEEventFactoryServer, newNSEventFactoryServer]
      | some p => exact hcb p hm
    rw [serverUnregister_eq_task nx fuel w ctx i hctx,
      serverUnregisterTask_current nx fuel _ _ ctx i hl, LoadOrStore_calls]
    refine ⟨_, _, rfl, ?_, ?_, ?_⟩
    · simp [afterCloseFunc, World.record, hac, World.Delete, World.setFactory, LoadOrStore_calls]
    · simp [afterCloseFunc, World.record, hac, World.Delete, World.setFactory]
    · simp [afterCloseFunc, World.record, hac, World.Delete, World.setFactory, World.Load]
  · intro α nx w f hreg
    have hreg' : (w.factories f).registration.isNone = false := by
      cases h : (w.factories f).registration <;> simp [h] at hreg ⊢
    refine ⟨by simp [eventNSFactoryClient.Unregister, hreg'], ?_, ?_⟩
    · cases hac : (w.factories f).afterClose <;>
        simp [eventNSFactoryClient.Unregister, hreg', afterCloseFunc, World.record, hac,
          World.Delete, World.setFactory]
    · intro id hac
      simp [eventNSFactoryClient.Unregister, hreg', afterCloseFunc, World.record, hac,
        World.Delete, World.setFactory, World.Load]
  · intro α nx w f hreg
    have hreg' : (w.factories f).registration.isNone = false := by
      cases h : (w.factories f).registration <;> simp [h] at hreg ⊢
    refine ⟨by simp [eventNSFactoryServer.Unregister, hreg'], ?_, ?_⟩
    · cases hac : (w.factories f).afterClose <;>
        simp [eventNSFactoryServer.Unregister, hreg', afterCloseFunc, World.record, hac,
          World.Delete, World.setFactory]
    · intro id hac
      simp [eventNSFactoryServer.Unregister, hreg', afterCloseFunc, World.record, hac,
        World.Delete, World.setFactory, World.Load]

/-- C4 at concrete inputs: begin's Unregister of the established `nse` with the next stage
refusing, and the Unregister trigger of the established controller of `ns`. -/
theorem C4_unregister_witness :
    (∃ reg w', beginNSEClient.Unregister Sample.refusing 1 Sample.established {}
        Sample.endpoint [] = some (Sample.refusing.Unregister [] (withEventFactory {} 0) reg [],
          w') ∧
      w'.calls = [Call.Unregister (withEventFactory {} 0) reg []] ∧
      (w'.factories 0).state = connectionState.closed ∧ w'.Load "nse" = none) ∧
    ((eventNSFactoryClient.Unregister Sample.refusing Sample.establishedNS 0 false).1 =
        [some (Error.Foreign "refused")] ∧
      ((eventNSFactoryClient.Unregister Sample.refusing Sample.establishedNS 0
        false).2.factories 0).state = connectionState.closed ∧
      (eventNSFactoryClient.Unregister Sample.refusing Sample.establishedNS 0 false).2.Load "ns"
        = none) :=
  ⟨C4_unregister_closes_and_evicts.1 Sample.refusing 0 Sample.established {} Sample.endpoint []
      rfl (by
        intro p hp
        have h0 : p = 0 := by simpa [World.Load, Sample.established, Sample.endpoint,
          NetworkServiceEndpoint.GetName] using hp.symm
        subst h0
        rfl),
    (C4_unregister_closes_and_evicts.2.2.1 NetworkService Sample.refusing Sample.establishedNS 0
      rfl).1,
    (C4_unregister_closes_and_evicts.2.2.1 NetworkService Sample.refusing Sample.establishedNS 0
      rfl).2.1,
    (C4_unregister_closes_and_evicts.2.2.1 NetworkService Sample.refusing Sample.establishedNS 0
      rfl).2.2 "ns" rfl⟩

/-- C5: for an endpoint whose Name is empty, begin's Register (client and server) returns a nil
response and a non-nil error and leaves the whole state as it was: no invocation of the next
stage is recorded and the Entity Map and the controllers are untouched, whatever the context
carries. -/
theorem C5_register_empty_name_rejected
    (mergeNSE : Option NetworkServiceEndpoint → Option NetworkServiceEndpoint →
      Option NetworkServiceEndpoint) (nx : Next NetworkServiceEndpoint) (fuel : Nat)
    (w : World NetworkServiceEndpoint) (ctx : Context) (i : NetworkServiceEndpoint)
    (opts : List CallOption) (hid : i.Name = "") :
    beginNSEClient.Register mergeNSE nx (fuel + 1) w ctx i opts =
      some ((none,
        some (Error.New "registry.NetworkServiceEndpoint.Name must not be zero valued")), w) ∧
    beginNSEServer.Register mergeNSE nx (fuel + 1) w ctx i =
      some ((none, some (Error.New "NetworkServiceEndpoint.Name can not be zero valued")), w) := by
  constructor
  · simp [beginNSEClient.Register, NetworkServiceEndpoint.GetName, hid]
  · simp [beginNSEServer.Register, NetworkServiceEndpoint.GetName, hid]

/-- C5 at a concrete input: an unnamed endpoint, offered with a context that carries an event
factory, on a state that already holds the established `nse`. -/
theorem C5_register_empty_name_witness :
    beginNSEClient.Register Sample.merge Sample.accepting 1 Sample.established
        { eventFactory := some 0 } { Name := "" } [] =
      some ((none,
        some (Error.New "registry.NetworkServiceEndpoint.Name must not be zero valued")),
        Sample.established) ∧
    beginNSEServer.Register Sample.merge Sample.accepting 1 Sample.established
        { eventFactory := some 0 } { Name := "" } =
      some ((none, some (Error.New "NetworkServiceEndpoint.Name can not be zero valued")),
        Sample.established) :=
  C5_register_empty_name_rejected Sample.merge Sample.accepting 0 Sample.established
    { eventFactory := some 0 } { Name := "" } [] rfl

/-- C6, on the code: begin's Unregister (client and server) has no check of the name. For an
endpoint whose Name is empty, on an empty Entity Map and with a next stage that accepts, it
invokes the next stage's Unregister with the endpoint and returns no error. -/
theorem C6_unregister_empty_name_reaches_next_stage :
    (∃ w', beginNSEClient.Unregister Sample.accepting 1 {} {} { Name := "" } [] =
        some (none, w') ∧
      w'.calls = [Call.Unregister (withEventFactory {} 0) (some { Name := "" }) []]) ∧
    (∃ w', beginNSEServer.Unregister Sample.accepting 1 {} {} { Name := "" } =
        some (none, w') ∧
      w'.calls = [Call.Unregister (withEventFactory {} 0) (some { Name := "" }) []]) :=
  ⟨⟨_, rfl, rfl⟩, ⟨_, rfl, rfl⟩⟩


section frames
variable (mergeNSE : Option NetworkServiceEndpoint → Option NetworkServiceEndpoint →
  Option NetworkServiceEndpoint) (nx : Next NetworkServiceEndpoint)

/-- The client Register task on the current controller `p` returns, touches no other controller
and invokes the next stage once, with `p` in the context. -/
theorem clientRegisterTask_frame (fuel : Nat) (w : World NetworkServiceEndpoint) (p : Nat)
    (ctx : Context) (i : NetworkServiceEndpoint) (opts : List CallOption)
    (hcur : w.Load i.GetName = some p) :
    ∃ r w', beginNSEClient.RegisterTask mergeNSE nx fuel w p ctx i opts = some (r, w') ∧
      (∀ g, g ≠ p → w'.factories g = w.factories g) ∧
      w'.calls = w.calls ++ [Call.Register (withEventFactory ctx p) (some i) opts] := by
  rw [clientRegisterTask_current mergeNSE nx fuel w p ctx i opts hcur]
  split_ifs with h1 h2
  · exact ⟨_, _, rfl, fun g hg => by simp [World.Delete, World.setFactory, World.record, hg],
      by simp [World.Delete, World.setFactory, World.record]⟩
  · exact ⟨_, _, rfl, fun g hg => by simp [World.record], by simp [World.record]⟩
  · exact ⟨_, _, rfl,
      fun g hg => by simp [updateContext, World.setFactory, World.record, hg],
      by simp [updateContext, World.setFactory, World.record]⟩

/-- The frame of the server Register task; see `clientRegisterTask_frame`. -/
theorem serverRegisterTask_frame (fuel : Nat) (w : World NetworkServiceEndpoint) (p : Nat)
    (ctx : Context) (i : NetworkServiceEndpoint)
    (hcur : w.Load i.GetName = some p) :
    ∃ r w', beginNSEServer.RegisterTask mergeNSE nx fuel w p ctx i = some (r, w') ∧
      (∀ g, g ≠ p → w'.factories g = w.factories g) ∧
      w'.calls = w.calls ++ [Call.Register (withEventFactory ctx p) (some i) []] := by
  rw [serverRegisterTask_current mergeNSE nx fuel w p ctx i hcur]
  split_ifs with h1 h2
  · exact ⟨_, _, rfl, fun g hg => by simp [World.Delete, World.setFactory, World.record, hg],
      by simp [World.Delete, World.setFactory, World.record]⟩
  · exact ⟨_, _, rfl, fun g hg => by simp [World.record], by simp [World.record]⟩
  · exact ⟨_, _, rfl,
      fun g hg => by simp [updateContext, World.setFactory, World.record, hg],
      by simp [updateContext, World.setFactory, World.record]⟩

/-- Closing a controller touches no other controller and records no invocation. -/
theorem afterCloseFunc_frame {α : Type} (w : World α) (p : Nat) :
    (∀ g, g ≠ p → (afterCloseFunc w p).factories g = w.factories g) ∧
      (afterCloseFunc w p).calls = w.calls := by
  unfold afterCloseFunc
  constructor
  · intro g hg
    split <;> simp [World.Delete, World.setFactory, hg]
  · split <;> simp [World.Delete, World.setFactory]

/-- The frame of the client Unregister task; see `clientRegisterTask_frame`. -/
theorem clientUnregisterTask_frame (fuel : Nat) (w : World NetworkServiceEndpoint) (p : Nat)
    (ctx : Context) (i : NetworkServiceEndpoint) (opts : List CallOption)
    (hcur : w.Load i.GetName = some p) :
    ∃ r w' reg, beginNSEClient.UnregisterTask nx fuel w p ctx i opts = some (r, w') ∧
      (∀ g, g ≠ p → w'.factories g = w.factories g) ∧
      w'.calls = w.calls ++ [Call.Unregister (withEventFactory ctx p) reg opts] := by
  rw [clientUnregisterTask_current nx fuel w p ctx i opts hcur]
  refine ⟨_, _,
    if (w.factories p).registration.isNone then some i else (w.factories p).registration,
    rfl, fun g hg => ?_, ?_⟩
  · rw [(afterCloseFunc_frame _ p).1 g hg]
    simp [World.record]
  · rw [(afterCloseFunc_frame _ p).2]
    simp [World.record]

/-- The frame of the server Unregister task; see `clientRegisterTask_frame`. -/
theorem serverUnregisterTask_frame (fuel : Nat) (w : World NetworkServiceEndpoint) (p : Nat)
    (ctx : Context) (i : NetworkServiceEndpoint)
    (hcur : w.Load i.GetName = some p) :
    ∃ r w' reg, beginNSEServer.UnregisterTask nx fuel w p ctx i = some (r, w') ∧
      (∀ g, g ≠ p → w'.factories g = w.factories g) ∧
      w'.calls = w.calls ++ [Call.Unregister (withEventFactory ctx p) reg []] := by
  rw [serverUnregisterTask_current nx fuel w p ctx i hcur]
  refine ⟨_, _,
    if (w.factories p).registration.isNone then some i else (w.factories p).registration,
    rfl, fun g hg => ?_, ?_⟩
  · rw [(afterCloseFunc_frame _ p).1 g hg]
    simp [World.record]
  · rw [(afterCloseFunc_frame _ p).2]
    simp [World.record]

/-- A call of the client Register whose context carries no event factory returns, touches no
controller other than the one it resolves, and invokes the next stage only with that controller
in the context. -/
theorem clientRegister_frame (fuel : Nat) (w : World NetworkServiceEndpoint) (ctx : Context)
    (i : NetworkServiceEndpoint) (opts : List CallOption) (hctx : fromContext ctx = none) :
    ∃ r w', beginNSEClient.Register mergeNSE nx (fuel + 1) w ctx i opts = some (r, w') ∧
      (∀ g, g ≠ (w.LoadOrStore i.GetName
          (newEventNSEFactoryClient ctx (some i.GetName) opts)).1 →
        w'.factories g = w.factories g) ∧
      ∃ extra, w'.calls = w.calls ++ extra ∧
        ∀ c ∈ extra, fromContext c.ctx = some (w.LoadOrStore i.GetName
          (newEventNSEFactoryClient ctx (some i.GetName) opts)).1 := by
  by_cases hid : i.GetName = ""
  · exact ⟨(none, some (Error.New "registry.NetworkServiceEndpoint.Name must not be zero valued")),
      w, by simp [beginNSEClient.Register, hid], fun _ _ => rfl, [], by simp, by simp⟩
  · rw [clientRegister_eq_task mergeNSE nx fuel w ctx i opts hid hctx]
    obtain ⟨r, w', hrun, hframe, hcalls⟩ := clientRegisterTask_frame mergeNSE nx fuel _ _ ctx i
      opts (LoadOrStore_load w i.GetName (newEventNSEFactoryClient ctx (some i.GetName) opts))
    refine ⟨r, w', hrun, fun g hg => ?_, [Call.Register (withEventFactory ctx
      (w.LoadOrStore i.GetName (newEventNSEFactoryClient ctx (some i.GetName) opts)).1)
        (some i) opts], ?_, ?_⟩
    · rw [hframe g hg, LoadOrStore_frame w _ _ g hg]
    · rw [hcalls, LoadOrStore_calls]
    · simp [Call.ctx, fromContext, withEventFactory]

/-- The frame of the server Register; see `clientRegister_frame`. -/
theorem serverRegister_frame (fuel : Nat) (w : World NetworkServiceEndpoint) (ctx : Context)
    (i : NetworkServiceEndpoint) (hctx : fromContext ctx = none) :
    ∃ r w', beginNSEServer.Register mergeNSE nx (fuel + 1) w ctx i = some (r, w') ∧
      (∀ g, g ≠ (w.LoadOrStore i.GetName (newNSEEventFactoryServer ctx i.GetName)).1 →
        w'.factories g = w.factories g) ∧
      ∃ extra, w'.calls = w.calls ++ extra ∧
        ∀ c ∈ extra, fromContext c.ctx = some (w.LoadOrStore i.GetName
          (newNSEEventFactoryServer ctx i.GetName)).1 := by
  by_cases hid : i.GetName = ""
  · exact ⟨(none, some (Error.New "NetworkServiceEndpoint.Name can not be zero valued")),
      w, by simp [beginNSEServer.Register, hid], fun _ _ => rfl, [], by simp, by simp⟩
  · rw [serverRegister_eq_task mergeNSE nx fuel w ctx i hid hctx]
    obtain ⟨r, w', hrun, hframe, hcalls⟩ := serverRegisterTask_frame mergeNSE nx fuel _ _ ctx i
      (LoadOrStore_load w i.GetName (newNSEEventFactoryServer ctx i.GetName))
    refine ⟨r, w', hrun, fun g hg => ?_, [Call.Register (withEventFactory ctx
      (w.LoadOrStore i.GetName (newNSEEventFactoryServer ctx i.GetName)).1) (some i) []],
      ?_, ?_⟩
    · rw [hframe g hg, LoadOrStore_frame w _ _ g hg]
    · rw [hcalls, LoadOrStore_calls]
    · simp [Call.ctx, fromContext, withEventFactory]

/-- The frame of the client Unregister; see `clientRegister_frame`. -/
theorem clientUnregister_frame (fuel : Nat) (w : World NetworkServiceEndpoint) (ctx : Context)
    (i : NetworkServiceEndpoint) (opts : List CallOption) (hctx : fromContext ctx = none) :
    ∃ r w', beginNSEClient.Unregister nx (fuel + 1) w ctx i opts = some (r, w') ∧
      (∀ g, g ≠ (w.LoadOrStore i.GetName
          (newEventNSEFactoryClient ctx (some i.GetName) [])).1 →
        w'.factories g = w.factories g) ∧
      ∃ extra, w'.calls = w.calls ++ extra ∧
        ∀ c ∈ extra, fromContext c.ctx = some (w.LoadOrStore i.GetName
          (newEventNSEFactoryClient ctx (some i.GetName) [])).1 := by
  rw [clientUnregister_eq_task nx fuel w ctx i opts hctx]
  obtain ⟨r, w', reg, hrun, hframe, hcalls⟩ := clientUnregisterTask_frame nx fuel _ _ ctx i
    opts (LoadOrStore_load w i.GetName (newEventNSEFactoryClient ctx (some i.GetName) []))
  refine ⟨r, w', hrun, fun g hg => ?_, [Call.Unregister (withEventFactory ctx
    (w.LoadOrStore i.GetName (newEventNSEFactoryClient ctx (some i.GetName) [])).1) reg opts],
    ?_, ?_⟩
  · rw [hframe g hg, LoadOrStore_frame w _ _ g hg]
  · rw [hcalls, LoadOrStore_calls]
  · simp [Call.ctx, fromContext, withEventFactory]

/-- The frame of the server Unregister; see `clientRegister_frame`. -/
theorem serverUnregister_frame (fuel : Nat) (w : World NetworkServiceEndpoint) (ctx : Context)
    (i : NetworkServiceEndpoint) (hctx : fromContext ctx = none) :
    ∃ r w', beginNSEServer.Unregister nx (fuel + 1) w ctx i = some (r, w') ∧
      (∀ g, g ≠ (w.LoadOrStore i.GetName (newNSEEventFactoryServer ctx i.GetName)).1 →
        w'.factories g = w.factories g) ∧
      ∃ extra, w'.calls = w.calls ++ extra ∧
        ∀ c ∈ extra, fromContext c.ctx = some (w.LoadOrStore i.GetName
          (newNSEEventFactoryServer ctx i.GetName)).1 := by
  rw [serverUnregister_eq_task nx fuel w ctx i hctx]
  obtain ⟨r, w', reg, hrun, hframe, hcalls⟩ := serverUnregisterTask_frame nx fuel _ _ ctx i
    (LoadOrStore_load w i.GetName (newNSEEventFactoryServer ctx i.GetName))
  refine ⟨r, w', hrun, fun g hg => ?_, [Call.Unregister (withEventFactory ctx
    (w.LoadOrStore i.GetName (newNSEEventFactoryServer ctx i.GetName)).1) reg []], ?_, ?_⟩
  · rw [hframe g hg, LoadOrStore_frame w _ _ g hg]
  · rw [hcalls, LoadOrStore_calls]
  · simp [Call.ctx, fromContext, withEventFactory]

end frames

/-- C7: when a queued begin Register or Unregister task (client or server) runs and the Entity
Map's current controller for its id is not the controller `f` that enqueued it, the task's result
is exactly the result of invoking the same operation again; that invocation returns, leaves
every field of the stale controller `f` as it was, and every invocation of the next stage it
makes carries a controller other than `f`. A task is queued only after the check of the context,
so its context carries no event factory, and `f` is a controller allocated before. -/
theorem C7_stale_task_is_reinvoked
    (mergeNSE : Option NetworkServiceEndpoint → Option NetworkServiceEndpoint →
      Option NetworkServiceEndpoint) (nx : Next NetworkServiceEndpoint) (fuel : Nat)
    (w : World NetworkServiceEndpoint) (f : Nat) (ctx : Context)
    (i : NetworkServiceEndpoint) (opts : List CallOption)
    (hctx : fromContext ctx = none) (hf : f < w.nextFree)
    (hstale : w.Load i.GetName ≠ some f) :
    (beginNSEClient.RegisterTask mergeNSE nx (fuel + 2) w f ctx i opts =
        beginNSEClient.Register mergeNSE nx (fuel + 1) w ctx i opts ∧
      ∃ r w', beginNSEClient.Register mergeNSE nx (fuel + 1) w ctx i opts = some (r, w') ∧
        w'.factories f = w.factories f ∧
        ∃ extra, w'.calls = w.calls ++ extra ∧ ∀ c ∈ extra, fromContext c.ctx ≠ some f) ∧
    (beginNSEClient.UnregisterTask nx (fuel + 2) w f ctx i opts =
        beginNSEClient.Unregister nx (fuel + 1) w ctx i opts ∧
      ∃ r w', beginNSEClient.Unregister nx (fuel + 1) w ctx i opts = some (r, w') ∧
        w'.factories f = w.factories f ∧
        ∃ extra, w'.calls = w.calls ++ extra ∧ ∀ c ∈ extra, fromContext c.ctx ≠ some f) ∧
    (beginNSEServer.RegisterTask mergeNSE nx (fuel + 2) w f ctx i =
        beginNSEServer.Register mergeNSE nx (fuel + 1) w ctx i ∧
      ∃ r w', beginNSEServer.Register mergeNSE nx (fuel + 1) w ctx i = some (r, w') ∧
        w'.factories f = w.factories f ∧
        ∃ extra, w'.calls = w.calls ++ extra ∧ ∀ c ∈ extra, fromContext c.ctx ≠ some f) ∧
    (beginNSEServer.UnregisterTask nx (fuel + 2) w f ctx i =
        beginNSEServer.Unregister nx (fuel + 1) w ctx i ∧
      ∃ r w', beginNSEServer.Unregister nx (fuel + 1) w ctx i = some (r, w') ∧
        w'.factories f = w.factories f ∧
        ∃ extra, w'.calls = w.calls ++ extra ∧ ∀ c ∈ extra, fromContext c.ctx ≠ some f) := by
  refine ⟨⟨?_, ?_⟩, ⟨?_, ?_⟩, ⟨?_, ?_⟩, ⟨?_, ?_⟩⟩
  · simp [beginNSEClient.RegisterTask, hstale]
  · obtain ⟨r, w', hrun, hframe, extra, hcalls, hextra⟩ :=
      clientRegister_frame mergeNSE nx fuel w ctx i opts hctx
    have hne := LoadOrStore_ne_stale w i.GetName
      (newEventNSEFactoryClient ctx (some i.GetName) opts) f hstale hf
    refine ⟨r, w', hrun, hframe f hne, extra, hcalls, fun c hc => ?_⟩
    rw [hextra c hc]
    exact fun h => hne (Option.some.inj h).symm
  · simp [beginNSEClient.UnregisterTask, hstale]
  · obtain ⟨r, w', hrun, hframe, extra, hcalls, hextra⟩ :=
      clientUnregister_frame nx fuel w ctx i opts hctx
    have hne := LoadOrStore_ne_stale w i.GetName
      (newEventNSEFactoryClient ctx (some i.GetName) []) f hstale hf
    refine ⟨r, w', hrun, hframe f hne, extra, hcalls, fun c hc => ?_⟩
    rw [hextra c hc]
    exact fun h => hne (Option.some.inj h).symm
  · simp [beginNSEServer.RegisterTask, hstale]
  · obtain ⟨r, w', hrun, hframe, extra, hcalls, hextra⟩ :=
      serverRegister_frame mergeNSE nx fuel w ctx i hctx
    have hne := LoadOrStore_ne_stale w i.GetName
      (newNSEEventFactoryServer ctx i.GetName) f hstale hf
    refine ⟨r, w', hrun, hframe f hne, extra, hcalls, fun c hc => ?_⟩
    rw [hextra c hc]
    exact fun h => hne (Option.some.inj h).symm
  · simp [beginNSEServer.UnregisterTask, hstale]
  · obtain ⟨r, w', hrun, hframe, extra, hcalls, hextra⟩ :=
      serverUnregister_frame nx fuel w ctx i hctx
    have hne := LoadOrStore_ne_stale w i.GetName
      (newNSEEventFactoryServer ctx i.GetName) f hstale hf
    refine ⟨r, w', hrun, hframe f hne, extra, hcalls, fun c hc => ?_⟩
    rw [hextra c hc]
    exact fun h => hne (Option.some.inj h).symm


/-- C7 at a concrete input: a Register task queued by the closed first controller of `nse`
(address 0), run when the Entity Map holds the second controller (address 1) for the name. -/
theorem C7_stale_task_witness :
    beginNSEClient.RegisterTask Sample.merge Sample.accepting 2 Sample.reestablished 0 {}
        Sample.endpoint [] =
      beginNSEClient.Register Sample.merge Sample.accepting 1 Sample.reestablished {}
        Sample.endpoint [] ∧
    ∃ r w', beginNSEClient.Register Sample.merge Sample.accepting 1 Sample.reestablished {}
        Sample.endpoint [] = some (r, w') ∧
      w'.factories 0 = Sample.reestablished.factories 0 ∧
      ∃ extra, w'.calls = Sample.reestablished.calls ++ extra ∧
        ∀ c ∈ extra, fromContext c.ctx ≠ some 0 :=
  (C7_stale_task_is_reinvoked Sample.merge Sample.accepting 0 Sample.reestablished 0 {}
    Sample.endpoint [] rfl (by decide) (by decide)).1

/-- C8, on the code: the Unregister trigger tests only whether a registration is cached. After
`nse` is registered, unregistered and registered again, the first controller (address 0) is
closed and the Entity Map holds the second (address 1, established). The Unregister trigger of
the closed first controller (client and server factory) still invokes the next stage's
Unregister and runs the eviction callback, which removes the second controller's entry. The same
happens on the network-service state `Sample.reestablishedNS`. -/
theorem C8_stale_trigger_close_evicts_newer_controller :
    (∃ w, Sample.closeAndReestablish = some w ∧
      (w.factories 0).state = connectionState.closed ∧
      w.Load "nse" = some 1 ∧
      (w.factories 1).state = connectionState.established ∧
      ((eventNSFactoryClient.Unregister Sample.accepting w 0 false).1 = [none] ∧
        (eventNSFactoryClient.Unregister Sample.accepting w 0 false).2.calls =
          w.calls ++ [Call.Unregister (ctxFunc w 0) (some Sample.endpoint) []] ∧
        (eventNSFactoryClient.Unregister Sample.accepting w 0 false).2.Load "nse" = none) ∧
      ((eventNSFactoryServer.Unregister Sample.accepting w 0 false).1 = [none] ∧
        (eventNSFactoryServer.Unregister Sample.accepting w 0 false).2.calls =
          w.calls ++ [Call.Unregister (ctxFunc w 0) (some Sample.endpoint) []] ∧
        (eventNSFactoryServer.Unregister Sample.accepting w 0 false).2.Load "nse" = none)) ∧
    (Sample.reestablishedNS.factories 0).state = connectionState.closed ∧
    Sample.reestablishedNS.Load "ns" = some 1 ∧
    ((eventNSFactoryClient.Unregister Sample.accepting Sample.reestablishedNS 0 false).1 =
        [none] ∧
      (eventNSFactoryClient.Unregister Sample.accepting Sample.reestablishedNS 0
        false).2.calls =
          [Call.Unregister (ctxFunc Sample.reestablishedNS 0) (some Sample.service) []] ∧
      (eventNSFactoryClient.Unregister Sample.accepting Sample.reestablishedNS 0
        false).2.Load "ns" = none) ∧
    ((eventNSFactoryServer.Unregister Sample.accepting Sample.reestablishedNS 0 false).1 =
        [none] ∧
      (eventNSFactoryServer.Unregister Sample.accepting Sample.reestablishedNS 0
        false).2.calls =
          [Call.Unregister (ctxFunc Sample.reestablishedNS 0) (some Sample.service) []] ∧
      (eventNSFactoryServer.Unregister Sample.accepting Sample.reestablishedNS 0
        false).2.Load "ns" = none) :=
  ⟨⟨_, rfl, rfl, rfl, rfl, ⟨rfl, rfl, rfl⟩, ⟨rfl, rfl, rfl⟩⟩, rfl, rfl, ⟨rfl, rfl, rfl⟩,
    ⟨rfl, rfl, rfl⟩⟩

/-- C9: on a controller whose state is not established the event factory's Register trigger
(client and server) is a no-op whatever the cancellation context: nothing is sent on the channel
before it is closed and the whole state is as before, so the next stage is not invoked and no
controller, stale or current, changes. -/
theorem C9_register_trigger_noop_unless_established {α : Type}
    (mergeNS : Option α → Option α → Option α) (nx : Next α) (w : World α) (f : Nat)
    (cancelDone : Bool) (hst : (w.factories f).state ≠ connectionState.established) :
    eventNSFactoryClient.Register mergeNS nx w f cancelDone = ([], w) ∧
    eventNSFactoryServer.Register nx w f cancelDone = ([], w) := by
  constructor
  · simp [eventNSFactoryClient.Register, hst]
  · simp [eventNSFactoryServer.Register, hst]

/-- C9 at a concrete input: the Register trigger of the closed first controller of `ns`, run
after `ns` was established again on a second controller. -/
theorem C9_register_trigger_noop_witness :
    (Sample.reestablishedNS.factories 0).state ≠ connectionState.established ∧
    eventNSFactoryClient.Register Sample.merge Sample.accepting Sample.reestablishedNS 0 false =
      ([], Sample.reestablishedNS) ∧
    eventNSFactoryServer.Register Sample.accepting Sample.reestablishedNS 0 false =
      ([], Sample.reestablishedNS) :=
  ⟨by decide, C9_register_trigger_noop_unless_established Sample.merge Sample.accepting
    Sample.reestablishedNS 0 false (by decide)⟩

/-- C10: when the cancellation context is done as the queued task runs, the event factory's
Register and Unregister triggers (client and server) are skipped: nothing is sent on the channel
before it is closed and the whole state is as before, so the next stage is not invoked, no
controller changes and no eviction happens. -/
theorem C10_canceled_trigger_is_skipped {α : Type}
    (mergeNS : Option α → Option α → Option α) (nx : Next α) (w : World α) (f : Nat) :
    eventNSFactoryClient.Register mergeNS nx w f true = ([], w) ∧
    eventNSFactoryClient.Unregister nx w f true = ([], w) ∧
    eventNSFactoryServer.Register nx w f true = ([], w) ∧
    eventNSFactoryServer.Unregister nx w f true = ([], w) := by
  refine ⟨?_, ?_, ?_, ?_⟩
  · simp [eventNSFactoryClient.Register]
  · simp [eventNSFactoryClient.Unregister]
  · simp [eventNSFactoryServer.Register]
  · simp [eventNSFactoryServer.Unregister]

end begin

/-! ## Claims on Unregister and on calls made inside a task -/

namespace begin

section unregister
variable (nx : Next NetworkServiceEndpoint)

/-- The client Unregister, run on a controller whose eviction callback is that of the name:
what it passes to the next stage, what it returns, and that no entry is left for the name. -/
theorem clientUnregister_run (fuel : Nat) (w : World NetworkServiceEndpoint) (ctx : Context)
    (i : NetworkServiceEndpoint) (opts : List CallOption) (hctx : fromContext ctx = none)
    (hcb : ∀ p, w.Load i.GetName = some p → (w.factories p).afterClose = some i.GetName) :
    ∃ w', beginNSEClient.Unregister nx (fuel + 1) w ctx i opts =
        some (nx.Unregister w.calls (withEventFactory ctx (w.LoadOrStore i.GetName
            (newEventNSEFactoryClient ctx (some i.GetName) [])).1)
          (match w.map i.GetName with
            | some p => if (w.factories p).registration.isNone then some i
                else (w.factories p).registration
            | none => some i) opts, w') ∧
      w'.calls = w.calls ++ [Call.Unregister (withEventFactory ctx (w.LoadOrStore i.GetName
            (newEventNSEFactoryClient ctx (some i.GetName) [])).1)
          (match w.map i.GetName with
            | some p => if (w.factories p).registration.isNone then some i
                else (w.factories p).registration
            | none => some i) opts] ∧
      w'.Load i.GetName = none := by
  have hl := LoadOrStore_load w i.GetName (newEventNSEFactoryClient ctx (some i.GetName) [])
  have hu := LoadOrStore_used w i.GetName (newEventNSEFactoryClient ctx (some i.GetName) [])
  have hac : ((w.LoadOrStore i.GetName (newEventNSEFactoryClient ctx (some i.GetName) [])).2.factories
      (w.LoadOrStore i.GetName (newEventNSEFactoryClient ctx (some i.GetName) [])).1).afterClose = some i.GetName := by
    rw [hu]
    cases hm : w.map i.GetName with
    | none => simp [newEventNSEFactoryClient, newEventNSFactoryClient]
    | some p => exact hcb p hm
  have hpay : (if ((w.LoadOrStore i.GetName (newEventNSEFactoryClient ctx (some i.GetName) [])).2.factories
        (w.LoadOrStore i.GetName (newEventNSEFactoryClient ctx (some i.GetName) [])).1).registration.isNone then some i
      else ((w.LoadOrStore i.GetName (newEventNSEFactoryClient ctx (some i.GetName) [])).2.factories
        (w.LoadOrStore i.GetName (newEventNSEFactoryClient ctx (some i.GetName) [])).1).registration) =
      (match w.map i.GetName with
        | some p => if (w.factories p).registration.isNone then some i
            else (w.factories p).registration
        | none => some i) := by
    rw [hu]
    cases hm : w.map i.GetName with
    | none => simp [newEventNSEFactoryClient, newEventNSFactoryClient]
    | some p => simp
  rw [clientUnregister_eq_task nx fuel w ctx i opts hctx,
    clientUnregisterTask_current nx fuel _ _ ctx i opts hl, LoadOrStore_calls, hpay]
  refine ⟨_, rfl, ?_, ?_⟩
  · simp [afterCloseFunc, World.record, World.Delete, World.setFactory, LoadOrStore_calls, hac]
  · simp [afterCloseFunc, World.record, World.Delete, World.setFactory, World.Load, hac]

/-- The server Unregister; see `clientUnregister_run`. -/
theorem serverUnregister_run (fuel : Nat) (w : World NetworkServiceEndpoint) (ctx : Context)
    (i : NetworkServiceEndpoint) (hctx : fromContext ctx = none)
    (hcb : ∀ p, w.Load i.GetName = some p → (w.factories p).afterClose = some i.GetName) :
    ∃ w', beginNSEServer.Unregister nx (fuel + 1) w ctx i =
        some (nx.Unregister w.calls (withEventFactory ctx (w.LoadOrStore i.GetName
            (newNSEEventFactoryServer ctx i.GetName)).1)
          (match w.map i.GetName with
            | some p => if (w.factories p).registration.isNone then some i
                else (w.factories p).registration
            | none => some i) [], w') ∧
      w'.calls = w.calls ++ [Call.Unregister (withEventFactory ctx (w.LoadOrStore i.GetName
            (newNSEEventFactoryServer ctx i.GetName)).1)
          (match w.map i.GetName with
            | some p => if (w.factories p).registration.isNone then some i
                else (w.factories p).registration
            | none => some i) []] ∧
      w'.Load i.GetName = none := by
  have hl := LoadOrStore_load w i.GetName (newNSEEventFactoryServer ctx i.GetName)
  have hu := LoadOrStore_used w i.GetName (newNSEEventFactoryServer ctx i.GetName)
  have hac : ((w.LoadOrStore i.GetName (newNSEEventFactoryServer ctx i.GetName)).2.factories
      (w.LoadOrStore i.GetName (newNSEEventFactoryServer ctx i.GetName)).1).afterClose = some i.GetName := by
    rw [hu]
    cases hm : w.map i.GetName with
    | none => simp [newNSEEventFactoryServer, newNSEventFactoryServer]
    | some p => exact hcb p hm
  have hpay : (if ((w.LoadOrStore i.GetName (newNSEEventFactoryServer ctx i.GetName)).2.factories
        (w.LoadOrStore i.GetName (newNSEEventFactoryServer ctx i.GetName)).1).registration.isNone then some i
      else ((w.LoadOrStore i.GetName (newNSEEventFactoryServer ctx i.GetName)).2.factories
        (w.LoadOrStore i.GetName (newNSEEventFactoryServer ctx i.GetName)).1).registration) =
      (match w.map i.GetName with
        | some p => if (w.factories p).registration.isNone then some i
            else (w.factories p).registration
        | none => some i) := by
    rw [hu]
    cases hm : w.map i.GetName with
    | none => simp [newNSEEventFactoryServer, newNSEventFactoryServer]
    | some p => simp
  rw [serverUnregister_eq_task nx fuel w ctx i hctx,
    serverUnregisterTask_current nx fuel _ _ ctx i hl, LoadOrStore_calls, hpay]
  refine ⟨_, rfl, ?_, ?_⟩
  · simp [afterCloseFunc, World.record, World.Delete, World.setFactory, LoadOrStore_calls, hac]
  · simp [afterCloseFunc, World.record, World.Delete, World.setFactory, World.Load, hac]

end unregister


/-- C13, amended: with a context that carries no event factory, begin's Unregister (client and
server) passes to the next stage the cached registration of the controller of the name whenever
there is one, whatever entity the caller supplied, and passes the caller-supplied entity only
when the controller, stored or just created, has no cached registration. -/
theorem C13_unregister_passes_cached_registration
    (nx : Next NetworkServiceEndpoint) (fuel : Nat) (w : World NetworkServiceEndpoint)
    (ctx : Context) (i : NetworkServiceEndpoint) (opts : List CallOption)
    (hctx : fromContext ctx = none) :
    ((∀ p r, w.Load i.GetName = some p → (w.factories p).registration = some r →
        ∃ w', beginNSEClient.Unregister nx (fuel + 1) w ctx i opts =
            some (nx.Unregister w.calls (withEventFactory ctx p) (some r) opts, w') ∧
          w'.calls = w.calls ++ [Call.Unregister (withEventFactory ctx p) (some r) opts]) ∧
      ((∀ p, w.Load i.GetName = some p → (w.factories p).registration = none) →
        ∃ w', beginNSEClient.Unregister nx (fuel + 1) w ctx i opts =
            some (nx.Unregister w.calls (withEventFactory ctx (w.LoadOrStore i.GetName
              (newEventNSEFactoryClient ctx (some i.GetName) [])).1) (some i) opts, w') ∧
          w'.calls = w.calls ++ [Call.Unregister (withEventFactory ctx (w.LoadOrStore i.GetName
              (newEventNSEFactoryClient ctx (some i.GetName) [])).1) (some i) opts])) ∧
    ((∀ p r, w.Load i.GetName = some p → (w.factories p).registration = some r →
        ∃ w', beginNSEServer.Unregister nx (fuel + 1) w ctx i =
            some (nx.Unregister w.calls (withEventFactory ctx p) (some r) [], w') ∧
          w'.calls = w.calls ++ [Call.Unregister (withEventFactory ctx p) (some r) []]) ∧
      ((∀ p, w.Load i.GetName = some p → (w.factories p).registration = none) →
        ∃ w', beginNSEServer.Unregister nx (fuel + 1) w ctx i =
            some (nx.Unregister w.calls (withEventFactory ctx (w.LoadOrStore i.GetName
              (newNSEEventFactoryServer ctx i.GetName)).1) (some i) [], w') ∧
          w'.calls = w.calls ++ [Call.Unregister (withEventFactory ctx (w.LoadOrStore i.GetName
              (newNSEEventFactoryServer ctx i.GetName)).1) (some i) []])) := by
  refine ⟨⟨?_, ?_⟩, ⟨?_, ?_⟩⟩
  · intro p r hcur hreg
    rw [clientUnregister_eq_task nx fuel w ctx i opts hctx, LoadOrStore_of_some w _ _ p hcur,
      clientUnregisterTask_current nx fuel w p ctx i opts hcur]
    simp only [hreg, Option.isNone_some, Bool.false_eq_true, if_false]
    exact ⟨_, rfl, by rw [(afterCloseFunc_frame _ p).2]; rfl⟩
  · intro hnone
    have hl := LoadOrStore_load w i.GetName (newEventNSEFactoryClient ctx (some i.GetName) [])
    have hreg : ((w.LoadOrStore i.GetName
        (newEventNSEFactoryClient ctx (some i.GetName) [])).2.factories
          (w.LoadOrStore i.GetName (newEventNSEFactoryClient ctx (some i.GetName) [])).1
            ).registration = none := by
      rw [LoadOrStore_used]
      cases hm : w.map i.GetName with
      | none => rfl
      | some p => exact hnone p hm
    rw [clientUnregister_eq_task nx fuel w ctx i opts hctx,
      clientUnregisterTask_current nx fuel _ _ ctx i opts hl, LoadOrStore_calls]
    simp only [hreg, Option.isNone_none, if_true]
    exact ⟨_, rfl, by rw [(afterCloseFunc_frame _ _).2]; simp [World.record, LoadOrStore_calls]⟩
  · intro p r hcur hreg
    rw [serverUnregister_eq_task nx fuel w ctx i hctx, LoadOrStore_of_some w _ _ p hcur,
      serverUnregisterTask_current nx fuel w p ctx i hcur]
    simp only [hreg, Option.isNone_some, Bool.false_eq_true, if_false]
    exact ⟨_, rfl, by rw [(afterCloseFunc_frame _ p).2]; rfl⟩
  · intro hnone
    have hl := LoadOrStore_load w i.GetName (newNSEEventFactoryServer ctx i.GetName)
    have hreg : ((w.LoadOrStore i.GetName (newNSEEventFactoryServer ctx i.GetName)).2.factories
          (w.LoadOrStore i.GetName (newNSEEventFactoryServer ctx i.GetName)).1
            ).registration = none := by
      rw [LoadOrStore_used]
      cases hm : w.map i.GetName with
      | none => rfl
      | some p => exact hnone p hm
    rw [serverUnregister_eq_task nx fuel w ctx i hctx,
      serverUnregisterTask_current nx fuel _ _ ctx i hl, LoadOrStore_calls]
    simp only [hreg, Option.isNone_none, if_true]
    exact ⟨_, rfl, by rw [(afterCloseFunc_frame _ _).2]; simp [World.record, LoadOrStore_calls]⟩

/-- C13 (amended) at a concrete input: the established `nse` caches its registration;
Unregister is called, with a context that carries no event factory, with an entity of the same
name and another URL, and the cached registration is what the next stage receives. -/
theorem C13_unregister_payload_witness :
    ∃ w', beginNSEClient.Unregister Sample.accepting 1 Sample.established {}
        { Name := "nse", Url := "tcp://elsewhere" } [] =
          some (none, w') ∧
      w'.calls = [Call.Unregister (withEventFactory {} 0) (some Sample.endpoint) []] :=
  (C13_unregister_passes_cached_registration Sample.accepting 0 Sample.established {}
    { Name := "nse", Url := "tcp://elsewhere" } [] rfl).1.1 0 Sample.endpoint rfl rfl

/-- C16, amended: for every name, non-empty ones included, a context that carries no event
factory and a next stage whose Unregister returns no error, two calls of begin's Unregister in
succession (client and server) both return no error; after the first the Entity Map has no
entry for the name, so the second runs on a name without controller, and after the second
there is no entry either. The eviction callback of the controller of the name is that of the
name. -/
theorem C16_double_unregister_succeeds
    (nx : Next NetworkServiceEndpoint) (fuel : Nat) (w : World NetworkServiceEndpoint)
    (ctx : Context) (i : NetworkServiceEndpoint) (opts : List CallOption)
    (hctx : fromContext ctx = none)
    (hcb : ∀ p, w.Load i.GetName = some p → (w.factories p).afterClose = some i.GetName)
    (hok : ∀ cs c r o, nx.Unregister cs c r o = none) :
    (∃ w1 w2, beginNSEClient.Unregister nx (fuel + 1) w ctx i opts = some (none, w1) ∧
      w1.Load i.GetName = none ∧
      beginNSEClient.Unregister nx (fuel + 1) w1 ctx i opts = some (none, w2) ∧
      w2.Load i.GetName = none) ∧
    (∃ w1 w2, beginNSEServer.Unregister nx (fuel + 1) w ctx i = some (none, w1) ∧
      w1.Load i.GetName = none ∧
      beginNSEServer.Unregister nx (fuel + 1) w1 ctx i = some (none, w2) ∧
      w2.Load i.GetName = none) := by
  constructor
  · obtain ⟨w1, h1, -, hl1⟩ := clientUnregister_run nx fuel w ctx i opts hctx hcb
    obtain ⟨w2, h2, -, hl2⟩ := clientUnregister_run nx fuel w1 ctx i opts hctx
      (fun p hp => by rw [hl1] at hp; cases hp)
    rw [hok] at h1 h2
    exact ⟨w1, w2, h1, hl1, h2, hl2⟩
  · obtain ⟨w1, h1, -, hl1⟩ := serverUnregister_run nx fuel w ctx i hctx hcb
    obtain ⟨w2, h2, -, hl2⟩ := serverUnregister_run nx fuel w1 ctx i hctx
      (fun p hp => by rw [hl1] at hp; cases hp)
    rw [hok] at h1 h2
    exact ⟨w1, w2, h1, hl1, h2, hl2⟩

/-- C16 (amended) at a concrete input: the established `nse` is unregistered twice, with a
context that carries no event factory. -/
theorem C16_double_unregister_witness :
    ∃ w1 w2, beginNSEServer.Unregister Sample.accepting 1 Sample.established {}
        Sample.endpoint = some (none, w1) ∧
      w1.Load "nse" = none ∧
      beginNSEServer.Unregister Sample.accepting 1 w1 {} Sample.endpoint = some (none, w2) ∧
      w2.Load "nse" = none :=
  (C16_double_unregister_succeeds Sample.accepting 0 Sample.established {} Sample.endpoint []
    rfl (by
      intro p hp
      have h0 : p = 0 := by simpa [World.Load, Sample.established, Sample.endpoint,
        NetworkServiceEndpoint.GetName] using hp.symm
      subst h0
      rfl) (fun _ _ _ _ => rfl)).2

/-- C17: for a non-empty name and a context that already carries an event factory, begin's
Register and Unregister (client and server) invoke the next stage once with the context, the
entity and the options they were given and return its result unchanged; the Entity Map, every
controller and the address counter are as before. -/
theorem C17_event_factory_in_context_forwards
    (mergeNSE : Option NetworkServiceEndpoint → Option NetworkServiceEndpoint →
      Option NetworkServiceEndpoint) (nx : Next NetworkServiceEndpoint) (fuel : Nat)
    (w : World NetworkServiceEndpoint) (ctx : Context) (i : NetworkServiceEndpoint)
    (opts : List CallOption)
    (hid : i.GetName ≠ "") (hpass : fromContext ctx ≠ none) :
    (∃ w', beginNSEClient.Register mergeNSE nx (fuel + 1) w ctx i opts =
        some (nx.Register w.calls ctx (some i) opts, w') ∧
      w'.calls = w.calls ++ [Call.Register ctx (some i) opts] ∧
      w'.map = w.map ∧ w'.factories = w.factories ∧ w'.nextFree = w.nextFree) ∧
    (∃ w', beginNSEClient.Unregister nx (fuel + 1) w ctx i opts =
        some (nx.Unregister w.calls ctx (some i) opts, w') ∧
      w'.calls = w.calls ++ [Call.Unregister ctx (some i) opts] ∧
      w'.map = w.map ∧ w'.factories = w.factories ∧ w'.nextFree = w.nextFree) ∧
    (∃ w', beginNSEServer.Register mergeNSE nx (fuel + 1) w ctx i =
        some (nx.Register w.calls ctx (some i) [], w') ∧
      w'.calls = w.calls ++ [Call.Register ctx (some i) []] ∧
      w'.map = w.map ∧ w'.factories = w.factories ∧ w'.nextFree = w.nextFree) ∧
    (∃ w', beginNSEServer.Unregister nx (fuel + 1) w ctx i =
        some (nx.Unregister w.calls ctx (some i) [], w') ∧
      w'.calls = w.calls ++ [Call.Unregister ctx (some i) []] ∧
      w'.map = w.map ∧ w'.factories = w.factories ∧ w'.nextFree = w.nextFree) := by
  have hsome : (fromContext ctx).isSome = true := by
    cases h : fromContext ctx with
    | none => exact absurd h hpass
    | some f => rfl
  refine ⟨⟨w.record (Call.Register ctx (some i) opts), ?_, rfl, rfl, rfl, rfl⟩,
    ⟨w.record (Call.Unregister ctx (some i) opts), ?_, rfl, rfl, rfl, rfl⟩,
    ⟨w.record (Call.Register ctx (some i) []), ?_, rfl, rfl, rfl, rfl⟩,
    ⟨w.record (Call.Unregister ctx (some i) []), ?_, rfl, rfl, rfl, rfl⟩⟩
  · simp [beginNSEClient.Register, hid, hsome, World.record]
  · simp [beginNSEClient.Unregister, hsome, World.record]
  · simp [beginNSEServer.Register, hid, hsome, World.record]
  · simp [beginNSEServer.Unregister, hsome, World.record]

/-- C17 at a concrete input: Register and Unregister of `nse` with a context that carries the
event factory 0, on a state that holds an established controller for the name. -/
theorem C17_forwarding_witness :
    (∃ w', beginNSEClient.Register Sample.merge Sample.refusing 1 Sample.established
        { eventFactory := some 0 } Sample.endpoint [] =
          some ((none, some (Error.Foreign "refused")), w') ∧
      w'.calls = [Call.Register { eventFactory := some 0 } (some Sample.endpoint) []] ∧
      w'.map = Sample.established.map ∧ w'.factories = Sample.established.factories ∧
      w'.nextFree = 1) ∧
    (∃ w', beginNSEClient.Unregister Sample.refusing 1 Sample.established
        { eventFactory := some 0 } Sample.endpoint [] =
          some (some (Error.Foreign "refused"), w') ∧
      w'.calls = [Call.Unregister { eventFactory := some 0 } (some Sample.endpoint) []] ∧
      w'.map = Sample.established.map ∧ w'.factories = Sample.established.factories ∧
      w'.nextFree = 1) :=
  ⟨(C17_event_factory_in_context_forwards Sample.merge Sample.refusing 0 Sample.established
      { eventFactory := some 0 } Sample.endpoint [] (by decide) (by decide)).1,
    (C17_event_factory_in_context_forwards Sample.merge Sample.refusing 0 Sample.established
      { eventFactory := some 0 } Sample.endpoint [] (by decide) (by decide)).2.1⟩


/-- C14, on the code: the client factory's Unregister trigger passes the cached response, the
server factory's passes the cached registration. After the server begin element registers `nse`
with a next stage that answers with the registry's URL, the controller caches the merged
registration (no URL) and the response (with the URL); its Unregister trigger hands the next
stage the registration, not the response. -/
theorem C14_server_trigger_passes_registration :
    ∃ r w, beginNSEServer.Register Sample.mergeTimes Sample.assigning 1 {} {} Sample.endpoint =
        some (r, w) ∧
      (w.factories 0).state = connectionState.established ∧
      (w.factories 0).response =
        some { Name := "nse", Url := "tcp://registry", ExpirationTime := some 60 } ∧
      (w.factories 0).registration = some { Name := "nse", ExpirationTime := some 60 } ∧
      (eventNSFactoryServer.Unregister Sample.assigning w 0 false).2.calls =
        w.calls ++ [Call.Unregister (ctxFunc w 0)
          (some { Name := "nse", ExpirationTime := some 60 }) []] ∧
      (eventNSFactoryClient.Unregister Sample.assigning w 0 false).2.calls =
        w.calls ++ [Call.Unregister (ctxFunc w 0)
          (some { Name := "nse", Url := "tcp://registry", ExpirationTime := some 60 }) []] :=
  ⟨_, _, rfl, rfl, rfl, rfl, rfl, rfl⟩

/-- C15, on the code: the Register trigger stores the outcome of a successful refresh in the
cached registration only. On the established controller of `ns`, whose cached response is the
service as first registered, a refresh answered with a renewed payload leaves the cached
response as it was, in the client and in the server factory. -/
theorem C15_triggered_refresh_keeps_old_response :
    (Sample.establishedNS.factories 0).state = connectionState.established ∧
    Sample.renewing.Register [] (ctxFunc Sample.establishedNS 0) (some Sample.service) [] =
      (some { Name := "ns", Payload := "renewed" }, none) ∧
    ((eventNSFactoryClient.Register Sample.merge Sample.renewing Sample.establishedNS 0
        false).1 = [none] ∧
      ((eventNSFactoryClient.Register Sample.merge Sample.renewing Sample.establishedNS 0
        false).2.factories 0).response = some { Name := "ns", Payload := "" } ∧
      ((eventNSFactoryClient.Register Sample.merge Sample.renewing Sample.establishedNS 0
        false).2.factories 0).registration = some { Name := "ns", Payload := "renewed" }) ∧
    ((eventNSFactoryServer.Register Sample.renewing Sample.establishedNS 0 false).1 = [none] ∧
      ((eventNSFactoryServer.Register Sample.renewing Sample.establishedNS 0
        false).2.factories 0).response = some { Name := "ns", Payload := "" } ∧
      ((eventNSFactoryServer.Register Sample.renewing Sample.establishedNS 0
        false).2.factories 0).registration = some { Name := "ns", Payload := "renewed" }) :=
  ⟨rfl, rfl, ⟨rfl, rfl, rfl⟩, ⟨rfl, rfl, rfl⟩⟩

end begin

/-! ## Consistency of the Entity Map is kept by every operation -/

namespace begin

section shapes
variable {α : Type}

/-- Consistency depends on the Entity Map, the controllers and the address counter only. -/
theorem consistent_of_same (w w' : World α) (hm : w'.map = w.map)
    (hfs : w'.factories = w.factories) (hn : w'.nextFree = w.nextFree) (hc : w.Consistent) :
    w'.Consistent ∧ w.ClosesWithEviction w' := by
  constructor
  · intro id p hp
    rw [hm] at hp
    rw [hfs, hn]
    exact hc id p hp
  · intro f id h1 h2 _
    rw [hfs] at h2
    exact absurd h2 h1

/-- An update of one controller that keeps its eviction callback and does not close it. -/
theorem sound_update (w w' : World α) (f : Nat) (hm : w'.map = w.map)
    (hn : w'.nextFree = w.nextFree) (hfr : ∀ g, g ≠ f → w'.factories g = w.factories g)
    (hac : (w'.factories f).afterClose = (w.factories f).afterClose)
    (hst : (w'.factories f).state ≠ connectionState.closed) (hc : w.Consistent) :
    w'.Consistent ∧ w.ClosesWithEviction w' := by
  constructor
  · intro id p hp
    rw [hm] at hp
    obtain ⟨h1, h2, h3⟩ := hc id p hp
    rw [hn]
    by_cases hpf : p = f
    · subst hpf
      exact ⟨h1, by rw [hac]; exact h2, hst⟩
    · rw [hfr p hpf]
      exact ⟨h1, h2, h3⟩
  · intro g id h1 h2 _
    by_cases hgf : g = f
    · subst hgf
      exact absurd h2 hst
    · rw [hfr g hgf] at h2
      exact absurd h2 h1

/-- A change of one controller, closing it or not, together with the removal of the entry of
its eviction callback. -/
theorem sound_close (w w' : World α) (f : Nat) (id : String)
    (hm : w'.map = fun k => if k = id then none else w.map k)
    (hn : w'.nextFree = w.nextFree) (hfr : ∀ g, g ≠ f → w'.factories g = w.factories g)
    (hac : (w'.factories f).afterClose = (w.factories f).afterClose)
    (hid : (w.factories f).afterClose = some id) (hc : w.Consistent) :
    w'.Consistent ∧ w.ClosesWithEviction w' := by
  constructor
  · intro id' p hp
    rw [hm] at hp
    by_cases hk : id' = id
    · simp [hk] at hp
    · simp only [hk, if_false] at hp
      obtain ⟨h1, h2, h3⟩ := hc id' p hp
      have hpf : p ≠ f := by
        intro hpf
        subst hpf
        rw [hid] at h2
        exact hk (Option.some.inj h2).symm
      rw [hn, hfr p hpf]
      exact ⟨h1, h2, h3⟩
  · intro g id' h1 h2 h3
    by_cases hgf : g = f
    · subst hgf
      rw [hac, hid] at h3
      have : id = id' := Option.some.inj h3
      subst this
      rw [hm]
      simp
    · rw [hfr g hgf] at h2
      exact absurd h2 h1

/-- A change of a controller that has no eviction callback: it is stored nowhere. -/
theorem sound_close_unstored (w w' : World α) (f : Nat) (hm : w'.map = w.map)
    (hn : w'.nextFree = w.nextFree) (hfr : ∀ g, g ≠ f → w'.factories g = w.factories g)
    (hac : (w'.factories f).afterClose = (w.factories f).afterClose)
    (hnone : (w.factories f).afterClose = none) (hc : w.Consistent) :
    w'.Consistent ∧ w.ClosesWithEviction w' := by
  constructor
  · intro id p hp
    rw [hm] at hp
    obtain ⟨h1, h2, h3⟩ := hc id p hp
    have hpf : p ≠ f := by
      intro hpf
      subst hpf
      rw [hnone] at h2
      cases h2
    rw [hn, hfr p hpf]
    exact ⟨h1, h2, h3⟩
  · intro g id h1 h2 h3
    by_cases hgf : g = f
    · subst hgf
      rw [hac, hnone] at h3
      cases h3
    · rw [hfr g hgf] at h2
      exact absurd h2 h1

/-- The close callback keeps consistency and evicts what it closes. -/
theorem afterCloseFunc_sound (w : World α) (f : Nat) (hc : w.Consistent) :
    (afterCloseFunc w f).Consistent ∧ w.ClosesWithEviction (afterCloseFunc w f) := by
  cases hac : (w.factories f).afterClose with
  | none =>
    refine sound_close_unstored w _ f ?_ ?_ ?_ ?_ hac hc
    · simp [afterCloseFunc, hac, World.setFactory]
    · simp [afterCloseFunc, hac, World.setFactory]
    · intro g hg
      simp [afterCloseFunc, hac, World.setFactory, hg]
    · simp [afterCloseFunc, hac, World.setFactory]
  | some id =>
    refine sound_close w _ f id ?_ ?_ ?_ ?_ hac hc
    · simp [afterCloseFunc, hac, World.setFactory, World.Delete]
    · simp [afterCloseFunc, hac, World.setFactory, World.Delete]
    · intro g hg
      simp [afterCloseFunc, hac, World.setFactory, World.Delete, hg]
    · simp [afterCloseFunc, hac, World.setFactory, World.Delete]

/-- Storing a new controller that carries the eviction callback of its name and is not closed
keeps consistency and closes nothing. -/
theorem LoadOrStore_sound (w : World α) (id : String) (fr : EventFactory α)
    (hac : fr.afterClose = some id) (hst : fr.state ≠ connectionState.closed)
    (hc : w.Consistent) :
    (w.LoadOrStore id fr).2.Consistent ∧
      ∀ f, ((w.LoadOrStore id fr).2.factories f).state = connectionState.closed →
        (w.factories f).state = connectionState.closed := by
  unfold World.LoadOrStore
  cases hm : w.map id with
  | some p => exact ⟨hc, fun f h => h⟩
  | none =>
    simp only
    constructor
    · intro id' p hp
      simp only at hp
      by_cases hk : id' = id
      · subst hk
        simp only [if_true] at hp
        have : w.nextFree = p := Option.some.inj hp
        subst this
        simp [hac, hst]
      · simp only [hk, if_false] at hp
        obtain ⟨h1, h2, h3⟩ := hc id' p hp
        have hne : p ≠ w.nextFree := by omega
        simp only [hne, if_false]
        exact ⟨by omega, h2, h3⟩
    · intro f h
      by_cases hf : f = w.nextFree
      · simp [hf, hst] at h
      · simpa [hf] using h

/-- What an operation closes after a first half that closes nothing is what the operation as a
whole closes. -/
theorem closesWithEviction_after (w w1 w' : World α)
    (hpre : ∀ f, (w1.factories f).state = connectionState.closed →
      (w.factories f).state = connectionState.closed)
    (h : w1.ClosesWithEviction w') : w.ClosesWithEviction w' :=
  fun f id h1 h2 h3 => h f id (fun hcl => h1 (hpre f hcl)) h2 h3

end shapes


section operations
variable (mergeNSE : Option NetworkServiceEndpoint → Option NetworkServiceEndpoint →
  Option NetworkServiceEndpoint)
variable (mergeNS : Option NetworkServiceEndpoint → Option NetworkServiceEndpoint →
  Option NetworkServiceEndpoint)
variable (nx : Next NetworkServiceEndpoint)

theorem clientRegisterTask_current_sound (fuel : Nat) (w : World NetworkServiceEndpoint)
    (f : Nat) (ctx : Context) (i : NetworkServiceEndpoint) (opts : List CallOption)
    (r : RegisterResult) (w' : World NetworkServiceEndpoint)
    (hcur : w.Load i.GetName = some f)
    (h : beginNSEClient.RegisterTask mergeNSE nx fuel w f ctx i opts = some (r, w'))
    (hc : w.Consistent) : w'.Consistent ∧ w.ClosesWithEviction w' := by
  rw [clientRegisterTask_current mergeNSE nx fuel w f ctx i opts hcur] at h
  split_ifs at h with h1 h2
  · obtain ⟨-, rfl⟩ := Prod.mk.inj (Option.some.inj h)
    refine sound_close w _ f i.GetName ?_ ?_ ?_ ?_ (hc _ _ hcur).2.1 hc
    · simp [World.Delete, World.setFactory, World.record]
    · simp [World.Delete, World.setFactory, World.record]
    · intro g hg
      simp [World.Delete, World.setFactory, World.record, hg]
    · simp [World.Delete, World.setFactory, World.record]
  · obtain ⟨-, rfl⟩ := Prod.mk.inj (Option.some.inj h)
    exact consistent_of_same w _ rfl rfl rfl hc
  · obtain ⟨-, rfl⟩ := Prod.mk.inj (Option.some.inj h)
    refine sound_update w _ f ?_ ?_ ?_ ?_ ?_ hc
    · simp [updateContext, World.setFactory, World.record]
    · simp [updateContext, World.setFactory, World.record]
    · intro g hg
      simp [updateContext, World.setFactory, World.record, hg]
    · simp [updateContext, World.setFactory, World.record]
    · simp [updateContext, World.setFactory, World.record]

theorem serverRegisterTask_current_sound (fuel : Nat) (w : World NetworkServiceEndpoint)
    (f : Nat) (ctx : Context) (i : NetworkServiceEndpoint)
    (r : RegisterResult) (w' : World NetworkServiceEndpoint)
    (hcur : w.Load i.GetName = some f)
    (h : beginNSEServer.RegisterTask mergeNSE nx fuel w f ctx i = some (r, w'))
    (hc : w.Consistent) : w'.Consistent ∧ w.ClosesWithEviction w' := by
  rw [serverRegisterTask_current mergeNSE nx fuel w f ctx i hcur] at h
  split_ifs at h with h1 h2
  · obtain ⟨-, rfl⟩ := Prod.mk.inj (Option.some.inj h)
    refine sound_close w _ f i.GetName ?_ ?_ ?_ ?_ (hc _ _ hcur).2.1 hc
    · simp [World.Delete, World.setFactory, World.record]
    · simp [World.Delete, World.setFactory, World.record]
    · intro g hg
      simp [World.Delete, World.setFactory, World.record, hg]
    · simp [World.Delete, World.setFactory, World.record]
  · obtain ⟨-, rfl⟩ := Prod.mk.inj (Option.some.inj h)
    exact consistent_of_same w _ rfl rfl rfl hc
  · obtain ⟨-, rfl⟩ := Prod.mk.inj (Option.some.inj h)
    refine sound_update w _ f ?_ ?_ ?_ ?_ ?_ hc
    · simp [updateContext, World.setFactory, World.record]
    · simp [updateContext, World.setFactory, World.record]
    · intro g hg
      simp [updateContext, World.setFactory, World.record, hg]
    · simp [updateContext, World.setFactory, World.record]
    · simp [updateContext, World.setFactory, World.record]

/-- Recording an invocation and then running the close callback. -/
theorem record_afterCloseFunc_sound (w : World NetworkServiceEndpoint)
    (c : Call NetworkServiceEndpoint) (f : Nat) (hc : w.Consistent) :
    (afterCloseFunc (w.record c) f).Consistent ∧
      w.ClosesWithEviction (afterCloseFunc (w.record c) f) := by
  have h0 := consistent_of_same w (w.record c) rfl rfl rfl hc
  have h1 := afterCloseFunc_sound (w.record c) f h0.1
  exact ⟨h1.1, closesWithEviction_after w (w.record c) _ (fun _ h => h) h1.2⟩

theorem clientUnregisterTask_current_sound (fuel : Nat) (w : World NetworkServiceEndpoint)
    (f : Nat) (ctx : Context) (i : NetworkServiceEndpoint) (opts : List CallOption)
    (r : Option Error) (w' : World NetworkServiceEndpoint)
    (hcur : w.Load i.GetName = some f)
    (h : beginNSEClient.UnregisterTask nx fuel w f ctx i opts = some (r, w'))
    (hc : w.Consistent) : w'.Consistent ∧ w.ClosesWithEviction w' := by
  rw [clientUnregisterTask_current nx fuel w f ctx i opts hcur] at h
  obtain ⟨-, rfl⟩ := Prod.mk.inj (Option.some.inj h)
  exact record_afterCloseFunc_sound w _ f hc

theorem serverUnregisterTask_current_sound (fuel : Nat) (w : World NetworkServiceEndpoint)
    (f : Nat) (ctx : Context) (i : NetworkServiceEndpoint)
    (r : Option Error) (w' : World NetworkServiceEndpoint)
    (hcur : w.Load i.GetName = some f)
    (h : beginNSEServer.UnregisterTask nx fuel w f ctx i = some (r, w'))
    (hc : w.Consistent) : w'.Consistent ∧ w.ClosesWithEviction w' := by
  rw [serverUnregisterTask_current nx fuel w f ctx i hcur] at h
  obtain ⟨-, rfl⟩ := Prod.mk.inj (Option.some.inj h)
  exact record_afterCloseFunc_sound w _ f hc

theorem clientEnqueue_sound (w : World NetworkServiceEndpoint) (ctx : Context) (id : String)
    (opts : List CallOption) (hc : w.Consistent) :
    (w.LoadOrStore id (newEventNSEFactoryClient ctx (some id) opts)).2.Consistent ∧
      ∀ f, ((w.LoadOrStore id (newEventNSEFactoryClient ctx (some id) opts)).2.factories
          f).state = connectionState.closed →
        (w.factories f).state = connectionState.closed :=
  LoadOrStore_sound w id _ rfl (by simp [newEventNSEFactoryClient, newEventNSFactoryClient]) hc

theorem serverEnqueue_sound (w : World NetworkServiceEndpoint) (ctx : Context) (id : String)
    (hc : w.Consistent) :
    (w.LoadOrStore id (newNSEEventFactoryServer ctx id)).2.Consistent ∧
      ∀ f, ((w.LoadOrStore id (newNSEEventFactoryServer ctx id)).2.factories
          f).state = connectionState.closed →
        (w.factories f).state = connectionState.closed :=
  LoadOrStore_sound w id _ rfl (by simp [newNSEEventFactoryServer, newNSEventFactoryServer]) hc

theorem clientRegister_sound (fuel : Nat) (w : World NetworkServiceEndpoint) (ctx : Context)
    (i : NetworkServiceEndpoint) (opts : List CallOption) (r : RegisterResult)
    (w' : World NetworkServiceEndpoint)
    (h : beginNSEClient.Register mergeNSE nx fuel w ctx i opts = some (r, w'))
    (hc : w.Consistent) : w'.Consistent ∧ w.ClosesWithEviction w' := by
  cases fuel with
  | zero => simp [beginNSEClient.Register] at h
  | succ n =>
    by_cases hid : i.GetName = ""
    · simp only [beginNSEClient.Register, hid, if_true] at h
      obtain ⟨-, rfl⟩ := Prod.mk.inj (Option.some.inj h)
      exact consistent_of_same w _ rfl rfl rfl hc
    · by_cases hpass : (fromContext ctx).isSome = true
      · simp only [beginNSEClient.Register, hid, hpass, if_true, if_false] at h
        obtain ⟨-, rfl⟩ := Prod.mk.inj (Option.some.inj h)
        exact consistent_of_same w _ rfl rfl rfl hc
      · have hctx : fromContext ctx = none := by simpa using hpass
        rw [clientRegister_eq_task mergeNSE nx n w ctx i opts hid hctx] at h
        have h1 := clientEnqueue_sound w ctx i.GetName opts hc
        have h2 := clientRegisterTask_current_sound mergeNSE nx n _ _ ctx i opts r w'
          (LoadOrStore_load _ _ _) h h1.1
        exact ⟨h2.1, closesWithEviction_after w _ w' h1.2 h2.2⟩

theorem serverRegister_sound (fuel : Nat) (w : World NetworkServiceEndpoint) (ctx : Context)
    (i : NetworkServiceEndpoint) (r : RegisterResult) (w' : World NetworkServiceEndpoint)
    (h : beginNSEServer.Register mergeNSE nx fuel w ctx i = some (r, w'))
    (hc : w.Consistent) : w'.Consistent ∧ w.ClosesWithEviction w' := by
  cases fuel with
  | zero => simp [beginNSEServer.Register] at h
  | succ n =>
    by_cases hid : i.GetName = ""
    · simp only [beginNSEServer.Register, hid, if_true] at h
      obtain ⟨-, rfl⟩ := Prod.mk.inj (Option.some.inj h)
      exact consistent_of_same w _ rfl rfl rfl hc
    · by_cases hpass : (fromContext ctx).isSome = true
      · simp only [beginNSEServer.Register, hid, hpass, if_true, if_false] at h
        obtain ⟨-, rfl⟩ := Prod.mk.inj (Option.some.inj h)
        exact consistent_of_same w _ rfl rfl rfl hc
      · have hctx : fromContext ctx = none := by simpa using hpass
        rw [serverRegister_eq_task mergeNSE nx n w ctx i hid hctx] at h
        have h1 := serverEnqueue_sound w ctx i.GetName hc
        have h2 := serverRegisterTask_current_sound mergeNSE nx n _ _ ctx i r w'
          (LoadOrStore_load _ _ _) h h1.1
        exact ⟨h2.1, closesWithEviction_after w _ w' h1.2 h2.2⟩

theorem clientUnregister_sound (fuel : Nat) (w : World NetworkServiceEndpoint) (ctx : Context)
    (i : NetworkServiceEndpoint) (opts : List CallOption) (r : Option Error)
    (w' : World NetworkServiceEndpoint)
    (h : beginNSEClient.Unregister nx fuel w ctx i opts = some (r, w'))
    (hc : w.Consistent) : w'.Consistent ∧ w.ClosesWithEviction w' := by
  cases fuel with
  | zero => simp [beginNSEClient.Unregister] at h
  | succ n =>
    by_cases hpass : (fromContext ctx).isSome = true
    · simp only [beginNSEClient.Unregister, hpass, if_true] at h
      obtain ⟨-, rfl⟩ := Prod.mk.inj (Option.some.inj h)
      exact consistent_of_same w _ rfl rfl rfl hc
    · have hctx : fromContext ctx = none := by simpa using hpass
      rw [clientUnregister_eq_task nx n w ctx i opts hctx] at h
      have h1 := clientEnqueue_sound w ctx i.GetName [] hc
      have h2 := clientUnregisterTask_current_sound nx n _ _ ctx i opts r w'
        (LoadOrStore_load _ _ _) h h1.1
      exact ⟨h2.1, closesWithEviction_after w _ w' h1.2 h2.2⟩

theorem serverUnregister_sound (fuel : Nat) (w : World NetworkServiceEndpoint) (ctx : Context)
    (i : NetworkServiceEndpoint) (r : Option Error) (w' : World NetworkServiceEndpoint)
    (h : beginNSEServer.Unregister nx fuel w ctx i = some (r, w'))
    (hc : w.Consistent) : w'.Consistent ∧ w.ClosesWithEviction w' := by
  cases fuel with
  | zero => simp [beginNSEServer.Unregister] at h
  | succ n =>
    by_cases hpass : (fromContext ctx).isSome = true
    · simp only [beginNSEServer.Unregister, hpass, if_true] at h
      obtain ⟨-, rfl⟩ := Prod.mk.inj (Option.some.inj h)
      exact consistent_of_same w _ rfl rfl rfl hc
    · have hctx : fromContext ctx = none := by simpa using hpass
      rw [serverUnregister_eq_task nx n w ctx i hctx] at h
      have h1 := serverEnqueue_sound w ctx i.GetName hc
      have h2 := serverUnregisterTask_current_sound nx n _ _ ctx i r w'
        (LoadOrStore_load _ _ _) h h1.1
      exact ⟨h2.1, closesWithEviction_after w _ w' h1.2 h2.2⟩

end operations


section steps
variable (mergeNSE : Option NetworkServiceEndpoint → Option NetworkServiceEndpoint →
  Option NetworkServiceEndpoint)
variable (mergeNS : Option NetworkServiceEndpoint → Option NetworkServiceEndpoint →
  Option NetworkServiceEndpoint)
variable (nx : Next NetworkServiceEndpoint)

theorem clientRegisterTask_sound (fuel : Nat) (w : World NetworkServiceEndpoint)
    (f : Nat) (ctx : Context) (i : NetworkServiceEndpoint) (opts : List CallOption)
    (r : RegisterResult) (w' : World NetworkServiceEndpoint)
    (h : beginNSEClient.RegisterTask mergeNSE nx fuel w f ctx i opts = some (r, w'))
    (hc : w.Consistent) : w'.Consistent ∧ w.ClosesWithEviction w' := by
  by_cases hcur : w.Load i.GetName = some f
  · exact clientRegisterTask_current_sound mergeNSE nx fuel w f ctx i opts r w' hcur h hc
  · cases fuel with
    | zero => simp [beginNSEClient.RegisterTask, hcur] at h
    | succ n =>
      simp only [beginNSEClient.RegisterTask, ne_eq, hcur, not_false_eq_true, if_true] at h
      exact clientRegister_sound mergeNSE nx n w ctx i opts r w' h hc

theorem serverRegisterTask_sound (fuel : Nat) (w : World NetworkServiceEndpoint)
    (f : Nat) (ctx : Context) (i : NetworkServiceEndpoint)
    (r : RegisterResult) (w' : World NetworkServiceEndpoint)
    (h : beginNSEServer.RegisterTask mergeNSE nx fuel w f ctx i = some (r, w'))
    (hc : w.Consistent) : w'.Consistent ∧ w.ClosesWithEviction w' := by
  by_cases hcur : w.Load i.GetName = some f
  · exact serverRegisterTask_current_sound mergeNSE nx fuel w f ctx i r w' hcur h hc
  · cases fuel with
    | zero => simp [beginNSEServer.RegisterTask, hcur] at h
    | succ n =>
      simp only [beginNSEServer.RegisterTask, ne_eq, hcur, not_false_eq_true, if_true] at h
      exact serverRegister_sound mergeNSE nx n w ctx i r w' h hc

theorem clientUnregisterTask_sound (fuel : Nat) (w : World NetworkServiceEndpoint)
    (f : Nat) (ctx : Context) (i : NetworkServiceEndpoint) (opts : List CallOption)
    (r : Option Error) (w' : World NetworkServiceEndpoint)
    (h : beginNSEClient.UnregisterTask nx fuel w f ctx i opts = some (r, w'))
    (hc : w.Consistent) : w'.Consistent ∧ w.ClosesWithEviction w' := by
  by_cases hcur : w.Load i.GetName = some f
  · exact clientUnregisterTask_current_sound nx fuel w f ctx i opts r w' hcur h hc
  · cases fuel with
    | zero => simp [beginNSEClient.UnregisterTask, hcur] at h
    | succ n =>
      simp only [beginNSEClient.UnregisterTask, ne_eq, hcur, not_false_eq_true, if_true] at h
      exact clientUnregister_sound nx n w ctx i opts r w' h hc

theorem serverUnregisterTask_sound (fuel : Nat) (w : World NetworkServiceEndpoint)
    (f : Nat) (ctx : Context) (i : NetworkServiceEndpoint)
    (r : Option Error) (w' : World NetworkServiceEndpoint)
    (h : beginNSEServer.UnregisterTask nx fuel w f ctx i = some (r, w'))
    (hc : w.Consistent) : w'.Consistent ∧ w.ClosesWithEviction w' := by
  by_cases hcur : w.Load i.GetName = some f
  · exact serverUnregisterTask_current_sound nx fuel w f ctx i r w' hcur h hc
  · cases fuel with
    | zero => simp [beginNSEServer.UnregisterTask, hcur] at h
    | succ n =>
      simp only [beginNSEServer.UnregisterTask, ne_eq, hcur, not_false_eq_true, if_true] at h
      exact serverUnregister_sound nx n w ctx i r w' h hc

theorem clientRegisterTrigger_sound {α : Type} (mergeNS : Option α → Option α → Option α)
    (nx : Next α) (w : World α) (f : Nat) (cancelDone : Bool) (hc : w.Consistent) :
    (eventNSFactoryClient.Register mergeNS nx w f cancelDone).2.Consistent ∧
      w.ClosesWithEviction (eventNSFactoryClient.Register mergeNS nx w f cancelDone).2 := by
  unfold eventNSFactoryClient.Register
  split_ifs with h1 h2
  · exact consistent_of_same w _ rfl rfl rfl hc
  · exact consistent_of_same w _ rfl rfl rfl hc
  · simp only
    split_ifs with h3
    · refine sound_update w _ f ?_ ?_ ?_ ?_ ?_ hc
      · simp [World.setFactory, World.record]
      · simp [World.setFactory, World.record]
      · intro g hg
        simp [World.setFactory, World.record, hg]
      · simp [World.setFactory, World.record]
      · have : (w.factories f).state = connectionState.established := by simpa using h1
        simp [World.setFactory, World.record, this]
    · exact consistent_of_same w _ rfl rfl rfl hc

theorem serverRegisterTrigger_sound {α : Type} (nx : Next α) (w : World α) (f : Nat)
    (cancelDone : Bool) (hc : w.Consistent) :
    (eventNSFactoryServer.Register nx w f cancelDone).2.Consistent ∧
      w.ClosesWithEviction (eventNSFactoryServer.Register nx w f cancelDone).2 := by
  unfold eventNSFactoryServer.Register
  split_ifs with h1 h2
  · exact consistent_of_same w _ rfl rfl rfl hc
  · exact consistent_of_same w _ rfl rfl rfl hc
  · simp only
    split_ifs with h3
    · refine sound_update w _ f ?_ ?_ ?_ ?_ ?_ hc
      · simp [World.setFactory, World.record]
      · simp [World.setFactory, World.record]
      · intro g hg
        simp [World.setFactory, World.record, hg]
      · simp [World.setFactory, World.record]
      · have : (w.factories f).state = connectionState.established := by simpa using h1
        simp [World.setFactory, World.record, this]
    · exact consistent_of_same w _ rfl rfl rfl hc

theorem clientUnregisterTrigger_sound {α : Type} (nx : Next α) (w : World α) (f : Nat)
    (cancelDone : Bool) (hc : w.Consistent) :
    (eventNSFactoryClient.Unregister nx w f cancelDone).2.Consistent ∧
      w.ClosesWithEviction (eventNSFactoryClient.Unregister nx w f cancelDone).2 := by
  unfold eventNSFactoryClient.Unregister
  split_ifs with h1 h2
  · exact consistent_of_same w _ rfl rfl rfl hc
  · exact consistent_of_same w _ rfl rfl rfl hc
  · have h0 := consistent_of_same w (w.record (Call.Unregister (ctxFunc w f)
      (w.factories f).response (w.factories f).opts)) rfl rfl rfl hc
    have h3 := afterCloseFunc_sound _ f h0.1
    exact ⟨h3.1, closesWithEviction_after w _ _ (fun _ h => h) h3.2⟩

theorem serverUnregisterTrigger_sound {α : Type} (nx : Next α) (w : World α) (f : Nat)
    (cancelDone : Bool) (hc : w.Consistent) :
    (eventNSFactoryServer.Unregister nx w f cancelDone).2.Consistent ∧
      w.ClosesWithEviction (eventNSFactoryServer.Unregister nx w f cancelDone).2 := by
  unfold eventNSFactoryServer.Unregister
  split_ifs with h1 h2
  · exact consistent_of_same w _ rfl rfl rfl hc
  · exact consistent_of_same w _ rfl rfl rfl hc
  · have h0 := consistent_of_same w (w.record (Call.Unregister (ctxFunc w f)
      (w.factories f).registration [])) rfl rfl rfl hc
    have h3 := afterCloseFunc_sound _ f h0.1
    exact ⟨h3.1, closesWithEviction_after w _ _ (fun _ h => h) h3.2⟩

/-- Every operation keeps the Entity Map consistent and evicts what it closes. -/
theorem Step_sound (w w' : World NetworkServiceEndpoint)
    (hstep : Step mergeNSE mergeNS nx w w') (hc : w.Consistent) :
    w'.Consistent ∧ w.ClosesWithEviction w' := by
  cases hstep with
  | clientRegister fuel _ ctx i opts r _ h =>
    exact clientRegister_sound mergeNSE nx fuel w ctx i opts r w' h hc
  | clientUnregister fuel _ ctx i opts r _ h =>
    exact clientUnregister_sound nx fuel w ctx i opts r w' h hc
  | serverRegister fuel _ ctx i r _ h => exact serverRegister_sound mergeNSE nx fuel w ctx i r w' h hc
  | serverUnregister fuel _ ctx i r _ h => exact serverUnregister_sound nx fuel w ctx i r w' h hc
  | clientEnqueue _ ctx id opts =>
    have h := clientEnqueue_sound w ctx id opts hc
    exact ⟨h.1, fun f _ h1 h2 _ => absurd (h.2 f h2) h1⟩
  | serverEnqueue _ ctx id =>
    have h := serverEnqueue_sound w ctx id hc
    exact ⟨h.1, fun f _ h1 h2 _ => absurd (h.2 f h2) h1⟩
  | clientRegisterTask fuel _ f ctx i opts r _ hf hctx h =>
    exact clientRegisterTask_sound mergeNSE nx fuel w f ctx i opts r w' h hc
  | clientUnregisterTask fuel _ f ctx i opts r _ hf hctx h =>
    exact clientUnregisterTask_sound nx fuel w f ctx i opts r w' h hc
  | serverRegisterTask fuel _ f ctx i r _ hf hctx h =>
    exact serverRegisterTask_sound mergeNSE nx fuel w f ctx i r w' h hc
  | serverUnregisterTask fuel _ f ctx i r _ hf hctx h =>
    exact serverUnregisterTask_sound nx fuel w f ctx i r w' h hc
  | clientRegisterTrigger _ f cancelDone hf =>
    exact clientRegisterTrigger_sound mergeNS nx w f cancelDone hc
  | clientUnregisterTrigger _ f cancelDone hf =>
    exact clientUnregisterTrigger_sound nx w f cancelDone hc
  | serverRegisterTrigger _ f cancelDone hf =>
    exact serverRegisterTrigger_sound nx w f cancelDone hc
  | serverUnregisterTrigger _ f cancelDone hf =>
    exact serverUnregisterTrigger_sound nx w f cancelDone hc

/-- The Entity Map is consistent in every reachable state. -/
theorem Reachable_consistent (w : World NetworkServiceEndpoint)
    (hw : Reachable mergeNSE mergeNS nx w) : w.Consistent := by
  induction hw with
  | init => intro id p hp; simp at hp
  | step w w' _ hstep ih => exact (Step_sound mergeNSE mergeNS nx w w' hstep ih).1

end steps

end begin

/-! ## Claims on closed controllers and reachable states -/

namespace begin

/-- The close callback leaves the controller closed and its cached payloads as they were. -/
theorem afterCloseFunc_fields {α : Type} (w : World α) (f : Nat) :
    ((afterCloseFunc w f).factories f).state = connectionState.closed ∧
      ((afterCloseFunc w f).factories f).registration = (w.factories f).registration ∧
      ((afterCloseFunc w f).factories f).response = (w.factories f).response := by
  unfold afterCloseFunc
  split <;> simp [World.Delete, World.setFactory]

/-- C11: in every reachable state, a controller whose state is closed keeps its state, cached
registration and cached response under the event factory's Register trigger and Unregister
trigger (client and server, whatever the cancellation context) and under a begin Register or
Unregister task (client and server) that was queued on it and runs now; the tasks return. -/
theorem C11_closed_controller_is_not_changed
    (mergeNSE : Option NetworkServiceEndpoint → Option NetworkServiceEndpoint →
      Option NetworkServiceEndpoint)
    (mergeNS : Option NetworkServiceEndpoint → Option NetworkServiceEndpoint →
      Option NetworkServiceEndpoint)
    (nx : Next NetworkServiceEndpoint) (w : World NetworkServiceEndpoint)
    (hw : Reachable mergeNSE mergeNS nx w) (f : Nat) (hf : f < w.nextFree)
    (hcl : (w.factories f).state = connectionState.closed) :
    (∀ cancelDone,
      ((eventNSFactoryClient.Register mergeNS nx w f cancelDone).2.factories f).state =
          connectionState.closed ∧
        ((eventNSFactoryClient.Register mergeNS nx w f cancelDone).2.factories f).registration =
          (w.factories f).registration ∧
        ((eventNSFactoryClient.Register mergeNS nx w f cancelDone).2.factories f).response =
          (w.factories f).response) ∧
    (∀ cancelDone,
      ((eventNSFactoryClient.Unregister nx w f cancelDone).2.factories f).state =
          connectionState.closed ∧
        ((eventNSFactoryClient.Unregister nx w f cancelDone).2.factories f).registration =
          (w.factories f).registration ∧
        ((eventNSFactoryClient.Unregister nx w f cancelDone).2.factories f).response =
          (w.factories f).response) ∧
    (∀ cancelDone,
      ((eventNSFactoryServer.Register nx w f cancelDone).2.factories f).state =
          connectionState.closed ∧
        ((eventNSFactoryServer.Register nx w f cancelDone).2.factories f).registration =
          (w.factories f).registration ∧
        ((eventNSFactoryServer.Register nx w f cancelDone).2.factories f).response =
          (w.factories f).response) ∧
    (∀ cancelDone,
      ((eventNSFactoryServer.Unregister nx w f cancelDone).2.factories f).state =
          connectionState.closed ∧
        ((eventNSFactoryServer.Unregister nx w f cancelDone).2.factories f).registration =
          (w.factories f).registration ∧
        ((eventNSFactoryServer.Unregister nx w f cancelDone).2.factories f).response =
          (w.factories f).response) ∧
    (∀ fuel ctx i opts, fromContext ctx = none →
      ∃ r w', beginNSEClient.RegisterTask mergeNSE nx (fuel + 2) w f ctx i opts =
          some (r, w') ∧
        (w'.factories f).state = connectionState.closed ∧
        (w'.factories f).registration = (w.factories f).registration ∧
        (w'.factories f).response = (w.factories f).response) ∧
    (∀ fuel ctx i opts, fromContext ctx = none →
      ∃ r w', beginNSEClient.UnregisterTask nx (fuel + 2) w f ctx i opts = some (r, w') ∧
        (w'.factories f).state = connectionState.closed ∧
        (w'.factories f).registration = (w.factories f).registration ∧
        (w'.factories f).response = (w.factories f).response) ∧
    (∀ fuel ctx i, fromContext ctx = none →
      ∃ r w', beginNSEServer.RegisterTask mergeNSE nx (fuel + 2) w f ctx i = some (r, w') ∧
        (w'.factories f).state = connectionState.closed ∧
        (w'.factories f).registration = (w.factories f).registration ∧
        (w'.factories f).response = (w.factories f).response) ∧
    (∀ fuel ctx i, fromContext ctx = none →
      ∃ r w', beginNSEServer.UnregisterTask nx (fuel + 2) w f ctx i = some (r, w') ∧
        (w'.factories f).state = connectionState.closed ∧
        (w'.factories f).registration = (w.factories f).registration ∧
        (w'.factories f).response = (w.factories f).response) := by
  have hc := Reachable_consistent mergeNSE mergeNS nx w hw
  have hstale : ∀ id, w.Load id ≠ some f := fun id h => (hc id f h).2.2 hcl
  have hne : (w.factories f).state ≠ connectionState.established := by rw [hcl]; decide
  refine ⟨?_, ?_, ?_, ?_, ?_, ?_, ?_, ?_⟩
  · intro cancelDone
    simp [eventNSFactoryClient.Register, hne, hcl]
  · intro cancelDone
    unfold eventNSFactoryClient.Unregister
    split_ifs
    · exact ⟨hcl, rfl, rfl⟩
    · exact ⟨hcl, rfl, rfl⟩
    · exact afterCloseFunc_fields _ f
  · intro cancelDone
    simp [eventNSFactoryServer.Register, hne, hcl]
  · intro cancelDone
    unfold eventNSFactoryServer.Unregister
    split_ifs
    · exact ⟨hcl, rfl, rfl⟩
    · exact ⟨hcl, rfl, rfl⟩
    · exact afterCloseFunc_fields _ f
  · intro fuel ctx i opts hctx
    obtain ⟨r, w', hrun, hframe, -⟩ := clientRegister_frame mergeNSE nx fuel w ctx i opts hctx
    have hfix := hframe f (LoadOrStore_ne_stale w i.GetName _ f (hstale _) hf)
    refine ⟨r, w', ?_, by rw [hfix]; exact hcl, by rw [hfix], by rw [hfix]⟩
    simpa [beginNSEClient.RegisterTask, hstale] using hrun
  · intro fuel ctx i opts hctx
    obtain ⟨r, w', hrun, hframe, -⟩ := clientUnregister_frame nx fuel w ctx i opts hctx
    have hfix := hframe f (LoadOrStore_ne_stale w i.GetName _ f (hstale _) hf)
    refine ⟨r, w', ?_, by rw [hfix]; exact hcl, by rw [hfix], by rw [hfix]⟩
    simpa [beginNSEClient.UnregisterTask, hstale] using hrun
  · intro fuel ctx i hctx
    obtain ⟨r, w', hrun, hframe, -⟩ := serverRegister_frame mergeNSE nx fuel w ctx i hctx
    have hfix := hframe f (LoadOrStore_ne_stale w i.GetName _ f (hstale _) hf)
    refine ⟨r, w', ?_, by rw [hfix]; exact hcl, by rw [hfix], by rw [hfix]⟩
    simpa [beginNSEServer.RegisterTask, hstale] using hrun
  · intro fuel ctx i hctx
    obtain ⟨r, w', hrun, hframe, -⟩ := serverUnregister_frame nx fuel w ctx i hctx
    have hfix := hframe f (LoadOrStore_ne_stale w i.GetName _ f (hstale _) hf)
    refine ⟨r, w', ?_, by rw [hfix]; exact hcl, by rw [hfix], by rw [hfix]⟩
    simpa [beginNSEServer.UnregisterTask, hstale] using hrun


/-- C11 at a concrete input: `nse` registered and unregistered, which leaves its controller
(address 0) closed with its payloads cached; the Unregister trigger and a Register task queued on
that controller, run now, leave the three fields as they are. -/
theorem C11_closed_controller_witness :
    (Sample.closedAfterUse.factories 0).state = connectionState.closed ∧
    (Sample.closedAfterUse.factories 0).registration = some Sample.endpoint ∧
    (((eventNSFactoryClient.Unregister Sample.accepting Sample.closedAfterUse 0
        false).2.factories 0).state = connectionState.closed ∧
      ((eventNSFactoryClient.Unregister Sample.accepting Sample.closedAfterUse 0
        false).2.factories 0).registration = (Sample.closedAfterUse.factories 0).registration ∧
      ((eventNSFactoryClient.Unregister Sample.accepting Sample.closedAfterUse 0
        false).2.factories 0).response = (Sample.closedAfterUse.factories 0).response) ∧
    (∃ r w', beginNSEClient.RegisterTask Sample.merge Sample.accepting 2 Sample.closedAfterUse
        0 {} Sample.endpoint [] = some (r, w') ∧
      (w'.factories 0).state = connectionState.closed ∧
      (w'.factories 0).registration = (Sample.closedAfterUse.factories 0).registration ∧
      (w'.factories 0).response = (Sample.closedAfterUse.factories 0).response) := by
  have hreach : Reachable Sample.merge Sample.merge Sample.accepting Sample.closedAfterUse :=
    Reachable.step _ _
      (Reachable.step _ _ Reachable.init
        (Step.clientRegister 1 {} {} Sample.endpoint [] (some Sample.endpoint, none)
          Sample.registered rfl))
      (Step.clientUnregister 1 Sample.registered {} Sample.endpoint [] none
        Sample.closedAfterUse rfl)
  have h := C11_closed_controller_is_not_changed Sample.merge Sample.merge Sample.accepting
    Sample.closedAfterUse hreach 0 (by decide) rfl
  exact ⟨rfl, rfl, h.2.1 false, h.2.2.2.2.1 0 {} Sample.endpoint [] rfl⟩

/-- C12: in every state reachable by begin Register and Unregister calls, their queued tasks
and the event factory triggers, no controller stored in the Entity Map has state closed; every
operation that takes a controller to closed leaves no Entity Map entry for that controller's
name; and a Register for that name then resolves a fresh controller, at a new address and in
state new (client and server). -/
theorem C12_stored_controllers_are_not_closed
    (mergeNSE : Option NetworkServiceEndpoint → Option NetworkServiceEndpoint →
      Option NetworkServiceEndpoint)
    (mergeNS : Option NetworkServiceEndpoint → Option NetworkServiceEndpoint →
      Option NetworkServiceEndpoint)
    (nx : Next NetworkServiceEndpoint) (w : World NetworkServiceEndpoint)
    (hw : Reachable mergeNSE mergeNS nx w) :
    (∀ id p, w.Load id = some p → (w.factories p).state ≠ connectionState.closed) ∧
    (∀ w', Step mergeNSE mergeNS nx w w' → ∀ f id,
      (w.factories f).state ≠ connectionState.closed →
      (w'.factories f).state = connectionState.closed →
      (w'.factories f).afterClose = some id →
      w'.Load id = none ∧
      (∀ ctx opts,
        (w'.LoadOrStore id (newEventNSEFactoryClient ctx (some id) opts)).1 = w'.nextFree ∧
        ((w'.LoadOrStore id (newEventNSEFactoryClient ctx (some id) opts)).2.factories
          w'.nextFree).state = connectionState.new) ∧
      (∀ ctx,
        (w'.LoadOrStore id (newNSEEventFactoryServer ctx id)).1 = w'.nextFree ∧
        ((w'.LoadOrStore id (newNSEEventFactoryServer ctx id)).2.factories
          w'.nextFree).state = connectionState.new)) := by
  have hc := Reachable_consistent mergeNSE mergeNS nx w hw
  refine ⟨fun id p hp => (hc id p hp).2.2, ?_⟩
  intro w' hstep f id h1 h2 h3
  have hev : w'.map id = none := (Step_sound mergeNSE mergeNS nx w w' hstep hc).2 f id h1 h2 h3
  refine ⟨hev, fun ctx opts => ?_, fun ctx => ?_⟩
  · simp [World.LoadOrStore, hev, newEventNSEFactoryClient, newEventNSFactoryClient]
  · simp [World.LoadOrStore, hev, newNSEEventFactoryServer, newNSEventFactoryServer]

/-- C12 at a concrete input: from the reachable state in which `nse` is established on
controller 0, Unregister closes the controller; no entry is left for `nse` and the next Register
resolves the new address 1. -/
theorem C12_stored_controllers_witness :
    (∀ id p, Sample.registered.Load id = some p →
      (Sample.registered.factories p).state ≠ connectionState.closed) ∧
    (Sample.registered.factories 0).state = connectionState.established ∧
    (Sample.closedAfterUse.factories 0).state = connectionState.closed ∧
    Sample.closedAfterUse.Load "nse" = none ∧
    (Sample.closedAfterUse.LoadOrStore "nse"
      (newEventNSEFactoryClient {} (some "nse") [])).1 = 1 := by
  have hreach : Reachable Sample.merge Sample.merge Sample.accepting Sample.registered :=
    Reachable.step _ _ Reachable.init
      (Step.clientRegister 1 {} {} Sample.endpoint [] (some Sample.endpoint, none)
        Sample.registered rfl)
  have h := C12_stored_controllers_are_not_closed Sample.merge Sample.merge Sample.accepting
    Sample.registered hreach
  have h2 := h.2 Sample.closedAfterUse
    (Step.clientUnregister 1 Sample.registered {} Sample.endpoint [] none
      Sample.closedAfterUse rfl) 0 "nse" (by decide) rfl rfl
  exact ⟨h.1, rfl, rfl, h2.1, (h2.2.1 {} []).1⟩

end begin

/-! ## Claim on the scoped store -/

namespace metadata

/-- C19: a failed Request of an entity that is not yet established leaves the entity's Scoped
Store equal to its pre-attempt contents and the entity not established, so that a key stored
during a failed first Request is not found by the next Request for the same id; a failed refresh
of an established entity keeps the store as the attempt left it, with the keys stored so far,
and the entity established. -/
theorem C19_failed_attempt_rollback (st : State) (id : String) (next : Stage) (e : String)
    (hfail : (next (st.stores id)).2 = some e) :
    (st.established id = false →
      (Request st id next).2 = some e ∧
      (Request st id next).1.stores id = st.stores id ∧
      (Request st id next).1.established id = false ∧
      (∀ key, Map.Load (st.stores id) key = none →
        Map.Load ((Request st id next).1.stores id) key = none)) ∧
    (st.established id = true →
      (Request st id next).2 = some e ∧
      (Request st id next).1.stores id = (next (st.stores id)).1 ∧
      (Request st id next).1.established id = true) := by
  constructor
  · intro hne
    simp [Request, hfail, hne]
  · intro hest
    simp [Request, hfail, hest]

/-- C19 at concrete inputs, the samples "Request failed" and "Refresh failed" of the tests: a
key stored during the failed first Request of `id` is not found afterwards; a key stored by the
first, successful Request is still found after the second Request has failed. -/
theorem C19_failed_attempt_witness :
    ((Request {} "id" Sample.storeAndFail).2 =
        some "error originates in injectErrorServer" ∧
      Map.Load ((Request {} "id" Sample.storeAndFail).1.stores "id") "test" = none) ∧
    ((Request {} "id" Sample.storeAndSucceed).2 = none ∧
      (Request (Request {} "id" Sample.storeAndSucceed).1 "id" Sample.storeAndFail).2 =
        some "error originates in injectErrorServer" ∧
      Map.Load ((Request (Request {} "id" Sample.storeAndSucceed).1 "id"
        Sample.storeAndFail).1.stores "id") "test" = some "0") :=
  ⟨⟨((C19_failed_attempt_rollback {} "id" Sample.storeAndFail
        "error originates in injectErrorServer" rfl).1 rfl).1,
      ((C19_failed_attempt_rollback {} "id" Sample.storeAndFail
        "error originates in injectErrorServer" rfl).1 rfl).2.2.2 "test" rfl⟩,
    rfl,
    ((C19_failed_attempt_rollback (Request {} "id" Sample.storeAndSucceed).1 "id"
        Sample.storeAndFail "error originates in injectErrorServer" rfl).2 rfl).1,
    by decide⟩

end metadata

/-! ## Claim on the Close of forwarder discovery -/

namespace discoverforwarder

/-- Whatever forwarder name Close works with, it ends in one invocation of the next stage. -/
theorem close_shape (d : discoverForwarderServer) (parse : String → Option URL) (nx : Next)
    (calls : List CloseCall) (ctx : Context) (conn : Connection) (name : String) :
    ∃ ctx', (if name = "" then (nx.Close calls ctx conn, calls ++ [(ctx, conn)])
      else
        match d.nseClient ctx { Name := name, Url := d.nsmgrURL } with
        | Except.error _ => (nx.Close calls ctx conn, calls ++ [(ctx, conn)])
        | Except.ok [] => (nx.Close calls ctx conn, calls ++ [(ctx, conn)])
        | Except.ok (nse :: _) =>
          match parse nse.Url with
          | none => (nx.Close calls ctx conn, calls ++ [(ctx, conn)])
          | some u =>
            (nx.Close calls (WithClientURL ctx u) conn,
              calls ++ [(WithClientURL ctx u, conn)])) =
      (nx.Close calls ctx' conn, calls ++ [(ctx', conn)]) := by
  by_cases h : name = ""
  · exact ⟨ctx, by rw [if_pos h]⟩
  · rw [if_neg h]
    cases d.nseClient ctx { Name := name, Url := d.nsmgrURL } with
    | error e => exact ⟨ctx, rfl⟩
    | ok nses =>
      cases nses with
      | nil => exact ⟨ctx, rfl⟩
      | cons nse rest =>
        cases hp : parse nse.Url with
        | none => exact ⟨ctx, by simp only [hp]⟩
        | some u => exact ⟨WithClientURL ctx u, by simp only [hp]⟩

/-- C20: discoverforwarder's Close invokes the next stage's Close exactly once, with the
connection it was given, and returns exactly its result, on every path. The context handed on is
the caller's when no forwarder name is stored or derivable from the path, when the registry's
Find fails, when no forwarder is found and when the forwarder's URL does not parse; on the
normal path it is the caller's context with the forwarder's URL as client URL. -/
theorem C20_close_always_calls_next (d : discoverForwarderServer)
    (parse : String → Option URL) (nx : Next) (calls : List CloseCall) (ctx : Context)
    (conn : Connection) :
    (∃ ctx', discoverForwarderServer.Close d parse nx calls ctx conn =
      (nx.Close calls ctx' conn, calls ++ [(ctx', conn)])) ∧
    (loadForwarderName ctx = "" →
      (∀ segment, conn.Path.PathSegments.get? (conn.Path.Index + 1) = some segment →
        segment.Name = "") →
      discoverForwarderServer.Close d parse nx calls ctx conn =
        (nx.Close calls ctx conn, calls ++ [(ctx, conn)])) ∧
    (∀ name, (loadForwarderName ctx = name ∨
        (loadForwarderName ctx = "" ∧ ∃ segment,
          conn.Path.PathSegments.get? (conn.Path.Index + 1) = some segment ∧
            segment.Name = name)) →
      name ≠ "" →
      ((∀ e, d.nseClient ctx { Name := name, Url := d.nsmgrURL } = Except.error e →
        discoverForwarderServer.Close d parse nx calls ctx conn =
          (nx.Close calls ctx conn, calls ++ [(ctx, conn)])) ∧
      (d.nseClient ctx { Name := name, Url := d.nsmgrURL } = Except.ok [] →
        discoverForwarderServer.Close d parse nx calls ctx conn =
          (nx.Close calls ctx conn, calls ++ [(ctx, conn)])) ∧
      (∀ nse rest, d.nseClient ctx { Name := name, Url := d.nsmgrURL } =
          Except.ok (nse :: rest) → parse nse.Url = none →
        discoverForwarderServer.Close d parse nx calls ctx conn =
          (nx.Close calls ctx conn, calls ++ [(ctx, conn)])) ∧
      (∀ nse rest u, d.nseClient ctx { Name := name, Url := d.nsmgrURL } =
          Except.ok (nse :: rest) → parse nse.Url = some u →
        discoverForwarderServer.Close d parse nx calls ctx conn =
          (nx.Close calls (WithClientURL ctx u) conn,
            calls ++ [(WithClientURL ctx u, conn)])))) := by
  refine ⟨?_, ?_, ?_⟩
  · unfold discoverForwarderServer.Close
    exact close_shape d parse nx calls ctx conn _
  · intro hname hseg
    unfold discoverForwarderServer.Close
    cases hs : conn.Path.PathSegments.get? (conn.Path.Index + 1) with
    | none => simp [hname, hs]
    | some segment => simp [hname, hs, hseg segment hs]
  · intro name hname hne
    have hfn : (if loadForwarderName ctx = "" then
        match conn.Path.PathSegments.get? (conn.Path.Index + 1) with
        | some segment => segment.Name
        | none => loadForwarderName ctx
      else loadForwarderName ctx) = name := by
      rcases hname with h | ⟨h, segment, hs, hn⟩
      · rw [if_neg (by rw [h]; exact hne), h]
      · rw [if_pos h, hs]
        exact hn
    unfold discoverForwarderServer.Close
    simp only [hfn, hne, if_false]
    refine ⟨?_, ?_, ?_, ?_⟩
    · intro e he
      rw [he]
    · intro he
      rw [he]
    · intro nse rest he hp
      rw [he]
      simp only [hp]
    · intro nse rest u he hp
      rw [he]
      simp only [hp]


/-- C20 at a concrete input: no forwarder name is stored, the path names `fwd-1`, the registry
knows it and its URL parses; the next stage's Close fails, and Close returns that failure after
the one invocation, made with the forwarder's URL in the context. -/
theorem C20_close_witness :
    discoverForwarderServer.Close Sample.server (fun s => some s) Sample.failing [] {}
        Sample.conn =
      ((none, some (begin.Error.Foreign "close failed")),
        [(WithClientURL {} "tcp://10.0.0.1:5001", Sample.conn)]) :=
  ((C20_close_always_calls_next Sample.server (fun s => some s) Sample.failing [] {}
    Sample.conn).2.2 "fwd-1" (Or.inr ⟨rfl, { Name := "fwd-1" }, rfl, rfl⟩) (by decide)).2.2.2
      { Name := "fwd-1", Url := "tcp://10.0.0.1:5001" } [] "tcp://10.0.0.1:5001" rfl rfl

end discoverforwarder

/-! ## begin: calls whose context already carries an event factory -/

namespace begin

/-- C1, as stated, fails when the context already carries an event factory. The controller
of the non-empty id `nse` is stored and in state new, a state reached from the empty Entity
Map by one step; the next stage refuses the Register. Begin's Register (client and server)
returns the next stage's error, yet the Entity Map still has the entry for `nse` and its
controller is in state new, not closed. -/
theorem C1_counterexample_event_factory_in_context :
    Sample.endpoint.GetName ≠ "" ∧
    Reachable Sample.merge Sample.merge Sample.refusing Sample.enqueued ∧
    (Sample.enqueued.Load "nse" = some 0 ∧
      (Sample.enqueued.factories 0).state = connectionState.new) ∧
    (∀ cs c o, (Sample.refusing : Next NetworkServiceEndpoint).Register cs c
      (some Sample.endpoint) o = (none, some (Error.Foreign "refused"))) ∧
    (∃ w', beginNSEClient.Register Sample.merge Sample.refusing 1 Sample.enqueued
        { eventFactory := some 0 } Sample.endpoint [] =
          some ((none, some (Error.Foreign "refused")), w') ∧
      w'.Load "nse" = some 0 ∧ (w'.factories 0).state = connectionState.new) ∧
    (∃ w', beginNSEServer.Register Sample.merge Sample.refusing 1 Sample.enqueued
        { eventFactory := some 0 } Sample.endpoint =
          some ((none, some (Error.Foreign "refused")), w') ∧
      w'.Load "nse" = some 0 ∧ (w'.factories 0).state = connectionState.new) :=
  ⟨by decide,
    Reachable.step {} _ Reachable.init (Step.clientEnqueue {} {} "nse" []),
    ⟨rfl, rfl⟩, fun _ _ _ => rfl, ⟨_, rfl, rfl, rfl⟩, ⟨_, rfl, rfl, rfl⟩⟩

/-- C13, as stated, fails when the context already carries an event factory. The controller
of `nse` is established and caches the registration `nse` without URL; Unregister is called
with an entity of the same name and another URL. Begin's Unregister (client and server) passes
the caller's entity to the next stage, not the cached registration. -/
theorem C13_counterexample_event_factory_in_context :
    (Sample.established.Load "nse" = some 0 ∧
      (Sample.established.factories 0).registration = some Sample.endpoint) ∧
    Sample.endpoint ≠ { Name := "nse", Url := "tcp://elsewhere" } ∧
    (∃ w', beginNSEClient.Unregister Sample.accepting 1 Sample.established
        { eventFactory := some 0 } { Name := "nse", Url := "tcp://elsewhere" } [] =
          some (none, w') ∧
      w'.calls = [Call.Unregister { eventFactory := some 0 }
        (some { Name := "nse", Url := "tcp://elsewhere" }) []]) ∧
    (∃ w', beginNSEServer.Unregister Sample.accepting 1 Sample.established
        { eventFactory := some 0 } { Name := "nse", Url := "tcp://elsewhere" } =
          some (none, w') ∧
      w'.calls = [Call.Unregister { eventFactory := some 0 }
        (some { Name := "nse", Url := "tcp://elsewhere" }) []]) :=
  ⟨⟨rfl, rfl⟩, by decide, ⟨_, rfl, rfl⟩, ⟨_, rfl, rfl⟩⟩

/-- C16, as stated, fails when the context already carries an event factory. The controller
of the non-empty name `nse` is established and the next stage's Unregister returns no error.
Two calls of begin's Unregister in succession (client and server) both return no error, yet
the Entity Map has the entry for `nse` after the first call and after the second. -/
theorem C16_counterexample_event_factory_in_context :
    Sample.endpoint.GetName ≠ "" ∧
    (∀ cs c r o, (Sample.accepting : Next NetworkServiceEndpoint).Unregister cs c r o = none) ∧
    (∃ w1 w2, beginNSEClient.Unregister Sample.accepting 1 Sample.established
        { eventFactory := some 0 } Sample.endpoint [] = some (none, w1) ∧
      w1.Load "nse" = some 0 ∧
      beginNSEClient.Unregister Sample.accepting 1 w1 { eventFactory := some 0 }
        Sample.endpoint [] = some (none, w2) ∧
      w2.Load "nse" = some 0) ∧
    (∃ w1 w2, beginNSEServer.Unregister Sample.accepting 1 Sample.established
        { eventFactory := some 0 } Sample.endpoint = some (none, w1) ∧
      w1.Load "nse" = some 0 ∧
      beginNSEServer.Unregister Sample.accepting 1 w1 { eventFactory := some 0 }
        Sample.endpoint = some (none, w2) ∧
      w2.Load "nse" = some 0) :=
  ⟨by decide, fun _ _ _ _ => rfl, ⟨_, _, rfl, rfl, rfl, rfl⟩, ⟨_, _, rfl, rfl, rfl, rfl⟩⟩

end begin

/-! ## The verbose registry trace: `logError` -/

namespace traceverbose

/-- C25: `logError` returns nil exactly when the given error is nil; a non-nil error that
carries a stack trace is returned unchanged, and any other non-nil error is returned wrapped
with the message "Error returned from <operation>", the original error being its cause. -/
theorem C25_logError_wraps_only_without_stack (err : Option begin.Error) (operation : String) :
    ((logError err operation).1 = none ↔ err = none) ∧
    (∀ e, err = some e → e.hasStackTrace = true → (logError err operation).1 = some e) ∧
    (∀ e, err = some e → e.hasStackTrace = false →
      (logError err operation).1 =
        some (begin.Error.Wrap e ("Error returned from " ++ operation))) := by
  refine ⟨?_, ?_, ?_⟩
  · cases err with
    | none => simp [logError]
    | some e =>
      cases h : e.hasStackTrace <;> simp [logError, h]
  · intro e he hs
    subst he
    simp [logError, hs]
  · intro e he hs
    subst he
    simp [logError, hs]

end traceverbose

/-! ## The trace wrappers: which element a log level selects -/

namespace trace

/-- The log levels at or below Warn are below Info and Debug. -/
theorem level_le_warn (level : Nat) (h : level ≤ 3) : ¬ 5 ≤ level ∧ level ≠ 4 := by omega

/-- The log levels at or above Debug are above Warn and Info. -/
theorem level_ge_debug (level : Nat) (h : 5 ≤ level) : ¬ level ≤ 3 ∧ level ≠ 4 := by omega

/-- The one log level between Warn and Debug is Info. -/
theorem level_info (level : Nat) (h1 : ¬ level ≤ 3) (h2 : ¬ 5 ≤ level) : level = 4 := by omega

/-- C26: for every log level the trace server's Request and Close select the same element:
the original when the level is Warn or lower, the verbose one when it is Debug or higher, the
concise one otherwise (Info); each invokes that one element once and returns its result. -/
theorem C26_trace_server_dispatch {Req Conn : Type} (t : traceServer Req Conn)
    (level : logrus.Level) (ctx : Context) (request : Req) (conn : Conn) :
    ∃ v : Variant,
      (v = Variant.original ↔ level ≤ logrus.WarnLevel) ∧
      (v = Variant.verbose ↔ logrus.DebugLevel ≤ level) ∧
      (v = Variant.concise ↔ level = logrus.InfoLevel) ∧
      (∃ c, (t.Request level ctx request).2 = [(v, c)] ∧
        (t.Request level ctx request).1 = (t.element v).Request c request) ∧
      (∃ c, (t.Close level ctx conn).2 = [(v, c)] ∧
        (t.Close level ctx conn).1 = (t.element v).Close c conn) := by
  by_cases h1 : level ≤ logrus.WarnLevel
  · have h := level_le_warn level h1
    refine ⟨Variant.original, ?_, ?_, ?_, ⟨withLogrusLogger ctx, ?_, ?_⟩,
      ⟨withLogrusLogger ctx, ?_, ?_⟩⟩
    · simp [h1]
    · exact ⟨fun e => Variant.noConfusion e, fun e => absurd e h.1⟩
    · exact ⟨fun e => Variant.noConfusion e, fun e => absurd e h.2⟩
    · simp [traceServer.Request, h1]
    · simp [traceServer.Request, traceServer.element, h1]
    · simp [traceServer.Close, h1]
    · simp [traceServer.Close, traceServer.element, h1]
  · by_cases h2 : logrus.DebugLevel ≤ level
    · have h := level_ge_debug level h2
      refine ⟨Variant.verbose, ?_, ?_, ?_, ⟨ctx, ?_, ?_⟩, ⟨ctx, ?_, ?_⟩⟩
      · exact ⟨fun e => Variant.noConfusion e, fun e => absurd e h1⟩
      · simp [h2]
      · exact ⟨fun e => Variant.noConfusion e, fun e => absurd e h.2⟩
      · simp [traceServer.Request, h1, h2]
      · simp [traceServer.Request, traceServer.element, h1, h2]
      · simp [traceServer.Close, h1, h2]
      · simp [traceServer.Close, traceServer.element, h1, h2]
    · have h := level_info level h1 h2
      refine ⟨Variant.concise, ?_, ?_, ?_, ⟨ctx, ?_, ?_⟩, ⟨ctx, ?_, ?_⟩⟩
      · exact ⟨fun e => Variant.noConfusion e, fun e => absurd e h1⟩
      · exact ⟨fun e => Variant.noConfusion e, fun e => absurd e h2⟩
      · exact ⟨fun _ => h, fun _ => rfl⟩
      · simp [traceServer.Request, h1, h2]
      · simp [traceServer.Request, traceServer.element, h1, h2]
      · simp [traceServer.Close, h1, h2]
      · simp [traceServer.Close, traceServer.element, h1, h2]

/-- A registry trace wrapper selects the concise element at Warn or lower and the original
one at Info. -/
theorem registry_variant (level : Nat) :
    (if level ≥ logrus.DebugLevel then Variant.verbose
      else if level ≤ logrus.WarnLevel then Variant.concise else Variant.original) =
    (if level ≤ logrus.WarnLevel then Variant.original
      else if level ≥ logrus.DebugLevel then Variant.verbose else Variant.concise) ↔
    logrus.DebugLevel ≤ level := by
  by_cases h1 : logrus.DebugLevel ≤ level
  · have h2 : ¬ level ≤ logrus.WarnLevel := (level_ge_debug level h1).1
    simp [h1, h2]
  · by_cases h2 : level ≤ logrus.WarnLevel
    · simp [h1, h2]
    · simp [h1, h2]

/-- C27, on the code: at the Warn level the registry trace client's
Register runs the concise element while the networkservice trace server runs the original
one, and at the Info level it runs the original element while the server runs the concise
one; for every level, each of the six registry methods selects the same kind of element as
the networkservice trace server exactly when the level is Debug or higher. -/
theorem C27_registry_trace_dispatch_differs :
    ((Sample.registryClient.Register logrus.WarnLevel {} "nse" []).1 = (some "concise", none) ∧
      (Sample.server.Request logrus.WarnLevel {} "request").1 = (some "original", none)) ∧
    ((Sample.registryClient.Register logrus.InfoLevel {} "nse" []).1 = (some "original", none) ∧
      (Sample.server.Request logrus.InfoLevel {} "request").1 = (some "concise", none)) ∧
    (∀ (E Q Req Conn : Type) (c : traceNetworkServiceEndpointRegistryClient E Q)
      (s : traceNetworkServiceEndpointRegistryServer E Q) (t : traceServer Req Conn)
      (level : logrus.Level) (ctx : Context) (i : E) (q : Q) (sent : List E)
      (opts : List begin.CallOption) (request : Req),
      (((c.Register level ctx i opts).2.map Prod.fst =
          (t.Request level ctx request).2.map Prod.fst) ↔ logrus.DebugLevel ≤ level) ∧
      (((c.Find level ctx q opts).2.map Prod.fst =
          (t.Request level ctx request).2.map Prod.fst) ↔ logrus.DebugLevel ≤ level) ∧
      (((c.Unregister level ctx i opts).2.map Prod.fst =
          (t.Request level ctx request).2.map Prod.fst) ↔ logrus.DebugLevel ≤ level) ∧
      (((s.Register level ctx i).2.map Prod.fst =
          (t.Request level ctx request).2.map Prod.fst) ↔ logrus.DebugLevel ≤ level) ∧
      (((s.Find level q sent).2 =
          (t.Request level ctx request).2.map Prod.fst) ↔ logrus.DebugLevel ≤ level) ∧
      (((s.Unregister level ctx i).2.map Prod.fst =
          (t.Request level ctx request).2.map Prod.fst) ↔ logrus.DebugLevel ≤ level)) := by
  refine ⟨⟨rfl, rfl⟩, ⟨rfl, rfl⟩, ?_⟩
  intro E Q Req Conn c s t level ctx i q sent opts request
  have key := registry_variant level
  have hreq : (t.Request level ctx request).2.map Prod.fst =
      [if level ≤ logrus.WarnLevel then Variant.original
        else if level ≥ logrus.DebugLevel then Variant.verbose else Variant.concise] := by
    unfold traceServer.Request
    split_ifs <;> rfl
  rw [hreq]
  refine ⟨?_, ?_, ?_, ?_, ?_, ?_⟩
  · have h : (c.Register level ctx i opts).2.map Prod.fst =
        [if level ≥ logrus.DebugLevel then Variant.verbose
          else if level ≤ logrus.WarnLevel then Variant.concise else Variant.original] := by
      unfold traceNetworkServiceEndpointRegistryClient.Register
      split_ifs <;> rfl
    rw [h, List.cons.injEq]
    simpa using key
  · have h : (c.Find level ctx q opts).2.map Prod.fst =
        [if level ≥ logrus.DebugLevel then Variant.verbose
          else if level ≤ logrus.WarnLevel then Variant.concise else Variant.original] := by
      unfold traceNetworkServiceEndpointRegistryClient.Find
      split_ifs <;> rfl
    rw [h, List.cons.injEq]
    simpa using key
  · have h : (c.Unregister level ctx i opts).2.map Prod.fst =
        [if level ≥ logrus.DebugLevel then Variant.verbose
          else if level ≤ logrus.WarnLevel then Variant.concise else Variant.original] := by
      unfold traceNetworkServiceEndpointRegistryClient.Unregister
      split_ifs <;> rfl
    rw [h, List.cons.injEq]
    simpa using key
  · have h : (s.Register level ctx i).2.map Prod.fst =
        [if level ≥ logrus.DebugLevel then Variant.verbose
          else if level ≤ logrus.WarnLevel then Variant.concise else Variant.original] := by
      unfold traceNetworkServiceEndpointRegistryServer.Register
      split_ifs <;> rfl
    rw [h, List.cons.injEq]
    simpa using key
  · have h : (s.Find level q sent).2 =
        [if level ≥ logrus.DebugLevel then Variant.verbose
          else if level ≤ logrus.WarnLevel then Variant.concise else Variant.original] := by
      unfold traceNetworkServiceEndpointRegistryServer.Find
      split_ifs <;> rfl
    rw [h, List.cons.injEq]
    simpa using key
  · have h : (s.Unregister level ctx i).2.map Prod.fst =
        [if level ≥ logrus.DebugLevel then Variant.verbose
          else if level ≤ logrus.WarnLevel then Variant.concise else Variant.original] := by
      unfold traceNetworkServiceEndpointRegistryServer.Unregister
      split_ifs <;> rfl
    rw [h, List.cons.injEq]
    simpa using key

end trace

/-! ## The recvfd server: Close and the next stage -/

namespace recvfd

/-- C21, on the code: when the context carries a receiver and receiving
the file descriptors for the parameters of the connection's mechanism fails, `Close` returns
that error without invoking the next stage's Close: the list of invocations is unchanged.
The sample is a connection with one inode URL that cannot be received. -/
theorem C21_close_skips_next_when_receiving_fails :
    ((recvFDServer.Close Sample.helpers Sample.closing {} Sample.ctx Sample.conn).1 =
        (none, some (begin.Error.New "context is done before file received")) ∧
      (recvFDServer.Close Sample.helpers Sample.closing {} Sample.ctx Sample.conn).2.calls = []) ∧
    (∀ (h : Helpers) (nx : Next) (w : World) (ctx : Context) (conn : Connection)
      (recv : FDRecver) (err : begin.Error) (fileMap : perConnectionFileMap)
      (parameters : Parameters),
      ctx.recver = some recv →
      h.recvFDAndSwapInodeToFile ctx ((w.fileMaps conn.Id).getD {}) conn.Mechanism.Parameters
        recv = (some err, fileMap, parameters) →
      (recvFDServer.Close h nx w ctx conn).1 = (none, some err) ∧
      (recvFDServer.Close h nx w ctx conn).2.calls = w.calls) := by
  refine ⟨⟨by decide, by decide⟩, ?_⟩
  intro h nx w ctx conn recv err fileMap parameters hrecv hfail
  unfold recvFDServer.Close
  simp only [hrecv, hfail]
  refine ⟨trivial, ?_⟩
  unfold closeFiles
  simp

end recvfd

/-! ## The authorize registry clients: a refused registration is taken back -/

namespace authorize

/-- C30: for the authorize registry clients (NS and NSE) with a non-empty policy list, once
the next client's Register has answered with a response: when the policy check fails,
Register returns no response and an error, leaves the path-IDs map unchanged, and invokes
the next client's Unregister for the response exactly when the map holds no entry for the
name of the response; when the check passes it stores the path IDs of the response under its
name and returns the response. -/
theorem C30_refused_register_is_compensated :
    (∀ (c : authorizeNSClient) (h : Helpers) (nx : Next begin.NetworkService)
      (w : World begin.NetworkService) (ctx : Context) (ns resp : begin.NetworkService)
      (opts : List begin.CallOption) (p : Peer),
      c.policies ≠ [] →
      nx.Register w.calls (PathWithContext ctx (PathFromContext ctx)) ns
        (opts ++ ["grpc.Peer"]) = (Except.ok resp, p) →
      let ctx1 := PathWithContext ctx (PathFromContext ctx)
      let ctx2 := if p ≠ "" then NewContext ctx1 p else ctx1
      let input : RegistryOpaInput :=
        { ResourceID := h.getSpiffeIDFromPath ctx2 (PathFromContext ctx2)
          ResourceName := resp.Name
          ResourcePathIDsMap := h.getRawMap w.pathIDsMap
          PathSegments := (PathFromContext ctx2).PathSegments
          Index := (PathFromContext ctx2).Index }
      let out := c.Register h nx w ctx ns opts
      (h.check c.policies ctx2 input ≠ none →
        out.1.1 = none ∧ out.1.2 ≠ none ∧ out.2.pathIDsMap = w.pathIDsMap ∧
        out.2.calls = w.calls ++ [Call.Register ctx1 ns (opts ++ ["grpc.Peer"])] ++
          (if (w.pathIDsMap.Load resp.Name).isNone
            then [Call.Unregister ctx1 resp (opts ++ ["grpc.Peer"])] else [])) ∧
      (h.check c.policies ctx2 input = none →
        out.1 = (some resp, none) ∧
        out.2.pathIDsMap = w.pathIDsMap.Store resp.Name resp.PathIds ∧
        out.2.pathIDsMap.Load resp.Name = some resp.PathIds)) ∧
    (∀ (c : authorizeNSEClient) (h : Helpers) (nx : Next begin.NetworkServiceEndpoint)
      (w : World begin.NetworkServiceEndpoint) (ctx : Context)
      (nse resp : begin.NetworkServiceEndpoint) (opts : List begin.CallOption) (p : Peer),
      c.policies ≠ [] →
      nx.Register w.calls (PathWithContext ctx (PathFromContext ctx)) nse
        (opts ++ ["grpc.Peer"]) = (Except.ok resp, p) →
      let ctx1 := PathWithContext ctx (PathFromContext ctx)
      let ctx2 := if p ≠ "" then NewContext ctx1 p else ctx1
      let input : RegistryOpaInput :=
        { ResourceID := h.getSpiffeIDFromPath ctx2 (PathFromContext ctx)
          ResourceName := resp.Name
          ResourcePathIDsMap := h.getRawMap w.pathIDsMap
          PathSegments := (PathFromContext ctx).PathSegments
          Index := (PathFromContext ctx).Index }
      let out := c.Register h nx w ctx nse opts
      (h.check c.policies ctx2 input ≠ none →
        out.1.1 = none ∧ out.1.2 ≠ none ∧ out.2.pathIDsMap = w.pathIDsMap ∧
        out.2.calls = w.calls ++ [Call.Register ctx1 nse (opts ++ ["grpc.Peer"])] ++
          (if (w.pathIDsMap.Load resp.Name).isNone
            then [Call.Unregister ctx1 resp (opts ++ ["grpc.Peer"])] else [])) ∧
      (h.check c.policies ctx2 input = none →
        out.1 = (some resp, none) ∧
        out.2.pathIDsMap = w.pathIDsMap.Store resp.Name resp.PathIds ∧
        out.2.pathIDsMap.Load resp.Name = some resp.PathIds)) := by
  constructor
  · intro c h nx w ctx ns resp opts p hpol hreg
    have hlen : ¬ c.policies.length = 0 := by
      intro h0; exact hpol (List.length_eq_zero.mp h0)
    intro ctx1 ctx2 input out
    constructor
    · intro hcheck
      obtain ⟨err, herr⟩ := Option.ne_none_iff_exists'.mp hcheck
      have hout : out = authorizeNSClient.Register c h nx w ctx ns opts := rfl
      unfold authorizeNSClient.Register at hout
      simp only [hlen, if_false, hreg] at hout
      simp only [ctx1, ctx2, input] at herr
      simp only [herr] at hout
      cases hload : w.pathIDsMap.Load resp.Name with
      | none =>
        simp only [hload] at hout
        split at hout <;> simp [hout, ctx1]
      | some ids =>
        simp only [hload] at hout
        simp [hout, ctx1]
    · intro hcheck
      have hout : out = authorizeNSClient.Register c h nx w ctx ns opts := rfl
      unfold authorizeNSClient.Register at hout
      simp only [hlen, if_false, hreg] at hout
      simp only [ctx1, ctx2, input] at hcheck
      simp only [hcheck] at hout
      simp [hout, PathIdsMap.Store, PathIdsMap.Load, List.lookup]
  · intro c h nx w ctx nse resp opts p hpol hreg
    have hlen : ¬ c.policies.length = 0 := by
      intro h0; exact hpol (List.length_eq_zero.mp h0)
    intro ctx1 ctx2 input out
    constructor
    · intro hcheck
      obtain ⟨err, herr⟩ := Option.ne_none_iff_exists'.mp hcheck
      have hout : out = authorizeNSEClient.Register c h nx w ctx nse opts := rfl
      unfold authorizeNSEClient.Register at hout
      simp only [hlen, if_false, hreg] at hout
      simp only [ctx1, ctx2, input] at herr
      simp only [herr] at hout
      cases hload : w.pathIDsMap.Load resp.Name with
      | none =>
        simp only [hload] at hout
        split at hout <;> simp [hout, ctx1]
      | some ids =>
        simp only [hload] at hout
        simp [hout, ctx1]
    · intro hcheck
      have hout : out = authorizeNSEClient.Register c h nx w ctx nse opts := rfl
      unfold authorizeNSEClient.Register at hout
      simp only [hlen, if_false, hreg] at hout
      simp only [ctx1, ctx2, input] at hcheck
      simp only [hcheck] at hout
      simp [hout, PathIdsMap.Store, PathIdsMap.Load, List.lookup]

/-- C30, at a concrete input: a service named `denied` is registered by the next client and
refused by the policy check, while the map holds no entry for it: Register returns no response
and the next client receives the Register and then the Unregister for the response. -/
theorem C30_refused_register_witness :
    (authorizeNSClient.Register { policies := ["policy"] } Sample.helpers
        (Sample.accepting begin.NetworkService) {} {} { Name := "denied" } []).1.1 = none ∧
    (authorizeNSClient.Register { policies := ["policy"] } Sample.helpers
        (Sample.accepting begin.NetworkService) {} {} { Name := "denied" } []).2.calls =
      [Call.Register { path := some {} } { Name := "denied" } ["grpc.Peer"],
        Call.Unregister { path := some {} } { Name := "denied" } ["grpc.Peer"]] :=
  have h := (C30_refused_register_is_compensated.1 { policies := ["policy"] } Sample.helpers
    (Sample.accepting begin.NetworkService) {} {} { Name := "denied" } { Name := "denied" } [] ""
    (by decide) rfl).1 (by decide)
  ⟨h.1, h.2.2.2⟩

end authorize

/-! ## The discoverforwarder server: the forwarders a network service allows -/

namespace discoverforwarder

/-- The inner loop appends to `result` the endpoints the match selects, in their order. -/
theorem collect_eq (IsSubset : SubsetTest) (d : discoverForwarderServer) (nsLabels : Labels)
    (m : begin.Match) (nses result : List begin.NetworkServiceEndpoint) :
    matchForwarders.collect IsSubset d nsLabels (Spec.labelsOf m) nses result =
      result ++ nses.filter (Spec.selects IsSubset d nsLabels m) := by
  induction nses generalizing result with
  | nil => simp [matchForwarders.collect]
  | cons nse rest ih =>
    unfold matchForwarders.collect
    cases hl : forwarderLabelsOf nse d.forwarderServiceName with
    | none =>
      simp only [ih]
      simp [List.filter, Spec.selects, hl]
    | some fl =>
      by_cases hs : IsSubset fl (Spec.labelsOf m) nsLabels = true
      · simp only [hs, if_true, ih]
        simp [List.filter, Spec.selects, hl, hs]
      · simp only [hs, if_false, ih]
        simp [List.filter, Spec.selects, hl, hs]

/-- The labels the loop uses for a match are the ones the specification names. -/
theorem labels_eq (m : begin.Match) :
    (match Match.GetLabels m with
      | none => [("p2p", "true")]
      | some labels => labels) = Spec.labelsOf m := by
  unfold Spec.labelsOf
  cases Match.GetLabels m <;> rfl

/-- The loop over the matches, started with an empty result, returns what the first deciding
match selects. -/
theorem match_loop_eq (IsSubset : SubsetTest) (d : discoverForwarderServer) (nsLabels : Labels)
    (nses : List begin.NetworkServiceEndpoint) (ms : List begin.Match) :
    matchForwarders.loop IsSubset d nsLabels nses ms [] =
      match ms.find? (fun m => Spec.accepts IsSubset nsLabels m &&
          (!(nses.filter (Spec.selects IsSubset d nsLabels m)).isEmpty || !m.Fallthrough)) with
      | some m => nses.filter (Spec.selects IsSubset d nsLabels m)
      | none => [] := by
  induction ms with
  | nil => simp [matchForwarders.loop]
  | cons m rest ih =>
    unfold matchForwarders.loop
    by_cases ha : IsSubset nsLabels m.SourceSelector nsLabels = true
    · simp only [ha, Bool.not_true, Bool.false_eq_true, if_false, labels_eq, collect_eq,
        List.nil_append]
      by_cases hf : m.Fallthrough = true
      · cases hsel : nses.filter (Spec.selects IsSubset d nsLabels m) with
        | nil =>
          simp only [hsel] at ih ⊢
          simp [List.find?, Spec.accepts, ha, hf, hsel, ih]
        | cons x xs =>
          simp [List.find?, Spec.accepts, ha, hf, hsel]
      · simp [List.find?, Spec.accepts, ha, hf]
    · simp only [ha, Bool.not_false, if_true, ih]
      simp [List.find?, Spec.accepts, ha]

/-- C28: `matchForwarders` returns the given endpoints unchanged when the network service has
no matches; otherwise it returns the endpoints selected by one match, in the order of the
given list: the first match that accepts the connection labels and either selects an endpoint
or is not marked Fallthrough, an endpoint being selected only if it carries labels for the
forwarder service name that include the labels of the match (`p2p: true` when the match has
none); the result is empty if there is no such match. -/
theorem C28_matchForwarders_first_deciding_match (IsSubset : SubsetTest)
    (d : discoverForwarderServer) (nsLabels : Labels) (ns : begin.NetworkService)
    (nses : List begin.NetworkServiceEndpoint) :
    d.matchForwarders IsSubset nsLabels ns nses =
        Spec.matchForwarders IsSubset d nsLabels ns nses ∧
    (ns.Matches = [] → d.matchForwarders IsSubset nsLabels ns nses = nses) ∧
    (d.matchForwarders IsSubset nsLabels ns nses).Sublist nses ∧
    (ns.Matches ≠ [] →
      (∀ m ∈ ns.Matches, ¬ (Spec.accepts IsSubset nsLabels m = true ∧
        ((nses.filter (Spec.selects IsSubset d nsLabels m)) ≠ [] ∨ m.Fallthrough = false))) →
      d.matchForwarders IsSubset nsLabels ns nses = []) := by
  have heq : d.matchForwarders IsSubset nsLabels ns nses =
      Spec.matchForwarders IsSubset d nsLabels ns nses := by
    unfold discoverForwarderServer.matchForwarders Spec.matchForwarders
    by_cases hm : ns.Matches = []
    · simp [hm]
    · have hl : ¬ ns.Matches.length = 0 := fun h => hm (List.length_eq_zero.mp h)
      simp only [hl, hm, if_false, match_loop_eq]
  refine ⟨heq, ?_, ?_, ?_⟩
  · intro hm
    simp [discoverForwarderServer.matchForwarders, hm]
  · rw [heq]
    unfold Spec.matchForwarders
    split_ifs
    · exact List.Sublist.refl _
    · split
      · exact List.filter_sublist _
      · exact List.nil_sublist _
  · intro hm hnone
    rw [heq]
    unfold Spec.matchForwarders
    simp only [hm, if_false]
    have hfind : ns.Matches.find? (fun m => Spec.accepts IsSubset nsLabels m &&
        (!(nses.filter (Spec.selects IsSubset d nsLabels m)).isEmpty || !m.Fallthrough)) =
        none := by
      rw [List.find?_eq_none]
      intro m hmem hp
      apply hnone m hmem
      simp only [Bool.and_eq_true, Bool.or_eq_true, Bool.not_eq_true'] at hp
      refine ⟨hp.1, ?_⟩
      rcases hp.2 with h | h
      · left
        intro hnil
        simp [hnil] at h
      · right
        exact h
    rw [hfind]

end discoverforwarder

/-! ## The discoverforwarder server: promotion of the sticky forwarder -/

namespace discoverforwarder

/-- The index found is the position of the first candidate of the given name. -/
theorem indexOfName_some (name : String) (nses : List begin.NetworkServiceEndpoint) (i : Nat)
    (h : Request.indexOfName name nses = some i) :
    ∃ c, nses.get? i = some c ∧ c.Name = name ∧
      nses.find? (fun x => decide (x.Name = name)) = some c := by
  induction nses generalizing i with
  | nil => simp [Request.indexOfName] at h
  | cons x rest ih =>
    unfold Request.indexOfName at h
    by_cases hx : x.Name = name
    · simp only [hx, if_true, Option.some.injEq] at h
      subst h
      exact ⟨x, rfl, hx, by simp [List.find?, hx]⟩
    · simp only [hx, if_false, Option.map_eq_some'] at h
      obtain ⟨j, hj, hij⟩ := h
      obtain ⟨c, hc, hn, hf⟩ := ih j hj
      subst hij
      exact ⟨c, by simpa using hc, hn, by simp [List.find?, hx, hf]⟩

/-- A candidate of the given name is found by the loop. -/
theorem indexOfName_of_mem (name : String) (nses : List begin.NetworkServiceEndpoint)
    (h : ∃ c ∈ nses, c.Name = name) : ∃ i, Request.indexOfName name nses = some i := by
  induction nses with
  | nil => simp at h
  | cons x rest ih =>
    unfold Request.indexOfName
    by_cases hx : x.Name = name
    · exact ⟨0, by simp [hx]⟩
    · obtain ⟨c, hc, hn⟩ := h
      have hrest : ∃ c ∈ rest, c.Name = name := by
        rcases List.mem_cons.mp hc with h1 | h1
        · subst h1; exact absurd hn hx
        · exact ⟨c, h1, hn⟩
      obtain ⟨j, hj⟩ := ih hrest
      exact ⟨j + 1, by simp [hx, hj]⟩

/-- Putting an element of a list in front of it and the former head in its place permutes
the list. -/
theorem set_perm {α : Type} (a b : α) (t : List α) (j : Nat) (h : t.get? j = some b) :
    (b :: t.set j a).Perm (a :: t) := by
  induction t generalizing j with
  | nil => simp at h
  | cons c t ih =>
    cases j with
    | zero =>
      simp only [List.get?_cons_zero, Option.some.injEq] at h
      subst h
      simpa using List.Perm.swap a c t
    | succ j =>
      simp only [List.get?_cons_succ] at h
      simp only [List.set_cons_succ]
      exact ((List.Perm.swap c b _).trans ((ih j h).cons c)).trans (List.Perm.swap a c t)

/-- The exchange of the first candidate with the one at a valid index. -/
theorem swap_cons (a c : begin.NetworkServiceEndpoint)
    (t : List begin.NetworkServiceEndpoint) (j : Nat) (h : t.get? j = some c) :
    Request.swap (a :: t) (j + 1) = c :: t.set j a := by
  rw [List.get?_eq_getElem?] at h
  simp [Request.swap, h]

/-- The exchange of the first candidate with itself changes nothing. -/
theorem swap_zero (nses : List begin.NetworkServiceEndpoint) : Request.swap nses 0 = nses := by
  cases nses with
  | nil => simp [Request.swap]
  | cons a t => simp [Request.swap]

/-- The promotion permutes the candidates. -/
theorem promote_perm (nses : List begin.NetworkServiceEndpoint) (name : String) :
    (Request.promote nses name).Perm nses := by
  unfold Request.promote
  cases hi : Request.indexOfName name nses with
  | none => exact List.Perm.refl _
  | some i =>
    obtain ⟨c, hc, _, _⟩ := indexOfName_some name nses i hi
    cases nses with
    | nil => simp at hc
    | cons a t =>
      cases i with
      | zero => simp [swap_zero]
      | succ j =>
        simp only [List.get?_cons_succ] at hc
        simp only [swap_cons a c t j hc]
        exact set_perm a c t j hc

/-- The promotion puts the first candidate of the given name at the head. -/
theorem promote_head (nses : List begin.NetworkServiceEndpoint) (name : String)
    (h : ∃ c ∈ nses, c.Name = name) :
    ∃ c rest, Request.promote nses name = c :: rest ∧ c.Name = name ∧
      nses.find? (fun x => decide (x.Name = name)) = some c := by
  obtain ⟨i, hi⟩ := indexOfName_of_mem name nses h
  obtain ⟨c, hc, hn, hf⟩ := indexOfName_some name nses i hi
  unfold Request.promote
  simp only [hi]
  cases nses with
  | nil => simp at hc
  | cons a t =>
    cases i with
    | zero =>
      simp only [List.get?_cons_zero, Option.some.injEq] at hc
      subst hc
      exact ⟨a, t, swap_zero _, hn, hf⟩
    | succ j =>
      simp only [List.get?_cons_succ] at hc
      exact ⟨c, t.set j a, swap_cons a c t j hc, hn, hf⟩

end discoverforwarder

/-! ## The discoverforwarder server: the order in which the candidates are tried -/

namespace discoverforwarder

/-- The loop over the candidates only adds to the invocations of the next stage. -/
theorem tryCandidates_calls (parse : String → Option URL) (nx : RequestNext) (ctx : Context)
    (request : NetworkServiceRequest) (forwarderName : String)
    (nses : List begin.NetworkServiceEndpoint) (i : Nat) (candidatesErr : begin.Error)
    (calls : List RequestCall) :
    ∃ more, (Request.tryCandidates parse nx ctx request forwarderName i nses candidatesErr
      calls).2.1 = calls ++ more := by
  induction nses generalizing i candidatesErr calls with
  | nil => exact ⟨[], by simp [Request.tryCandidates]⟩
  | cons c rest ih =>
    unfold Request.tryCandidates
    cases hp : parse c.Url with
    | none => exact ih _ _ _
    | some u =>
      simp only
      cases hr : (nx.Request calls (WithClientURL ctx u) request).2 with
      | none => exact ⟨[(WithClientURL ctx u, request)], rfl⟩
      | some err =>
        simp only
        obtain ⟨more, hmore⟩ := ih (i + 1)
          (begin.Error.Wrap candidatesErr
            (toString i ++ ". An error during select forwarder " ++ c.Name ++ " --> " ++
              err.errorText))
          (calls ++ [(WithClientURL ctx u, request)])
        exact ⟨(WithClientURL ctx u, request) :: more, by rw [hmore]; simp⟩

/-- The loop invokes the next stage first for the first candidate, if its URL can be
parsed. -/
theorem tryCandidates_first (parse : String → Option URL) (nx : RequestNext) (ctx : Context)
    (request : NetworkServiceRequest) (forwarderName : String)
    (c : begin.NetworkServiceEndpoint) (rest : List begin.NetworkServiceEndpoint) (i : Nat)
    (candidatesErr : begin.Error) (calls : List RequestCall) (u : URL)
    (hp : parse c.Url = some u) :
    ∃ more, (Request.tryCandidates parse nx ctx request forwarderName i (c :: rest)
      candidatesErr calls).2.1 = calls ++ (WithClientURL ctx u, request) :: more := by
  unfold Request.tryCandidates
  simp only [hp]
  cases hr : (nx.Request calls (WithClientURL ctx u) request).2 with
  | none => exact ⟨[], rfl⟩
  | some err =>
    simp only
    obtain ⟨more, hmore⟩ := tryCandidates_calls parse nx ctx request forwarderName rest (i + 1)
      (begin.Error.Wrap candidatesErr
        (toString i ++ ". An error during select forwarder " ++ c.Name ++ " --> " ++
          err.errorText))
      (calls ++ [(WithClientURL ctx u, request)])
    exact ⟨more, by rw [hmore]; simp⟩

/-- C22: in Request, when no forwarder name is stored for the connection, the state is not
RESELECT_REQUESTED and the path has a segment right after the current index whose name is
the name of a matched candidate, the first candidate of that name is at the head of the
candidates the loop goes through, these are a permutation of the matched candidates, and the
first invocation of the next stage is for it (if its URL can be parsed); when a forwarder
name is stored or reselect is requested, the candidates are the matched ones in their
order. -/
theorem C22_sticky_forwarder_is_tried_first (d : discoverForwarderServer)
    (IsSubset : SubsetTest) (parse : String → Option URL) (nx : RequestNext)
    (calls : List RequestCall) (ctx : Context) (request : NetworkServiceRequest)
    (forwarderName : String) (matched : List begin.NetworkServiceEndpoint)
    (hm : Request.matched d IsSubset ctx request = Except.ok (forwarderName, matched)) :
    (loadForwarderName ctx = "" → request.Connection.State ≠ State.RESELECT_REQUESTED →
      ∀ segment,
        request.Connection.Path.PathSegments.get? (request.Connection.Path.Index + 1) =
          some segment →
        (∃ c ∈ matched, c.Name = segment.Name) →
        ∃ c rest,
          Request.candidates d IsSubset ctx request = Except.ok (forwarderName, c :: rest) ∧
          c.Name = segment.Name ∧
          matched.find? (fun x => decide (x.Name = segment.Name)) = some c ∧
          (c :: rest).Perm matched ∧
          (∀ u, parse c.Url = some u →
            ∃ more, (d.Request IsSubset parse nx calls ctx request).2.1 =
              calls ++ (WithClientURL ctx u, request) :: more)) ∧
    ((loadForwarderName ctx ≠ "" ∨ request.Connection.State = State.RESELECT_REQUESTED) →
      Request.candidates d IsSubset ctx request = Except.ok (forwarderName, matched)) := by
  have hname : forwarderName =
      if request.Connection.State = State.RESELECT_REQUESTED then ""
      else loadForwarderName ctx := by
    unfold Request.matched at hm
    simp only at hm
    split at hm
    · cases hm
    · split at hm
      · cases hm
      · split_ifs at hm
        all_goals (cases hm; simp [*])
  constructor
  · intro hload hstate segment hseg hmem
    obtain ⟨c, rest, hprom, hn, hfind⟩ := promote_head matched segment.Name hmem
    have hfn : forwarderName = "" := by rw [hname, hload]; simp
    have hcand : Request.candidates d IsSubset ctx request =
        Except.ok (forwarderName, c :: rest) := by
      unfold Request.candidates
      simp only [hm, hfn, hstate, hseg, hprom, ne_eq, not_false_eq_true, and_self, if_true]
    refine ⟨c, rest, hcand, hn, hfind, ?_, ?_⟩
    · rw [← hprom]; exact promote_perm matched segment.Name
    · intro u hu
      unfold discoverForwarderServer.Request
      simp only [hcand]
      exact tryCandidates_first parse nx ctx request forwarderName c rest 0 _ calls u hu
  · intro h
    unfold Request.candidates
    simp only [hm]
    rcases h with h | h
    · have hr : ¬ (forwarderName = "" ∧
          request.Connection.State ≠ State.RESELECT_REQUESTED) := by
        intro ⟨h1, h2⟩
        rw [hname] at h1
        simp only [h2, if_false] at h1
        exact h h1
      simp only [hr, if_false]
    · have hr : ¬ (forwarderName = "" ∧
          request.Connection.State ≠ State.RESELECT_REQUESTED) := fun ⟨_, h2⟩ => h2 h
      simp only [hr, if_false]

/-- C22, at a concrete input: the path of the request names `fwd-3`, the third of the three
matched forwarders, and no forwarder name is stored. -/
theorem C22_sticky_forwarder_witness :
    Request.matched Sample.registry Sample.isSubset {} Sample.request =
        Except.ok ("", Sample.forwarders) ∧
    ∃ c rest,
      Request.candidates Sample.registry Sample.isSubset {} Sample.request =
        Except.ok ("", c :: rest) ∧
      c.Name = "fwd-3" ∧ (c :: rest).Perm Sample.forwarders :=
  have h := (C22_sticky_forwarder_is_tried_first Sample.registry Sample.isSubset Sample.parse
    Sample.refusingAll [] {} Sample.request "" Sample.forwarders rfl).1 (by decide)
    (by decide) { Name := "fwd-3" } (by decide)
    ⟨{ Name := "fwd-3", Url := "tcp://10.0.0.3:5001" }, by decide, by decide⟩
  ⟨rfl, h.elim fun c hc => hc.elim fun rest hr => ⟨c, rest, hr.1, hr.2.1, hr.2.2.2.1⟩⟩

end discoverforwarder

/-! ## The discoverforwarder server: what the promotion does to the other candidates -/

namespace discoverforwarder

/-- C23 (counterexample): the path names `fwd-3`, the third of three matched forwarders.
The promotion exchanges it with `fwd-1`, so that the two other candidates, matched in the
order `fwd-1`, `fwd-2`, are gone through in the order `fwd-2`, `fwd-1`. -/
theorem C23_counterexample_promotion_reorders_others :
    Request.matched Sample.registry Sample.isSubset {} Sample.request =
        Except.ok ("", Sample.forwarders) ∧
    Request.candidates Sample.registry Sample.isSubset {} Sample.request =
        Except.ok ("",
          [{ Name := "fwd-3", Url := "tcp://10.0.0.3:5001" },
           { Name := "fwd-2", Url := "::bad::" },
           { Name := "fwd-1", Url := "tcp://10.0.0.1:5001" }]) ∧
    (Sample.forwarders.filter (fun c => decide (c.Name ≠ "fwd-3"))).map (fun c => c.Name) =
      ["fwd-1", "fwd-2"] ∧
    ((Request.promote Sample.forwarders "fwd-3").filter
      (fun c => decide (c.Name ≠ "fwd-3"))).map (fun c => c.Name) = ["fwd-2", "fwd-1"] := by
  refine ⟨rfl, rfl, by decide, by decide⟩

/-- C23 (amended): the promotion exchanges the sticky forwarder, found at index `i`, with the
first candidate: the sticky forwarder is at the head afterwards, the former first candidate
at index `i`, and every other candidate at the index it had, for every candidate list and
every position of the sticky forwarder. -/
theorem C23_promotion_exchanges_with_first (nses : List begin.NetworkServiceEndpoint)
    (name : String) (i : Nat) (h : Request.indexOfName name nses = some i) :
    (Request.promote nses name).length = nses.length ∧
    (Request.promote nses name).get? 0 = nses.get? i ∧
    (Request.promote nses name).get? i = nses.get? 0 ∧
    ∀ j, j ≠ 0 → j ≠ i → (Request.promote nses name).get? j = nses.get? j := by
  obtain ⟨c, hc, _, _⟩ := indexOfName_some name nses i h
  unfold Request.promote
  simp only [h]
  cases nses with
  | nil => simp at hc
  | cons a t =>
    cases i with
    | zero => simp [swap_zero]
    | succ k =>
      simp only [List.get?_cons_succ] at hc
      rw [swap_cons a c t k hc]
      rw [List.get?_eq_getElem?] at hc
      have hk : k < t.length := (List.getElem?_eq_some_iff.mp hc).1
      refine ⟨by simp, by simp [hc], ?_, ?_⟩
      · simp [List.get?_eq_getElem?, List.getElem?_set, hk]
      · intro j hj0 hji
        cases j with
        | zero => exact absurd rfl hj0
        | succ m =>
          have hmk : k ≠ m := fun e => hji (by rw [e])
          simp [List.get?_eq_getElem?, List.getElem?_set, hmk]

/-- C23 (amended), at a concrete input: the three sample forwarders with `fwd-3` promoted. -/
theorem C23_promotion_exchanges_witness :
    (Request.promote Sample.forwarders "fwd-3").length = Sample.forwarders.length ∧
    (Request.promote Sample.forwarders "fwd-3").get? 0 = Sample.forwarders.get? 2 ∧
    (Request.promote Sample.forwarders "fwd-3").get? 2 = Sample.forwarders.get? 0 ∧
    ∀ j, j ≠ 0 → j ≠ 2 →
      (Request.promote Sample.forwarders "fwd-3").get? j = Sample.forwarders.get? j :=
  C23_promotion_exchanges_with_first Sample.forwarders "fwd-3" 2 (by decide)

end discoverforwarder

/-! ## The discoverforwarder server: the loop over the candidates -/

namespace discoverforwarder

/-- The invocations the loop makes for a list of candidates whose first one has a URL that
cannot be parsed are those for the other candidates. -/
theorem attempts_cons_none (parse : String → Option URL) (ctx : Context)
    (request : NetworkServiceRequest) (c : begin.NetworkServiceEndpoint)
    (rest : List begin.NetworkServiceEndpoint) (hp : parse c.Url = none) :
    (c :: rest).filterMap (Request.attempt parse ctx request) =
      rest.filterMap (Request.attempt parse ctx request) := by
  simp [List.filterMap_cons, Request.attempt, hp]

/-- The invocations the loop makes for a list of candidates whose first one has a URL that
can be parsed start with the one for that candidate. -/
theorem attempts_cons_some (parse : String → Option URL) (ctx : Context)
    (request : NetworkServiceRequest) (c : begin.NetworkServiceEndpoint)
    (rest : List begin.NetworkServiceEndpoint) (u : URL) (hp : parse c.Url = some u) :
    (c :: rest).filterMap (Request.attempt parse ctx request) =
      (WithClientURL ctx u, request) :: rest.filterMap (Request.attempt parse ctx request) := by
  simp [List.filterMap_cons, Request.attempt, hp]

/-- The loop stops at the first invocation of the next stage that succeeds and returns its
response. -/
theorem tryCandidates_success (parse : String → Option URL) (nx : RequestNext) (ctx : Context)
    (request : NetworkServiceRequest) (forwarderName : String)
    (nses : List begin.NetworkServiceEndpoint) (i : Nat) (candidatesErr : begin.Error)
    (calls pre post : List RequestCall) (a : RequestCall)
    (hsplit : nses.filterMap (Request.attempt parse ctx request) = pre ++ a :: post)
    (hpre : Request.AllFail nx calls pre)
    (hok : (nx.Request (calls ++ pre) a.1 a.2).2 = none) :
    (Request.tryCandidates parse nx ctx request forwarderName i nses candidatesErr calls).1 =
        ((nx.Request (calls ++ pre) a.1 a.2).1, none) ∧
    (Request.tryCandidates parse nx ctx request forwarderName i nses candidatesErr calls).2.1 =
        calls ++ pre ++ [a] := by
  induction nses generalizing i candidatesErr calls pre with
  | nil => simp at hsplit
  | cons c rest ih =>
    unfold Request.tryCandidates
    cases hp : parse c.Url with
    | none =>
      rw [attempts_cons_none parse ctx request c rest hp] at hsplit
      exact ih _ _ _ _ hsplit hpre hok
    | some u =>
      rw [attempts_cons_some parse ctx request c rest u hp] at hsplit
      cases pre with
      | nil =>
        simp only [List.nil_append, List.cons.injEq] at hsplit
        obtain ⟨ha, _⟩ := hsplit
        subst ha
        simp only [List.append_nil] at hok ⊢
        simp only [hok]
        exact ⟨trivial, trivial⟩
      | cons b pre' =>
        simp only [List.cons_append, List.cons.injEq] at hsplit
        obtain ⟨hb, hrest⟩ := hsplit
        subst hb
        obtain ⟨hfail, hpre'⟩ := hpre
        obtain ⟨err, herr⟩ := Option.ne_none_iff_exists'.mp hfail
        simp only at herr
        simp only [herr]
        have hok' : (nx.Request ((calls ++ [(WithClientURL ctx u, request)]) ++ pre') a.1
            a.2).2 = none := by
          simpa using hok
        have h := ih (i + 1)
          (begin.Error.Wrap candidatesErr
            (toString i ++ ". An error during select forwarder " ++ c.Name ++ " --> " ++
              err.errorText))
          (calls ++ [(WithClientURL ctx u, request)]) pre' hrest hpre' hok'
        simpa using h

/-- When every invocation of the next stage fails, the loop goes through all the candidates
and wraps the error it started with once for each invocation. -/
theorem tryCandidates_failure (parse : String → Option URL) (nx : RequestNext) (ctx : Context)
    (request : NetworkServiceRequest) (forwarderName : String)
    (nses : List begin.NetworkServiceEndpoint) (i : Nat) (candidatesErr : begin.Error)
    (calls : List RequestCall)
    (hall : Request.AllFail nx calls (nses.filterMap (Request.attempt parse ctx request))) :
    ∃ e,
      (Request.tryCandidates parse nx ctx request forwarderName i nses candidatesErr calls).1 =
        (none, some e) ∧
      e.root = candidatesErr.root ∧
      e.wraps = candidatesErr.wraps +
        (nses.filterMap (Request.attempt parse ctx request)).length ∧
      (Request.tryCandidates parse nx ctx request forwarderName i nses candidatesErr calls).2.1 =
        calls ++ nses.filterMap (Request.attempt parse ctx request) := by
  induction nses generalizing i candidatesErr calls with
  | nil => exact ⟨candidatesErr, by simp [Request.tryCandidates]⟩
  | cons c rest ih =>
    unfold Request.tryCandidates
    cases hp : parse c.Url with
    | none =>
      rw [attempts_cons_none parse ctx request c rest hp] at hall ⊢
      exact ih _ _ _ hall
    | some u =>
      rw [attempts_cons_some parse ctx request c rest u hp] at hall ⊢
      obtain ⟨hfail, hrest⟩ := hall
      obtain ⟨err, herr⟩ := Option.ne_none_iff_exists'.mp hfail
      simp only at herr
      simp only [herr]
      obtain ⟨e, h1, h2, h3, h4⟩ := ih (i + 1)
        (begin.Error.Wrap candidatesErr
          (toString i ++ ". An error during select forwarder " ++ c.Name ++ " --> " ++
            err.errorText))
        (calls ++ [(WithClientURL ctx u, request)]) hrest
      refine ⟨e, h1, ?_, ?_, ?_⟩
      · rw [h2]; rfl
      · rw [h3]; simp only [begin.Error.wraps, List.length_cons]; omega
      · rw [h4]; simp

/-- C24: Request invokes the next stage for the candidates in the order of the list, leaving
out those whose URL cannot be parsed; it returns the response of the first invocation that
succeeds and makes no later one; if every invocation fails it returns no connection and an
error whose innermost cause is "all forwarders have failed", wrapped once for each
invocation made. -/
theorem C24_candidates_are_tried_in_order (d : discoverForwarderServer)
    (IsSubset : SubsetTest) (parse : String → Option URL) (nx : RequestNext)
    (calls : List RequestCall) (ctx : Context) (request : NetworkServiceRequest)
    (forwarderName : String) (nses : List begin.NetworkServiceEndpoint)
    (hc : Request.candidates d IsSubset ctx request = Except.ok (forwarderName, nses)) :
    (∀ pre a post,
      nses.filterMap (Request.attempt parse ctx request) = pre ++ a :: post →
      Request.AllFail nx calls pre →
      (nx.Request (calls ++ pre) a.1 a.2).2 = none →
      (d.Request IsSubset parse nx calls ctx request).1 =
          ((nx.Request (calls ++ pre) a.1 a.2).1, none) ∧
      (d.Request IsSubset parse nx calls ctx request).2.1 = calls ++ pre ++ [a]) ∧
    (Request.AllFail nx calls (nses.filterMap (Request.attempt parse ctx request)) →
      ∃ e,
        (d.Request IsSubset parse nx calls ctx request).1 = (none, some e) ∧
        e.root = begin.Error.New "all forwarders have failed" ∧
        e.wraps = (nses.filterMap (Request.attempt parse ctx request)).length ∧
        (d.Request IsSubset parse nx calls ctx request).2.1 =
          calls ++ nses.filterMap (Request.attempt parse ctx request)) := by
  constructor
  · intro pre a post hsplit hpre hok
    unfold discoverForwarderServer.Request
    simp only [hc]
    exact tryCandidates_success parse nx ctx request forwarderName nses 0 _ calls pre post a
      hsplit hpre hok
  · intro hall
    unfold discoverForwarderServer.Request
    simp only [hc]
    obtain ⟨e, h1, h2, h3, h4⟩ := tryCandidates_failure parse nx ctx request forwarderName nses
      0 (begin.Error.New "all forwarders have failed") calls hall
    refine ⟨e, h1, ?_, ?_, h4⟩
    · rw [h2]; rfl
    · rw [h3]; simp [begin.Error.wraps]

/-- C24, at a concrete input: of the three sample forwarders promoted for `fwd-3`, the next
stage refuses `fwd-3`, the URL of `fwd-2` cannot be parsed, and `fwd-1` succeeds: the next
stage is invoked for `fwd-3` and then for `fwd-1`, whose response is returned. -/
theorem C24_candidates_witness :
    Request.candidates Sample.registry Sample.isSubset {} Sample.request =
        Except.ok ("", Request.promote Sample.forwarders "fwd-3") ∧
    (Sample.registry.Request Sample.isSubset Sample.parse Sample.refusingThird [] {}
        Sample.request).1 = (some Sample.request.Connection, none) ∧
    (Sample.registry.Request Sample.isSubset Sample.parse Sample.refusingThird [] {}
        Sample.request).2.1 =
      [({ clientURL := some "tcp://10.0.0.3:5001" }, Sample.request),
       ({ clientURL := some "tcp://10.0.0.1:5001" }, Sample.request)] :=
  have h := (C24_candidates_are_tried_in_order Sample.registry Sample.isSubset Sample.parse
    Sample.refusingThird [] {} Sample.request "" (Request.promote Sample.forwarders "fwd-3")
    rfl).1 [({ clientURL := some "tcp://10.0.0.3:5001" }, Sample.request)]
    ({ clientURL := some "tcp://10.0.0.1:5001" }, Sample.request) [] (by decide)
    ⟨by decide, trivial⟩ (by decide)
  ⟨rfl, h.1, h.2⟩

end discoverforwarder

/-! ## The dnsresolve registry elements: `translateNSE` renames -/

namespace dnsresolve

/-- Reading a map after a delete. -/
theorem get_delete (m : LabelMap) (key k : String) :
    (m.delete key).get k = if k = key then none else m.get k := by
  induction m with
  | nil => simp [LabelMap.delete, LabelMap.get]
  | cons kv rest ih =>
    obtain ⟨a, b⟩ := kv
    unfold LabelMap.delete LabelMap.get at ih ⊢
    by_cases hak : a = key
    · subst hak
      by_cases hk : k = a
      · subst hk
        simpa [List.filter, List.lookup] using ih
      · have hk' : (k == a) = false := by simpa using hk
        simp only [hk, if_false] at ih ⊢
        simpa [List.filter, List.lookup, hk'] using ih
    · have hak' : (a != key) = true := by simpa using hak
      by_cases hk : k = a
      · subst hk
        simp [List.filter, List.lookup, hak', hak]
      · have hk' : (k == a) = false := by simpa using hk
        simp only [List.filter, hak', List.lookup, hk']
        exact ih

/-- Reading a map after a write. -/
theorem get_set (m : LabelMap) (key k : String) (value : ServiceLabels) :
    (m.set key value).get k = if k = key then some value else m.get k := by
  by_cases hk : k = key
  · subst hk
    simp [LabelMap.set, LabelMap.get, List.lookup]
  · have hk' : (k == key) = false := by simpa using hk
    have h := get_delete m key k
    unfold LabelMap.delete LabelMap.get at h
    simp only [hk, if_false] at h ⊢
    simp only [LabelMap.set, LabelMap.get, List.lookup, hk']
    exact h

/-- One pass of the loop acts on the label map, seen as a function, as `renameStep` says. -/
theorem labelsOf_step (translator : String → String) (labels : Option LabelMap)
    (service : String) (k : String) :
    labelsOf
        (match labelsOf labels service with
          | none => labels
          | some l => labels.map (fun m => (m.delete service).set (translator service) l)) k =
      renameStep translator (labelsOf labels) service k := by
  unfold renameStep
  cases hl : labelsOf labels service with
  | none => rfl
  | some l =>
    cases labels with
    | none => simp [labelsOf] at hl
    | some m =>
      simp only [labelsOf, Option.map_some', Option.some_bind, get_set, get_delete]

/-- The loop writes the translated names back in order and acts on the label map as the
passes of `renameStep` do, one for each name. -/
theorem translate_loop_eq (translator : String → String) (rest names : List String)
    (labels : Option LabelMap) :
    (translateNSE.loop translator rest names labels).1 = names ++ rest.map translator ∧
    (∀ k, labelsOf (translateNSE.loop translator rest names labels).2 k =
      rest.foldl (renameStep translator) (labelsOf labels) k) ∧
    ((translateNSE.loop translator rest names labels).2 = none ↔ labels = none) := by
  induction rest generalizing names labels with
  | nil => simp [translateNSE.loop]
  | cons service rest ih =>
    unfold translateNSE.loop
    have hstep := labelsOf_step translator labels service
    cases hl : labelsOf labels service with
    | none =>
      simp only [hl] at hstep
      obtain ⟨h1, h2, h3⟩ := ih (names ++ [translator service]) labels
      refine ⟨by simp [h1], ?_, h3⟩
      intro k
      rw [h2 k, List.foldl_cons, ← funext hstep]
    | some l =>
      simp only [hl] at hstep
      obtain ⟨h1, h2, h3⟩ := ih (names ++ [translator service])
        (labels.map (fun m => (m.delete service).set (translator service) l))
      refine ⟨by simp [h1], ?_, ?_⟩
      · intro k
        rw [h2 k, List.foldl_cons, ← funext hstep]
      · rw [h3]
        cases labels <;> simp

/-- What the passes of the loop leave under a name `k`, for a translator that is injective
on the listed names and maps none of them to another listed name: the entry of the listed
name translated to `k`, if that name has an entry; otherwise nothing if `k` is listed, and
the entry `k` had if it is not. -/
theorem fold_spec (t : String → String) (N : List String)
    (hinj : ∀ a ∈ N, ∀ b ∈ N, t a = t b → a = b)
    (hfix : ∀ a ∈ N, t a ∈ N → t a = a) :
    ∀ (g : String → Option ServiceLabels) (k : String),
      (∀ n ∈ N, t n = k → ∀ l, g n = some l → N.foldl (renameStep t) g k = some l) ∧
      ((∀ n ∈ N, t n = k → g n = none) →
        N.foldl (renameStep t) g k = if k ∈ N then none else g k) := by
  induction N with
  | nil => intro g k; simp
  | cons n0 rest ih =>
    have hmem0 : n0 ∈ n0 :: rest := List.mem_cons_self _ _
    have IH := ih (fun a ha b hb => hinj a (List.mem_cons_of_mem _ ha) b (List.mem_cons_of_mem _ hb))
      (fun a ha hta => hfix a (List.mem_cons_of_mem _ ha) (List.mem_cons_of_mem _ hta))
    intro g k
    simp only [List.foldl_cons]
    cases hg0 : g n0 with
    | none =>
      have hg1 : renameStep t g n0 = g := by unfold renameStep; rw [hg0]
      rw [hg1]
      constructor
      · intro n hn hk l hl
        rcases List.mem_cons.mp hn with h | h
        · subst h; rw [hg0] at hl; cases hl
        · exact (IH g k).1 n h hk l hl
      · intro hnone
        rw [(IH g k).2 (fun n hn hk => hnone n (List.mem_cons_of_mem _ hn) hk)]
        by_cases hk0 : k = n0
        · subst hk0; simp [hg0]
        · simp [hk0]
    | some l0 =>
      have hg1 : ∀ x, renameStep t g n0 x =
          if x = t n0 then some l0 else if x = n0 then none else g x := by
        intro x; unfold renameStep; rw [hg0]
      constructor
      · intro n hn hk l hl
        by_cases hn0 : n = n0
        · subst hn0
          have hl0 : l0 = l := by rw [hg0] at hl; exact Option.some.inj hl
          subst hl0
          by_cases hc : n ∈ rest ∧ t n = n
          · have hgn : renameStep t g n n = some l0 := by rw [hg1]; simp [hc.2]
            exact (IH (renameStep t g n) k).1 n hc.1 hk l0 hgn
          · have hnone : ∀ m ∈ rest, t m = k → renameStep t g n m = none := by
              intro m hm hmk
              have hmn : m = n := hinj m (List.mem_cons_of_mem _ hm) n hmem0 (hmk.trans hk.symm)
              subst hmn
              have hne : ¬ m = t m := fun e => hc ⟨hm, e.symm⟩
              rw [hg1]; simp [hne]
            have hkn : k ∉ rest := by
              intro hkr
              have hfx : t n = n := hfix n hmem0 (by rw [hk]; exact List.mem_cons_of_mem _ hkr)
              exact hc ⟨by rw [← hfx, hk]; exact hkr, hfx⟩
            rw [(IH (renameStep t g n) k).2 hnone, if_neg hkn, hg1, if_pos hk.symm]
        · have hnr : n ∈ rest := by
            rcases List.mem_cons.mp hn with h | h
            · exact absurd h hn0
            · exact h
          have hne : ¬ n = t n0 := by
            intro e
            have hfx : t n0 = n0 := hfix n0 hmem0 (by rw [← e]; exact hn)
            exact hn0 (e.trans hfx)
          have hgn : renameStep t g n0 n = some l := by rw [hg1]; simp [hne, hn0, hl]
          exact (IH (renameStep t g n0) k).1 n hnr hk l hgn
      · intro hnone
        have hk0 : ¬ t n0 = k := by
          intro e
          have h0 := hnone n0 hmem0 e
          rw [hg0] at h0; cases h0
        have hnone1 : ∀ m ∈ rest, t m = k → renameStep t g n0 m = none := by
          intro m hm hmk
          have hgm := hnone m (List.mem_cons_of_mem _ hm) hmk
          have hne : ¬ m = t n0 := by
            intro e
            have hfx : t n0 = n0 :=
              hfix n0 hmem0 (by rw [← e]; exact List.mem_cons_of_mem _ hm)
            have hm0 : m = n0 := e.trans hfx
            exact hk0 (by rw [← hm0]; exact hmk)
          rw [hg1]; simp [hne, hgm]
        rw [(IH (renameStep t g n0) k).2 hnone1, hg1]
        have hkt : ¬ k = t n0 := fun e => hk0 e.symm
        by_cases hkr : k ∈ rest
        · simp [hkr]
        · by_cases hkn : k = n0
          · subst hkn
            simp [hkr, hkt]
          · simp [hkr, hkn, hkt]

/-- C29 (counterexample): the endpoint lists the service `a` and carries labels for `a` and
for `b`, a name it does not list; the translator renames `a` to `b`. It is injective on the
listed names and maps none of them to another listed name, yet the entry kept for `b`, a
name not in the list, is overwritten by the entry of `a`. -/
theorem C29_counterexample_unlisted_entry_overwritten :
    (∀ a ∈ Sample.endpoint.NetworkServiceNames, ∀ b ∈ Sample.endpoint.NetworkServiceNames,
      Sample.aToB a = Sample.aToB b → a = b) ∧
    (∀ a ∈ Sample.endpoint.NetworkServiceNames,
      Sample.aToB a ∈ Sample.endpoint.NetworkServiceNames → Sample.aToB a = a) ∧
    "b" ∉ Sample.endpoint.NetworkServiceNames ∧
    labelsOf Sample.endpoint.NetworkServiceLabels "b" = some [("app", "beta")] ∧
    (translateNSE Sample.endpoint Sample.aToB).NetworkServiceLabels =
      some [("b", [("app", "alpha")])] ∧
    labelsOf (translateNSE Sample.endpoint Sample.aToB).NetworkServiceLabels "b" =
      some [("app", "alpha")] := by
  refine ⟨by decide, by decide, by decide, by decide, by decide, by decide⟩

/-- C29 (amended): `translateNSE` is a renaming: afterwards the name of the endpoint is the
translated old name and the list of service names is the old list mapped through the
translator; a nil label map stays nil; and for every translator that is injective on the
listed names, maps none of them to another listed name and maps none of them to a name
outside the list that has a label entry, the entry found under each translated name is the
entry the original name had, a listed name that is translated to another name has no entry
left under the old name, and the entries of names not in the list are untouched. -/
theorem C29_translateNSE_renames (nse : begin.NetworkServiceEndpoint)
    (t : String → String) :
    (translateNSE nse t).Name = t nse.Name ∧
    (translateNSE nse t).NetworkServiceNames = nse.NetworkServiceNames.map t ∧
    ((translateNSE nse t).NetworkServiceLabels = none ↔ nse.NetworkServiceLabels = none) ∧
    ((∀ a ∈ nse.NetworkServiceNames, ∀ b ∈ nse.NetworkServiceNames, t a = t b → a = b) →
      (∀ a ∈ nse.NetworkServiceNames, t a ∈ nse.NetworkServiceNames → t a = a) →
      (∀ a ∈ nse.NetworkServiceNames, t a ∉ nse.NetworkServiceNames →
        labelsOf nse.NetworkServiceLabels (t a) = none) →
      (∀ n ∈ nse.NetworkServiceNames,
        labelsOf (translateNSE nse t).NetworkServiceLabels (t n) =
          labelsOf nse.NetworkServiceLabels n) ∧
      (∀ n ∈ nse.NetworkServiceNames, t n ≠ n →
        labelsOf (translateNSE nse t).NetworkServiceLabels n = none) ∧
      (∀ k, k ∉ nse.NetworkServiceNames → ∀ l, labelsOf nse.NetworkServiceLabels k = some l →
        labelsOf (translateNSE nse t).NetworkServiceLabels k = some l) ∧
      (∀ k, k ∉ nse.NetworkServiceNames → k ∉ nse.NetworkServiceNames.map t →
        labelsOf (translateNSE nse t).NetworkServiceLabels k =
          labelsOf nse.NetworkServiceLabels k)) := by
  obtain ⟨h1, h2, h3⟩ := translate_loop_eq t nse.NetworkServiceNames [] nse.NetworkServiceLabels
  refine ⟨rfl, ?_, h3, ?_⟩
  · simpa [translateNSE] using h1
  · intro hinj hfix hfree
    have hspec := fold_spec t nse.NetworkServiceNames hinj hfix (labelsOf nse.NetworkServiceLabels)
    have hview : ∀ k, labelsOf (translateNSE nse t).NetworkServiceLabels k =
        nse.NetworkServiceNames.foldl (renameStep t) (labelsOf nse.NetworkServiceLabels) k :=
      fun k => h2 k
    have hunlisted : ∀ k, k ∉ nse.NetworkServiceNames → k ∉ nse.NetworkServiceNames.map t →
        labelsOf (translateNSE nse t).NetworkServiceLabels k =
          labelsOf nse.NetworkServiceLabels k := by
      intro k hk hkt
      rw [hview, (hspec k).2 (fun n hn hnk => absurd (List.mem_map.mpr ⟨n, hn, hnk⟩) hkt),
        if_neg hk]
    refine ⟨?_, ?_, ?_, hunlisted⟩
    rotate_left
    · intro n hn hne
      have hnone : ∀ m ∈ nse.NetworkServiceNames, t m = n →
          labelsOf nse.NetworkServiceLabels m = none := by
        intro m hm hmn
        have hfx : t m = m := hfix m hm (by rw [hmn]; exact hn)
        have hmeq : m = n := hfx.symm.trans hmn
        rw [hmeq] at hfx
        exact absurd hfx hne
      rw [hview, (hspec n).2 hnone, if_pos hn]
    · intro k hk l hl
      by_cases hkt : k ∈ nse.NetworkServiceNames.map t
      · obtain ⟨n, hn, hnk⟩ := List.mem_map.mp hkt
        subst hnk
        rw [hfree n hn hk] at hl
        cases hl
      · rw [hunlisted k hk hkt]; exact hl
    · intro n hn
      rw [hview]
      cases hg : labelsOf nse.NetworkServiceLabels n with
      | some l => exact (hspec (t n)).1 n hn rfl l hg
      | none =>
        have hnone : ∀ m ∈ nse.NetworkServiceNames, t m = t n →
            labelsOf nse.NetworkServiceLabels m = none := by
          intro m hm hmn
          rw [hinj m hm n hn hmn]; exact hg
        rw [(hspec (t n)).2 hnone]
        by_cases hmem : t n ∈ nse.NetworkServiceNames
        · simp [hmem]
        · simp only [hmem, if_false]
          exact hfree n hn hmem

/-- C29 (amended), at a concrete input: the endpoint lists `ns-1@domain` and carries labels
for it and for the unlisted service `other`; the translator cuts the domain off. -/
theorem C29_translateNSE_witness :
    labelsOf (translateNSE Sample.interdomainEndpoint Sample.target).NetworkServiceLabels
        "ns-1" = some [("app", "alpha")] ∧
    labelsOf (translateNSE Sample.interdomainEndpoint Sample.target).NetworkServiceLabels
        "ns-1@domain" = none ∧
    labelsOf (translateNSE Sample.interdomainEndpoint Sample.target).NetworkServiceLabels
        "other" = some [("app", "beta")] :=
  have h := (C29_translateNSE_renames Sample.interdomainEndpoint Sample.target).2.2.2
    (by decide) (by decide) (by decide)
  ⟨h.1 "ns-1@domain" (by decide), h.2.1 "ns-1@domain" (by decide) (by decide),
    h.2.2.1 "other" (by decide) [("app", "beta")] (by decide)⟩

end dnsresolve
